import Mathlib

/-! Scene construction and frame update of the Baikal preview renderer
(App/Scene/scene.cpp, App/main.cpp)

A shallow embedding of `Scene::LoadFromObj`, of the texture loader it uses and
of the two texture setters of `Scene`, and of the worker thread, the per-frame
update and the material keys of main.cpp, followed by theorems about the
material graph, the texture cache, the flattened geometry buffers and the
control flags.

Conventions of the embedding.

* `std::vector<T>` is `List T`; `v.push_back x` is `v ++ [x]`.  An indexing
  `v[k]` is `vecAt v k` (or `vecAtI v k` for an `int` index), which ends the
  call with `Failure.out_of_range` when `k` is not a valid position.
* `float` values are rationals: every finite `float` is a rational number and
  the only operations performed on them by the scene loader are copies and the
  comparison with `1.0f`.  The additions of `UpdateMaterialValue` are taken as
  exact: rounding is not modelled.
* `int` values are mathematical integers; container sizes and texture byte
  sizes are assumed to stay below `2^31`, so no arithmetic on them wraps.
* A thrown `std::runtime_error` is `Failure.runtime_error`.
* The collaborators (the Wavefront parser, the image library) and the
  platform-defined signedness of plain `char` are fields of `Env`.
-/

namespace Baikal

/-! ## Outcomes -/

/-- Ways in which a call ends without producing its value. -/
inductive Failure where
  | runtime_error (what : String)
  | out_of_range
  deriving DecidableEq, Repr

/-- Outcome of a call that may throw. -/
abbrev Result (α : Type) := Except Failure α

/-- The C++ type float, see the conventions above. -/
abbrev float := ℚ

/-- Element `v[k]` of a vector, for an unsigned position `k`. -/
def vecAt {α : Type} (v : List α) (k : Nat) : Result α :=
  match v[k]? with
  | some x => .ok x
  | none => .error .out_of_range

/-- Element `v[k]` of a vector, for an `int` position `k`. -/
def vecAtI {α : Type} (v : List α) (k : Int) : Result α :=
  if k < 0 then .error .out_of_range else vecAt v k.toNat

/-- The loop `for (int i = i0; i < i0 + n; ++i) body`, threading the state. -/
def forLoop {σ : Type} (body : Nat → σ → Result σ) : Nat → Nat → σ → Result σ
  | 0, _, s => .ok s
  | n + 1, i, s =>
    match body i s with
    | .ok s' => forLoop body n (i + 1) s'
    | .error e => .error e

/-! ## Ordered maps (`std::map`) -/

/-- Lookup `m.find(key)`: the mapped value, or `none` for `m.end()`. -/
def mapFind {κ ν : Type} [DecidableEq κ] : List (κ × ν) → κ → Option ν
  | [], _ => none
  | (k, v) :: rest, key => if k = key then some v else mapFind rest key

/-- Assignment `m[key] = val`. -/
def mapAssign {κ ν : Type} [DecidableEq κ] : List (κ × ν) → κ → ν → List (κ × ν)
  | [], key, val => [(key, val)]
  | (k, v) :: rest, key, val =>
    if k = key then (k, val) :: rest else (k, v) :: mapAssign rest key val

/-- Read access `m[key]` on `std::map<int, int>`: a missing key is inserted
with the value-initialised mapped value `0`. -/
def mapIndex (m : List (Int × Int)) (key : Int) : Int × List (Int × Int) :=
  match mapFind m key with
  | some v => (v, m)
  | none => (0, mapAssign m key 0)

/-! ## Data model -/

/-- Three-component vector of RadeonRays. -/
structure float3 where
  x : float
  y : float
  z : float
  deriving DecidableEq, Repr

/-- Squared norm `float3::sqnorm`. -/
def float3.sqnorm (v : float3) : float := v.x * v.x + v.y * v.y + v.z * v.z

/-- Two-component vector of RadeonRays. -/
structure float2 where
  x : float
  y : float
  deriving DecidableEq, Repr

/-- Modelled from the spec: the material kinds of `Scene::Bxdf`, declared in
Scene/scene.h, which is not among the sources. -/
inductive Bxdf where
  | kLambert
  | kMicrofacetGGX
  | kFresnelBlend
  | kPassthrough
  | kMix
  | kEmissive
  deriving DecidableEq, Repr

/-- Storage formats `Scene::RGBA8`, `Scene::RGBA16`, `Scene::RGBA32`. -/
inductive TextureFormat where
  | RGBA8
  | RGBA16
  | RGBA32
  deriving DecidableEq, Repr

/-- Modelled from the spec: `Scene::Material`, declared in Scene/scene.h,
which is not among the sources; the fields are those scene.cpp assigns, each
kept as a field of its own.  No statement below relates a texture index of a
composite node to its sub-material indices, or the other way round. -/
structure Material where
  kx : float3
  ni : float
  ns : float
  kxmapidx : Int
  nmapidx : Int
  nsmapidx : Int
  brdftopidx : Int
  brdfbaseidx : Int
  fresnel : float
  type : Bxdf
  twosided : Int
  deriving DecidableEq, Repr

/-- Modelled from the spec: the default constructor of `Scene::Material`
(Scene/scene.h is not among the sources).  The optional texture indices and
sub-material indices are absent, written `-1`, which is the value scene.cpp
tests `kxmapidx` against. -/
def Material.ctor : Material :=
  { kx := ⟨0, 0, 0⟩, ni := 1, ns := 0, kxmapidx := -1, nmapidx := -1, nsmapidx := -1,
    brdftopidx := -1, brdfbaseidx := -1, fresnel := 0, type := .kLambert, twosided := 0 }

/-- Texture descriptor `Scene::Texture`. -/
structure Texture where
  w : Nat
  h : Nat
  d : Nat
  fmt : TextureFormat
  dataoffset : Nat
  size : Nat
  deriving DecidableEq, Repr

/-- Shape record `Scene::Shape`: the ranges of one input shape in the flattened
buffers.  The transform and the angular velocity, which `LoadFromObj` sets to
constants, are left out. -/
structure Shape where
  startidx : Int
  numprims : Int
  startvtx : Int
  numvertices : Int
  linearvelocity : float3
  deriving DecidableEq, Repr

/-- Emissive primitive record `Scene::Emissive`. -/
structure Emissive where
  shapeidx : Int
  primidx : Int
  m : Int
  deriving DecidableEq, Repr

/-- The buffers of `Scene` that `LoadFromObj` fills.  A texture buffer
(`std::unique_ptr<char[]>`) is the list of its bytes, each a value `0..255`. -/
structure Scene where
  vertices_ : List float3
  normals_ : List float3
  uvs_ : List float2
  indices_ : List Int
  materialids_ : List Int
  shapes_ : List Shape
  materials_ : List Material
  material_names_ : List String
  textures_ : List Texture
  texturedata_ : List (List Nat)
  emissives_ : List Emissive
  envidx_ : Int
  deriving DecidableEq, Repr

/-- The freshly allocated scene `new Scene`: every buffer is empty.  The
initial `envidx_` is not read before `LoadFromObj` overwrites it. -/
def Scene.new : Scene :=
  { vertices_ := [], normals_ := [], uvs_ := [], indices_ := [], materialids_ := [],
    shapes_ := [], materials_ := [], material_names_ := [], textures_ := [],
    texturedata_ := [], emissives_ := [], envidx_ := 0 }

/-! ## Collaborators -/

/-- Raw material `tinyobj::material_t`: the fields `LoadFromObj` reads. -/
structure material_t where
  name : String
  diffuse : float3
  dissolve : float
  diffuse_texname : String
  normal_texname : String
  deriving DecidableEq, Repr

/-- Mesh `tinyobj::mesh_t`. -/
structure mesh_t where
  positions : List float
  normals : List float
  texcoords : List float
  indices : List Nat
  material_ids : List Int
  deriving DecidableEq, Repr

/-- Shape `tinyobj::shape_t`. -/
structure shape_t where
  name : String
  mesh : mesh_t
  deriving DecidableEq, Repr

/-- Sample types `TypeDesc::BASETYPE` of the image library; the types other
than the three scene.cpp names are `OTHER`. -/
inductive BASETYPE where
  | UINT8
  | HALF
  | FLOAT
  | OTHER (code : Nat)
  deriving DecidableEq, Repr

/-- Image header `ImageSpec`: dimensions and native sample type. -/
structure ImageSpec where
  width : Nat
  height : Nat
  depth : Nat
  basetype : BASETYPE
  deriving DecidableEq, Repr

/-- An opened image.  `read_image fmt xstride k` is the byte that
`ImageInput::read_image(fmt, data, xstride)` stores at offset `k` of `data`,
or `none` when the read leaves that byte as it was. -/
structure ImageInput where
  spec : ImageSpec
  read_image : BASETYPE → Nat → Nat → Option Nat

/-- What `LoadFromObj` runs against: the parser `tinyobj::LoadObj` (shapes,
materials and error string), the image library, the signedness of plain
`char` on the target, and the current values of the two static members of
`Scene`. -/
structure Env where
  char_signed : Bool
  LoadObj : String → String → List shape_t × List material_t × String
  ImageInput_open : String → Option ImageInput
  specularRoughness_ : float
  normalMapIntensity_ : float

/-! ## Texture loading -/

/-- Format of a texture from the native sample type of its source
(`GetTextureForemat`). -/
def GetTextureForemat (spec : ImageSpec) : TextureFormat :=
  if spec.basetype = .UINT8 then .RGBA8
  else if spec.basetype = .HALF then .RGBA16
  else .RGBA32

/-- Effect of `read_image` on a buffer: the bytes the reader stores replace
the previous contents. -/
def readInto (wr : Nat → Option Nat) (buffer : List Nat) : List Nat :=
  buffer.enum.map (fun p => match wr p.1 with
    | some v => v % 256
    | none => p.2)

/-- Size in bytes of `float`. -/
def sizeof_float : Nat := 4

/-- Size in bytes of the four-float `RadeonRays::float3`. -/
def sizeof_float3 : Nat := 16

/-- Loader `LoadTexture(filename, texture, data)`: the descriptor written to
`texture` and the pool `data` after the call.  A buffer that is not
initialised before the read is modelled with zero bytes. -/
def LoadTexture (env : Env) (filename : String) (data : List (List Nat)) :
    Result (Texture × List (List Nat)) :=
  match env.ImageInput_open filename with
  | none => .error (.runtime_error ("Can't load " ++ filename ++ " image"))
  | some input =>
    let spec := input.spec
    let fmt := GetTextureForemat spec
    let dataoffset := data.length
    match fmt with
    | .RGBA8 =>
      let size := spec.width * spec.height * spec.depth * 4
      let buffer := List.replicate size 255
      let texturedata := readInto (input.read_image .UINT8 4) buffer
      .ok ({ w := spec.width, h := spec.height, d := spec.depth, fmt := fmt,
             dataoffset := dataoffset, size := size }, data ++ [texturedata])
    | .RGBA16 =>
      let size := spec.width * spec.height * spec.depth * sizeof_float * 2
      let texturedata := readInto (input.read_image .HALF (sizeof_float * 2))
        (List.replicate size 0)
      .ok ({ w := spec.width, h := spec.height, d := spec.depth, fmt := fmt,
             dataoffset := dataoffset, size := size }, data ++ [texturedata])
    | .RGBA32 =>
      let size := spec.width * spec.height * spec.depth * sizeof_float3
      let texturedata := readInto (input.read_image .FLOAT sizeof_float3)
        (List.replicate size 0)
      .ok ({ w := spec.width, h := spec.height, d := spec.depth, fmt := fmt,
             dataoffset := dataoffset, size := size }, data ++ [texturedata])

/-! ## The material loop of `Scene::LoadFromObj` -/

/-- Local state of `LoadFromObj`: the scene under construction, the texture
map `textures` (file name to texture index) and the material map `matmap`
(raw material index to compiled node index). -/
structure LoadState where
  scene : Scene
  textures : List (String × Int)
  matmap : List (Int × Int)
  deriving DecidableEq, Repr

/-- The find-or-load block that `LoadFromObj` repeats for each texture name:
a name found in `textures` yields its index, otherwise the texture is loaded,
its descriptor appended to `textures_` and the new index saved in the map. -/
def resolveTexture (env : Env) (basepath name : String) (st : LoadState) :
    Result (Int × LoadState) :=
  match mapFind st.textures name with
  | some idx => .ok (idx, st)
  | none =>
    match LoadTexture env (basepath ++ name) st.scene.texturedata_ with
    | .error e => .error e
    | .ok (texture, data) =>
      let idx : Int := st.scene.textures_.length
      .ok (idx, { st with
        scene := { st.scene with
          texturedata_ := data, textures_ := st.scene.textures_ ++ [texture] }
        textures := mapAssign st.textures name idx })

/-- Appends one node and its name (`materials_.push_back`,
`material_names_.push_back`). -/
def pushMaterial (st : LoadState) (m : Material) (name : String) : LoadState :=
  { st with scene := { st.scene with
      materials_ := st.scene.materials_ ++ [m]
      material_names_ := st.scene.material_names_ ++ [name] } }

/-- Block 1 of the loop body (lines 159-215): builds `diffuseMaterial`,
resolves its diffuse and normal textures and appends it.  Returns
`diffuseMaterial` with the state. -/
def lambertStep (env : Env) (basepath : String) (om : material_t) (st : LoadState) :
    Result (Material × LoadState) := do
  let d0 : Material := { Material.ctor with
    kx := om.diffuse, ni := env.normalMapIntensity_, type := .kLambert, fresnel := 0 }
  let (d1, st1) ←
    if om.diffuse_texname ≠ "" then do
      let (idx, st') ← resolveTexture env basepath om.diffuse_texname st
      pure ({ d0 with kxmapidx := idx }, st')
    else pure (d0, st)
  let (d2, st2) ←
    if om.normal_texname ≠ "" then do
      let (idx, st') ← resolveTexture env basepath om.normal_texname st1
      pure ({ d1 with nmapidx := idx }, st')
    else pure (d1, st1)
  pure (d2, pushMaterial st2 d2 om.name)

/-- Block 2 of the loop body (lines 217-266): the GGX node and the
Fresnel-blend node over it and the Lambert node. -/
def specularStep (env : Env) (basepath : String) (om : material_t) (st : LoadState) :
    Result LoadState := do
  let spec : float3 := ⟨1, 1, 1⟩
  if spec.sqnorm > 0 then do
    let s0 : Material := { Material.ctor with
      kx := spec, ni := 133 / 100, ns := env.specularRoughness_, type := .kMicrofacetGGX,
      nmapidx := -1, fresnel := 5 }
    let (specular, st1) ←
      if om.normal_texname ≠ "" then do
        let (idx, st') ← resolveTexture env basepath om.normal_texname st
        pure ({ s0 with nmapidx := idx }, st')
      else pure (s0, st)
    let st2 := pushMaterial st1 specular om.name
    let layered : Material := { Material.ctor with
      ni := 133 / 100, type := .kFresnelBlend,
      brdftopidx := (st2.scene.materials_.length : Int) - 1,
      brdfbaseidx := (st2.scene.materials_.length : Int) - 2,
      fresnel := 1, twosided := 1 }
    pure (pushMaterial st2 layered om.name)
  else pure st

/-- Value of a stored byte read through a plain `char` lvalue, and of the
conversion `(char)(b)`: with a signed `char` the values `128..255` become
`-128..-1`. -/
def toChar (char_signed : Bool) (b : Nat) : Int :=
  if char_signed && decide (128 ≤ b % 256) then (b % 256 : Int) - 256 else (b % 256 : Int)

/-- The alpha scan `for (int i = 3; i < size; i += 4) if (data[i] < (char)(255))
{ isTransparent = true; break; }`, started at `i` with a bound `fuel` on the
number of iterations.  The result is the final value of `isTransparent`. -/
def alphaScan (char_signed : Bool) (data : List Nat) (size : Nat) : Nat → Nat → Result Bool
  | 0, _ => .ok false
  | fuel + 1, i =>
    if i < size then
      match vecAt data i with
      | .error e => .error e
      | .ok c =>
        if toChar char_signed c < toChar char_signed 255 then .ok true
        else alphaScan char_signed data size fuel (i + 4)
    else .ok false

/-- Lines 268-283: the transparency predicate `isTransparent`. -/
def transparencyTest (env : Env) (om : material_t) (diffuseMaterial : Material)
    (scene : Scene) : Result Bool := do
  let isTransparent := decide (om.dissolve < 1)
  if !isTransparent && diffuseMaterial.kxmapidx != -1 then do
    let t ← vecAtI scene.textures_ diffuseMaterial.kxmapidx
    if t.fmt = .RGBA8 then do
      let data ← vecAtI scene.texturedata_ diffuseMaterial.kxmapidx
      alphaScan env.char_signed data t.size t.size 3
    else pure isTransparent
  else pure isTransparent

/-- Block 3 of the loop body (lines 289-319): the pass-through node and the
mix node over it and the preceding node. -/
def mixStep (om : material_t) (diffuseMaterial : Material) (st : LoadState) : LoadState :=
  let passthrough : Material := { Material.ctor with ni := 1, type := .kPassthrough }
  let st1 := pushMaterial st passthrough om.name
  let mix : Material := { Material.ctor with
    ni := 1, type := .kMix, fresnel := 0,
    brdftopidx := (st1.scene.materials_.length : Int) - 1,
    brdfbaseidx := (st1.scene.materials_.length : Int) - 2,
    ns := om.dissolve, nsmapidx := diffuseMaterial.kxmapidx }
  pushMaterial st1 mix om.name

/-- One iteration of the material loop (lines 157-321) for raw material `om`
of index `i`. -/
def compileMaterial (env : Env) (basepath : String) (i : Nat) (om : material_t)
    (st : LoadState) : Result LoadState := do
  let (diffuseMaterial, st1) ← lambertStep env basepath om st
  let st2 ← specularStep env basepath om st1
  let isTransparent ← transparencyTest env om diffuseMaterial st2.scene
  let st3 := if isTransparent then mixStep om diffuseMaterial st2 else st2
  pure { st3 with
    matmap := mapAssign st3.matmap (i : Int) ((st3.scene.materials_.length : Int) - 1) }

/-- Body of the material loop: iteration `i` reads `objmaterials[i]`. -/
def materialBody (env : Env) (basepath : String) (objmaterials : List material_t)
    (i : Nat) (st : LoadState) : Result LoadState := do
  let om ← vecAt objmaterials i
  compileMaterial env basepath i om st

/-- The material loop `for (int i = 0; i < (int)objmaterials.size(); ++i)`. -/
def materialLoop (env : Env) (basepath : String) (objmaterials : List material_t)
    (st : LoadState) : Result LoadState :=
  forLoop (materialBody env basepath objmaterials) objmaterials.length 0 st

/-! ## The shape loop of `Scene::LoadFromObj` -/

/-- Lines 341-344: copies the positions of a mesh, three floats per vertex. -/
def copyVertices (mesh : mesh_t) (pos_count : Nat) (scene : Scene) : Result Scene :=
  forLoop (fun i scene => do
    let x ← vecAt mesh.positions (3 * i)
    let y ← vecAt mesh.positions (3 * i + 1)
    let z ← vecAt mesh.positions (3 * i + 2)
    pure { scene with vertices_ := scene.vertices_ ++ [⟨x, y, z⟩] }) pos_count 0 scene

/-- Lines 346-349: copies the normals of a mesh, three floats per normal. -/
def copyNormals (mesh : mesh_t) (scene : Scene) : Result Scene :=
  forLoop (fun i scene => do
    let x ← vecAt mesh.normals (3 * i)
    let y ← vecAt mesh.normals (3 * i + 1)
    let z ← vecAt mesh.normals (3 * i + 2)
    pure { scene with normals_ := scene.normals_ ++ [⟨x, y, z⟩] })
    (mesh.normals.length / 3) 0 scene

/-- Lines 351-367: copies the UV stream when its count matches the vertex
count, otherwise appends one zero pair per vertex. -/
def copyUVs (mesh : mesh_t) (pos_count : Nat) (scene : Scene) : Result Scene :=
  let texcoords_count := mesh.texcoords.length / 2
  if texcoords_count = pos_count then
    forLoop (fun i scene => do
      let u ← vecAt mesh.texcoords (2 * i)
      let v ← vecAt mesh.texcoords (2 * i + 1)
      pure { scene with uvs_ := scene.uvs_ ++ [⟨u, v⟩] }) texcoords_count 0 scene
  else
    forLoop (fun _ scene =>
      pure { scene with uvs_ := scene.uvs_ ++ [⟨0, 0⟩] }) pos_count 0 scene

/-- Body of the triangle loop (lines 372-386) for triangle `i` of shape `s`. -/
def triangleStep (mesh : mesh_t) (s : Nat) (i : Nat) (st : LoadState) : Result LoadState := do
  let i0 ← vecAt mesh.indices (3 * i)
  let i1 ← vecAt mesh.indices (3 * i + 1)
  let i2 ← vecAt mesh.indices (3 * i + 2)
  let id ← vecAt mesh.material_ids i
  let (matidx, matmap) := mapIndex st.matmap id
  let scene1 : Scene := { st.scene with
    indices_ := st.scene.indices_ ++ [(i0 : Int), (i1 : Int), (i2 : Int)]
    materialids_ := st.scene.materialids_ ++ [matidx] }
  let node ← vecAtI scene1.materials_ matidx
  let scene2 : Scene :=
    if node.type = .kEmissive then
      { scene1 with emissives_ := scene1.emissives_ ++
          [{ shapeidx := (s : Int), primidx := (i : Int), m := matidx }] }
    else scene1
  pure { st with scene := scene2, matmap := matmap }

/-- One iteration of the shape loop (lines 326-390) for shape `s`. -/
def shapeStep (objshapes : List shape_t) (s : Nat) (st : LoadState) : Result LoadState := do
  let sh ← vecAt objshapes s
  let shape : Shape :=
    { startidx := (st.scene.indices_.length : Int)
      numprims := ((sh.mesh.indices.length / 3 : Nat) : Int)
      startvtx := (st.scene.vertices_.length : Int)
      numvertices := ((sh.mesh.positions.length / 3 : Nat) : Int)
      linearvelocity := ⟨0, 0, 0⟩ }
  let pos_count := sh.mesh.positions.length / 3
  let scene1 ← copyVertices sh.mesh pos_count st.scene
  let scene2 ← copyNormals sh.mesh scene1
  let scene3 ← copyUVs sh.mesh pos_count scene2
  let st4 ← forLoop (triangleStep sh.mesh s) (sh.mesh.indices.length / 3) 0
    { st with scene := scene3 }
  pure { st4 with scene := { st4.scene with shapes_ := st4.scene.shapes_ ++ [shape] } }

/-- The shape loop `for (int s = 0; s < (int)objshapes.size(); ++s)`. -/
def shapeLoop (objshapes : List shape_t) (st : LoadState) : Result LoadState :=
  forLoop (shapeStep objshapes) objshapes.length 0 st

/-- Lines 392-399: the scene-wide UV fallback and the reset of `envidx_`. -/
def finishScene (scene : Scene) : Scene :=
  let scene1 : Scene :=
    if scene.uvs_.isEmpty then
      { scene with uvs_ := List.replicate scene.normals_.length ⟨0, 0⟩ }
    else scene
  { scene1 with envidx_ := -1 }

/-- State at the start of the material loop: a new scene and two empty maps. -/
def LoadState.init : LoadState := { scene := Scene.new, textures := [], matmap := [] }

/-- The function `Scene::LoadFromObj(filename, basepath)`. -/
def LoadFromObj (env : Env) (filename basepath : String) : Result Scene :=
  match env.LoadObj filename basepath with
  | (objshapes, objmaterials, res) =>
    if res ≠ "" then .error (.runtime_error res)
    else do
      let st1 ← materialLoop env basepath objmaterials LoadState.init
      let st2 ← shapeLoop objshapes st1
      pure (finishScene st2.scene)

/-! ## The control flags, the worker thread and the per-frame update (App/main.cpp)

The three flags of a `ControlData` are `std::atomic<int>` objects shared by the
driving thread and one worker.  Every access to a flag is one atomic operation,
so the code of a thread is modelled as a function of the values its atomic
operations meet: `renderIteration` takes the values the worker reads, and the
loops of `Update` take, for each flag, the value it holds when `Update`
operates on it.  Clock readings are inputs, in ticks of the clock. -/

/-- The values of the flags of a `ControlData`, and its device index. -/
structure ControlData where
  clear : Int
  stop : Int
  newdata : Int
  idx : Int
  deriving DecidableEq, Repr

/-- The call `std::atomic_compare_exchange_strong(&obj, &expected, desired)`
on `int` values: its result, `obj` after the call and `expected` after the
call. -/
def atomic_compare_exchange_strong (obj expected desired : Int) : Bool × Int × Int :=
  if obj = expected then (true, desired, expected) else (false, obj, obj)

/-- Calls a thread makes on the devices, named after the code:
`renderer->Clear`, `renderer->Render`, `output->GetData` into the host buffer
`fdata` of the device, `newdata.store(1)`, `context.Finish`, the upload
`WriteBuffer` of `elems` elements of the host buffer of device `src` into the
staging buffer of the primary device, and the launch of the accumulate kernel
with its second argument `count` and its global size. -/
inductive DeviceCall where
  | Clear (device : Int)
  | Render (device : Int)
  | GetData (device : Int)
  | StoreNewdata (device : Int)
  | Finish (device : Int)
  | WriteBuffer (src : Int) (elems : Int)
  | Accumulate (count : Int) (globalsize : Int)
  deriving DecidableEq, Repr

/-- What one iteration of the worker meets: the value `cd.stop.load()` returns
at the top of the iteration, the value of `cd.clear` when the compare-exchange
runs, and the clock reading `now` taken after the render call. -/
structure Observation where
  stop : Int
  clear : Int
  now : Int
  deriving DecidableEq, Repr

/-- Outcome of one iteration of the worker: the device calls in the order they
are made, the value of `cd.clear` right after the compare-exchange, and the
value of the local `updatetime` at the end of the iteration. -/
structure Iteration where
  calls : List DeviceCall
  clear : Int
  updatetime : Int
  deriving DecidableEq, Repr

/-- The count of `std::chrono::duration_cast<std::chrono::seconds>(d)`, for a
difference `d` of clock readings: whole seconds, rounded towards zero. -/
def whole_seconds (ticks_per_second : Int) (d : Int) : Int := Int.tdiv d ticks_per_second

/-- Body of the loop of `RenderThread` (lines 1036-1061) for the device
`idx`, from the value of `updatetime` at the start of the iteration. -/
def renderIteration (ticks_per_second : Int) (idx : Int) (updatetime : Int)
    (obs : Observation) : Iteration :=
  let result : Int := 1
  let update : Bool := false
  match atomic_compare_exchange_strong obs.clear result 0 with
  | (exchanged, clear, _) =>
    let calls1 : List DeviceCall := if exchanged then [.Clear idx] else []
    let update1 : Bool := if exchanged then true else update
    let calls2 := calls1 ++ [.Render idx]
    let update2 : Bool :=
      update1 || decide (whole_seconds ticks_per_second (obs.now - updatetime) > 1)
    if update2 then
      { calls := calls2 ++ [.GetData idx, .StoreNewdata idx, .Finish idx]
        clear := clear, updatetime := obs.now }
    else
      { calls := calls2 ++ [.Finish idx], clear := clear, updatetime := updatetime }

/-- The function `RenderThread(cd)` for the device `idx`, run against the
observations of its successive iterations: the device calls it makes, and
whether it has returned.  `updatetime` is the clock reading taken when the
thread starts and, later, the local variable of that name. -/
def RenderThread (ticks_per_second : Int) (idx : Int) :
    Int → List Observation → List DeviceCall × Bool
  | _, [] => ([], false)
  | updatetime, obs :: rest =>
    if obs.stop ≠ 0 then ([], true)
    else
      let it := renderIteration ticks_per_second idx updatetime obs
      let r := RenderThread ticks_per_second idx it.updatetime rest
      (it.calls ++ r.1, r.2)

/-- Device classes `ConfigManager::kPrimary` and `ConfigManager::kSecondary`. -/
inductive DeviceType where
  | kPrimary
  | kSecondary
  deriving DecidableEq, Repr

/-- Entry `i` of the arrays `g_cfgs` and `g_ctrl`, which `InitCl` creates with
the same size: the class of device `i` and its control flags. -/
structure Device where
  type : DeviceType
  ctrl : ControlData
  deriving DecidableEq, Repr

/-- The globals of main.cpp that `Update` reads or writes, apart from the
camera and the scene. -/
structure Globals where
  devices : List Device
  g_primary : Int
  g_window_width : Int
  g_window_height : Int
  g_num_samples : Int
  g_samplecount : Int
  g_is_mouse_wheel : Bool
  g_is_fwd_pressed : Bool
  g_is_back_pressed : Bool
  g_is_right_pressed : Bool
  g_is_left_pressed : Bool
  g_is_home_pressed : Bool
  g_is_end_pressed : Bool
  g_material_changed : Bool
  g_light_changed : Bool
  deriving DecidableEq, Repr

/-- The local `update` of `Update` when the clear block is reached (lines
812-897).  `rot_vertical` and `rot_horizontal` are the outcomes of the tests
`std::abs(camroty) > 0.001f` and `std::abs(camrotx) > 0.001f` on the mouse
movement. -/
def updateRequested (rot_vertical rot_horizontal : Bool) (g : Globals) : Bool :=
  let update := false
  let update := if rot_vertical then true else update
  let update := if rot_horizontal then true else update
  let update := if g.g_is_mouse_wheel then true else update
  let update := if g.g_is_fwd_pressed then true else update
  let update := if g.g_is_back_pressed then true else update
  let update := if g.g_is_right_pressed then true else update
  let update := if g.g_is_left_pressed then true else update
  let update := if g.g_is_home_pressed then true else update
  let update := if g.g_is_end_pressed then true else update
  let update := if g.g_material_changed then true else update
  let update := if g.g_light_changed then true else update
  update

/-- The loop of lines 910-916, from index `i` on: the primary device is
cleared, every other device gets `clear.store(true)`. -/
def clearLoop (g_primary : Int) : Nat → List Device → List Device × List DeviceCall
  | _, [] => ([], [])
  | i, dev :: rest =>
    let r := clearLoop g_primary (i + 1) rest
    if (i : Int) = g_primary then (dev :: r.1, .Clear (i : Int) :: r.2)
    else ({ dev with ctrl := { dev.ctrl with clear := 1 } } :: r.1, r.2)

/-- The loop of lines 932-957, from index `i` on: for every device that is not
of the primary class the flag `newdata` is compare-exchanged from `1` to `0`,
and on success the host buffer of the device is uploaded and accumulated. -/
def mergeLoop (g_window_width g_window_height : Int) :
    Nat → List Device → List Device × List DeviceCall
  | _, [] => ([], [])
  | i, dev :: rest =>
    let r := mergeLoop g_window_width g_window_height (i + 1) rest
    if dev.type = .kPrimary then (dev :: r.1, r.2)
    else
      let desired : Int := 1
      match atomic_compare_exchange_strong dev.ctrl.newdata desired 0 with
      | (exchanged, newdata, _) =>
        let dev' : Device := { dev with ctrl := { dev.ctrl with newdata := newdata } }
        if exchanged then
          let globalsize := g_window_width * g_window_height
          (dev' :: r.1,
            [.WriteBuffer (i : Int) (g_window_width * g_window_height),
             .Accumulate (g_window_width * g_window_width)
               (Int.tdiv (globalsize + 63) 64 * 64)] ++ r.2)
        else (dev' :: r.1, r.2)

/-- The block `if (update) { ... }` of `Update` (lines 899-924): the sample
count is reset when a sample limit is set, and the clear loop runs. -/
def clearBlock (update : Bool) (g : Globals) : Globals × List DeviceCall :=
  if update then
    ({ g with
        g_is_mouse_wheel := false
        g_samplecount := if g.g_num_samples > -1 then 0 else g.g_samplecount
        devices := (clearLoop g.g_primary 0 g.devices).1 },
      (clearLoop g.g_primary 0 g.devices).2)
  else (g, [])

/-- Lines 925-928: the primary device renders unless the sample limit is
reached; `g_samplecount++` is evaluated only when a limit is set. -/
def renderPrimary (g : Globals) : Globals × List DeviceCall :=
  if g.g_num_samples = -1 then (g, [.Render g.g_primary])
  else if g.g_samplecount < g.g_num_samples then
    ({ g with g_samplecount := g.g_samplecount + 1 }, [.Render g.g_primary])
  else ({ g with g_samplecount := g.g_samplecount + 1 }, [])

/-- The function `Update()` up to the end of the merge loop, and its final
reset of the two change flags: the globals after the call and the device calls
made, in order.  The camera moves, the dirty flags of the scene, the
presentation of the image and the benchmark are left out. -/
def Update (rot_vertical rot_horizontal : Bool) (g : Globals) : Globals × List DeviceCall :=
  let update := updateRequested rot_vertical rot_horizontal g
  let r1 := clearBlock update g
  let r2 := renderPrimary r1.1
  let r3 := mergeLoop g.g_window_width g.g_window_height 0 r2.1.devices
  ({ r2.1 with devices := r3.1, g_material_changed := false, g_light_changed := false },
    r1.2 ++ r2.2 ++ r3.2)

/-- Element counts of the buffers that `InitData` creates for a device (lines
518-524): the host buffers `fdata` and `udata`, and the staging buffer
`copybuffer`, which only a device of the primary class gets. -/
structure OutputBuffers where
  fdata : Int
  udata : Int
  copybuffer : Option Int
  deriving DecidableEq, Repr

/-- The buffers of a device of class `type` for the given window size. -/
def InitData_buffers (g_window_width g_window_height : Int) (type : DeviceType) :
    OutputBuffers :=
  { fdata := g_window_width * g_window_height
    udata := g_window_width * g_window_height * 4
    copybuffer :=
      if type = .kPrimary then some (g_window_width * g_window_height) else none }

/-! ## The material keys (App/main.cpp, `UpdateMaterialValue`)

`UpdateMaterialValue` runs on the driving thread, between two calls of
`Update`.  The camera and the matrices of RadeonRays are not among the
sources: they are a type `κ` of cameras and a type `μ` of matrices with the
operations the function calls.  The additions `+=` on the two static floats
are taken as exact. -/

/-- The enumeration `MaterialUpdateMode`; a value that is none of the three
enumerators is `other`. -/
inductive MaterialUpdateMode where
  | specularRoughness
  | normalMapIntensity
  | lightAngle
  | other (value : Nat)
  deriving DecidableEq, Repr

/-- The operations of the camera and of the matrices that
`UpdateMaterialValue` calls, and the constant `PI`. -/
structure Rays (κ μ : Type) where
  PI : float
  Rotate : float → κ → κ
  GetCameraPos : κ → float3
  rotation_y : float → μ
  translation : float3 → μ
  inverse : μ → μ
  mul : μ → μ → μ

/-- What `UpdateMaterialValue` reads or writes: the mode and the two change
flags of main.cpp, the two static members of `Scene`, and of `g_scene` the
nodes `materials_`, the transforms `m` of the entries of `shapes_` in order,
and the camera. -/
structure MaterialState (κ μ : Type) where
  g_material_update_mode : MaterialUpdateMode
  g_material_changed : Bool
  g_light_changed : Bool
  specularRoughness_ : float
  normalMapIntensity_ : float
  materials_ : List Material
  shapes_m : List μ
  camera_ : κ

/-- The `switch` of lines 631-656: the value of `delta` and the state after
it, or `none` when the function returns at `default`. -/
def modeSwitch {κ μ : Type} (R : Rays κ μ) (isPositive : Bool) (a : MaterialState κ μ) :
    Option (float × MaterialState κ μ) :=
  match a.g_material_update_mode with
  | .specularRoughness =>
    some (if isPositive then 1 / 10 else -(1 / 10), { a with g_material_changed := true })
  | .normalMapIntensity =>
    some (if isPositive then 1 / 5 else -(1 / 5), { a with g_material_changed := true })
  | .lightAngle =>
    some (if isPositive then 15 * (R.PI / 180) else -15 * (R.PI / 180),
      { a with g_light_changed := true })
  | .other _ => none

/-- The block `if (g_material_changed)` of lines 659-687.  Each of the two
loops visits every node once and assigns one field of the node it visits. -/
def materialUpdate {κ μ : Type} (delta : float) (a : MaterialState κ μ) : MaterialState κ μ :=
  if a.g_material_changed then
    if a.g_material_update_mode = .specularRoughness then
      let specularRoughness_ := a.specularRoughness_ + delta
      { a with
        specularRoughness_ := specularRoughness_
        materials_ := a.materials_.map (fun material =>
          if material.type = .kMicrofacetGGX then { material with ns := specularRoughness_ }
          else material) }
    else if a.g_material_update_mode = .normalMapIntensity then
      let normalMapIntensity_ := a.normalMapIntensity_ + delta
      { a with
        normalMapIntensity_ := normalMapIntensity_
        materials_ := a.materials_.map (fun material =>
          if material.type = .kLambert then { material with ni := normalMapIntensity_ }
          else material) }
    else a
  else a

/-- The block `if (g_light_changed)` of lines 690-704: the state after it and
the arguments of the calls `camera_->Rotate` it makes.  The compound
assignment `m *= x` is `m = m * x`. -/
def lightRotate {κ μ : Type} (R : Rays κ μ) (delta : float) (a : MaterialState κ μ) :
    MaterialState κ μ × List float :=
  if a.g_light_changed then
    let camera := R.Rotate delta a.camera_
    let rot := R.rotation_y delta
    let cameraPos := R.GetCameraPos camera
    let translate := R.translation cameraPos
    ({ a with
        camera_ := camera
        shapes_m := a.shapes_m.map (fun m =>
          R.mul m (R.mul (R.mul translate rot) (R.inverse translate))) },
      [delta])
  else (a, [])

/-- The function `UpdateMaterialValue(isPositive)`: the state after the call
and the arguments of the calls `camera_->Rotate` made. -/
def UpdateMaterialValue {κ μ : Type} (R : Rays κ μ) (isPositive : Bool)
    (a : MaterialState κ μ) : MaterialState κ μ × List float :=
  match modeSwitch R isPositive a with
  | none => (a, [])
  | some (delta, a1) => lightRotate R delta (materialUpdate delta a1)

/-! ## The environment and background setters (App/Scene/scene.cpp) -/

/-- A `Scene` object as the two setters see it: the buffers of `Scene`, and the
members `envmapmul_` and `bgimgidx_`, which `LoadFromObj` does not assign. -/
structure SceneObject where
  scene : Scene
  envmapmul_ : float
  bgimgidx_ : Int
  deriving DecidableEq, Repr

/-- The function `Scene::SetEnvironment(filename, basepath, envmapmul)` (lines
409-434). -/
def SetEnvironment (env : Env) (filename basepath : String) (envmapmul : float)
    (obj : SceneObject) : Result SceneObject := do
  let obj1 : SceneObject := { obj with envmapmul_ := envmapmul }
  let (texture, data) ←
    if basepath ≠ "" then LoadTexture env (basepath ++ filename) obj1.scene.texturedata_
    else LoadTexture env filename obj1.scene.texturedata_
  pure { obj1 with scene := { obj1.scene with
    texturedata_ := data
    envidx_ := (obj1.scene.textures_.length : Int)
    textures_ := obj1.scene.textures_ ++ [texture] } }

/-- The function `Scene::SetBackground(filename, basepath)` (lines 436-456). -/
def SetBackground (env : Env) (filename basepath : String) (obj : SceneObject) :
    Result SceneObject := do
  let (texture, data) ←
    if basepath ≠ "" then LoadTexture env (basepath ++ filename) obj.scene.texturedata_
    else LoadTexture env filename obj.scene.texturedata_
  pure { obj with
    bgimgidx_ := (obj.scene.textures_.length : Int)
    scene := { obj.scene with
      texturedata_ := data
      textures_ := obj.scene.textures_ ++ [texture] } }

/-! # Definitions used by the statements and proofs -/

/-! ## The nodes of one raw material -/

/-- The Lambert node built for raw material `om` with the given texture
indices. -/
def lambertNode (env : Env) (om : material_t) (kxmapidx nmapidx : Int) : Material :=
  { Material.ctor with
    kx := om.diffuse, ni := env.normalMapIntensity_, type := .kLambert, fresnel := 0,
    kxmapidx := kxmapidx, nmapidx := nmapidx }

/-- The GGX node with the given normal-map index. -/
def ggxNode (env : Env) (nmapidx : Int) : Material :=
  { Material.ctor with
    kx := ⟨1, 1, 1⟩, ni := 133 / 100, ns := env.specularRoughness_, type := .kMicrofacetGGX,
    nmapidx := nmapidx, fresnel := 5 }

/-- The Fresnel-blend node created when `materials_` holds `n` nodes. -/
def layeredNode (n : Nat) : Material :=
  { Material.ctor with
    ni := 133 / 100, type := .kFresnelBlend,
    brdftopidx := (n : Int) - 1, brdfbaseidx := (n : Int) - 2, fresnel := 1, twosided := 1 }

/-- The pass-through node. -/
def passthroughNode : Material := { Material.ctor with ni := 1, type := .kPassthrough }

/-- The mix node created when `materials_` holds `n` nodes. -/
def mixNode (n : Nat) (dissolve : float) (nsmapidx : Int) : Material :=
  { Material.ctor with
    ni := 1, type := .kMix, fresnel := 0,
    brdftopidx := (n : Int) - 1, brdfbaseidx := (n : Int) - 2,
    ns := dissolve, nsmapidx := nsmapidx }

/-- Texture resolution of an optional name: the empty name leaves the index
at `-1` and the state as it is. -/
def resolveOpt (env : Env) (basepath name : String) (st : LoadState) :
    Result (Int × LoadState) :=
  if name ≠ "" then resolveTexture env basepath name st else .ok (-1, st)

/-- State after the GGX and Fresnel-blend nodes are appended to `st1`. -/
def afterSpecular (env : Env) (om : material_t) (d : Material) (st1 : LoadState) : LoadState :=
  pushMaterial (pushMaterial st1 (ggxNode env d.nmapidx) om.name)
    (layeredNode (st1.scene.materials_.length + 1)) om.name

/-- State at the end of the iteration for raw material `i`, from the state
`st1` after its Lambert node and the value `tr` of `isTransparent`. -/
def compiled (env : Env) (i : Nat) (om : material_t) (d : Material) (st1 : LoadState)
    (tr : Bool) : LoadState :=
  let st2 := afterSpecular env om d st1
  let st3 := if tr then mixStep om d st2 else st2
  { st3 with
    matmap := mapAssign st3.matmap (i : Int) ((st3.scene.materials_.length : Int) - 1) }

/-- The nodes one iteration appends after the Lambert node, when `materials_`
held `n` nodes before the iteration. -/
def tailNodes (env : Env) (om : material_t) (d : Material) (n : Nat) (tr : Bool) :
    List Material :=
  [ggxNode env d.nmapidx, layeredNode (n + 2)] ++
    (if tr then [passthroughNode, mixNode (n + 4) om.dissolve d.kxmapidx] else [])

/-! ## The per-shape copy loops -/

/-- The triple `(xs[3i], xs[3i+1], xs[3i+2])`. -/
def float3At (xs : List float) (i : Nat) : float3 :=
  ⟨xs.getD (3 * i) 0, xs.getD (3 * i + 1) 0, xs.getD (3 * i + 2) 0⟩

/-- The pair `(xs[2i], xs[2i+1])`. -/
def float2At (xs : List float) (i : Nat) : float2 :=
  ⟨xs.getD (2 * i) 0, xs.getD (2 * i + 1) 0⟩

/-- The vertices of a mesh, in order. -/
def shapeVertices (mesh : mesh_t) : List float3 :=
  (List.range (mesh.positions.length / 3)).map (float3At mesh.positions)

/-- The normals of a mesh, in order. -/
def shapeNormals (mesh : mesh_t) : List float3 :=
  (List.range (mesh.normals.length / 3)).map (float3At mesh.normals)

/-- The UV pairs a mesh contributes: its own when their count matches the
vertex count, zero pairs otherwise. -/
def shapeUVs (mesh : mesh_t) : List float2 :=
  if mesh.texcoords.length / 2 = mesh.positions.length / 3 then
    (List.range (mesh.positions.length / 3)).map (float2At mesh.texcoords)
  else List.replicate (mesh.positions.length / 3) ⟨0, 0⟩

/-! ## The triangle loop -/

/-- The value that reading `matmap[key]` yields: the recorded index, or `0`
for a key that was never assigned. -/
def matmapAt (m : List (Int × Int)) (key : Int) : Int := (mapFind m key).getD 0

/-- The indices of the complete triangles of a mesh, as stored in `indices_`. -/
def shapeIndices (mesh : mesh_t) : List Int :=
  (mesh.indices.take (3 * (mesh.indices.length / 3))).map (fun (v : Nat) => (v : Int))

/-- The raw material ids of the triangles of a mesh. -/
def shapeRawIds (mesh : mesh_t) : List Int :=
  mesh.material_ids.take (mesh.indices.length / 3)

/-- State reached by the triangle loop of a mesh after `n` iterations, from
the state `st0` at its start. -/
structure TrianglePrefix (mesh : mesh_t) (st0 : LoadState) (n : Nat) (st : LoadState) :
    Prop where
  scene : ∃ es, st.scene = { st0.scene with
    indices_ := st0.scene.indices_ ++ (mesh.indices.take (3 * n)).map (fun (v : Nat) => (v : Int))
    materialids_ := st0.scene.materialids_ ++
      (mesh.material_ids.take n).map (matmapAt st0.matmap)
    emissives_ := st0.scene.emissives_ ++ es }
  matmapAt : ∀ k, matmapAt st.matmap k = matmapAt st0.matmap k
  keeps : ∀ k v, mapFind st0.matmap k = some v → mapFind st.matmap k = some v
  textures : st.textures = st0.textures

/-! ## The shape loop -/

/-- The record appended to `shapes_` for a mesh when the buffers are those of
`scene`. -/
def shapeRecord (scene : Scene) (mesh : mesh_t) : Shape :=
  { startidx := (scene.indices_.length : Int)
    numprims := ((mesh.indices.length / 3 : Nat) : Int)
    startvtx := (scene.vertices_.length : Int)
    numvertices := ((mesh.positions.length / 3 : Nat) : Int)
    linearvelocity := ⟨0, 0, 0⟩ }

/-- State reached by the shape loop after `n` shapes, from the state `st0`
at its start. -/
structure ShapePrefix (objshapes : List shape_t) (st0 : LoadState) (n : Nat)
    (st : LoadState) : Prop where
  vertices : st.scene.vertices_ = st0.scene.vertices_ ++
    (objshapes.take n).flatMap (fun sh => shapeVertices sh.mesh)
  normals : st.scene.normals_ = st0.scene.normals_ ++
    (objshapes.take n).flatMap (fun sh => shapeNormals sh.mesh)
  uvs : st.scene.uvs_ = st0.scene.uvs_ ++
    (objshapes.take n).flatMap (fun sh => shapeUVs sh.mesh)
  indices : st.scene.indices_ = st0.scene.indices_ ++
    (objshapes.take n).flatMap (fun sh => shapeIndices sh.mesh)
  materialids : st.scene.materialids_ = st0.scene.materialids_ ++
    ((objshapes.take n).flatMap (fun sh => shapeRawIds sh.mesh)).map (matmapAt st0.matmap)
  shapes_length : st.scene.shapes_.length = st0.scene.shapes_.length + n
  materials : st.scene.materials_ = st0.scene.materials_
  material_names : st.scene.material_names_ = st0.scene.material_names_
  textures_ : st.scene.textures_ = st0.scene.textures_
  texturedata_ : st.scene.texturedata_ = st0.scene.texturedata_
  matmapAt : ∀ k, matmapAt st.matmap k = matmapAt st0.matmap k
  keeps : ∀ k v, mapFind st0.matmap k = some v → mapFind st.matmap k = some v

/-! ## Invariants of the material loop -/

/-- Every composite node refers to two earlier nodes of the sequence. -/
def Acyclic (ms : List Material) : Prop :=
  ∀ (k : Nat) (m : Material), ms[k]? = some m → (m.type = .kFresnelBlend ∨ m.type = .kMix) →
    0 ≤ m.brdftopidx ∧ m.brdftopidx < (k : Int) ∧ 0 ≤ m.brdfbaseidx ∧ m.brdfbaseidx < (k : Int)

/-! ## Sample inputs -/

/-- A quad: four vertices, two triangles, both of raw material `0`. -/
def quadMesh : mesh_t :=
  { positions := [0, 0, 0, 1, 0, 0, 1, 1, 0, 0, 1, 0], normals := [], texcoords := [],
    indices := [0, 1, 2, 0, 2, 3], material_ids := [0, 0] }

/-- A one-texel 8-bit image whose reader stores the colour `(10, 20, 30)` and
the alpha value `alpha`. -/
def texelImage (alpha : Nat) : ImageInput :=
  { spec := { width := 1, height := 1, depth := 1, basetype := .UINT8 }
    read_image := fun _ _ k =>
      if k = 0 then some 10 else if k = 1 then some 20 else if k = 2 then some 30
      else if k = 3 then some alpha else none }

/-- A one-texel float image. -/
def floatImage : ImageInput :=
  { spec := { width := 1, height := 1, depth := 1, basetype := .FLOAT }
    read_image := fun _ _ _ => some 0 }

/-- A raw material named `m` with the given opacity and texture names. -/
def sampleMaterial (dissolve : float) (diffuse_texname normal_texname : String) : material_t :=
  { name := "m", diffuse := ⟨1, 1, 1⟩, dissolve := dissolve,
    diffuse_texname := diffuse_texname, normal_texname := normal_texname }

/-- A world in which the parser yields `objshapes` and `objmaterials`, the
file `a.png` is a one-texel 8-bit image of alpha `alpha`, the file `f.exr` is
a float image, and no other image can be opened. -/
def sampleEnv (char_signed : Bool) (objshapes : List shape_t)
    (objmaterials : List material_t) (alpha : Nat) : Env :=
  { char_signed := char_signed
    LoadObj := fun _ _ => (objshapes, objmaterials, "")
    ImageInput_open := fun f =>
      if f = "a.png" then some (texelImage alpha)
      else if f = "f.exr" then some floatImage else none
    specularRoughness_ := 1 / 5
    normalMapIntensity_ := 4 }

/-! ## The texture pool invariant -/

/-- Consistency of the texture cache: one buffer per descriptor, each buffer
as long as the recorded size and found at the recorded offset, and every
cached index valid. -/
structure TexInv (st : LoadState) : Prop where
  pool : st.scene.texturedata_.length = st.scene.textures_.length
  sizes : ∀ (k : Nat) (t : Texture) (data : List Nat), st.scene.textures_[k]? = some t →
    st.scene.texturedata_[k]? = some data → data.length = t.size
  offsets : ∀ (k : Nat) (t : Texture), st.scene.textures_[k]? = some t → t.dataoffset = k
  cached : ∀ (n : String) (j : Int), mapFind st.textures n = some j →
    0 ≤ j ∧ j < (st.scene.textures_.length : Int)

/-! ## The texture cache (C5) -/

/-- The non-empty texture names the raw materials refer to, in the order the
material loop meets them. -/
def texRefs (mats : List material_t) : List String :=
  mats.flatMap (fun om => [om.diffuse_texname, om.normal_texname].filter (fun n => n ≠ ""))

/-- The keys of the texture map are exactly the names `refs` met so far, each
once, and there is one descriptor per key. -/
structure KeysInv (st : LoadState) (refs : List String) : Prop where
  nodup : (st.textures.map Prod.fst).Nodup
  length : st.textures.length = st.scene.textures_.length
  mem : ∀ n : String, n ∈ st.textures.map Prod.fst ↔ n ∈ refs

/-- Later states of the material loop keep the nodes and the cached texture
indices of earlier ones. -/
structure Grows (a b : LoadState) : Prop where
  materials : ∃ more, b.scene.materials_ = a.scene.materials_ ++ more
  textures : ∀ n j, mapFind a.textures n = some j → mapFind b.textures n = some j

/-! ## The material loop leaves the geometry buffers alone -/

/-- The geometry buffers of a scene. -/
def geometryOf (sc : Scene) :
    List float3 × List float3 × List float2 × List Int × List Int × List Shape ×
      List Emissive :=
  (sc.vertices_, sc.normals_, sc.uvs_, sc.indices_, sc.materialids_, sc.shapes_, sc.emissives_)

/-! ## More sample inputs -/

/-- A single triangle with three vertices, no normals and no UVs. -/
def triMesh : mesh_t :=
  { positions := [0, 0, 0, 1, 0, 0, 0, 1, 0], normals := [], texcoords := [],
    indices := [0, 1, 2], material_ids := [0] }

/-- A triangle with three vertices, three normals and three UV pairs. -/
def fullMesh : mesh_t :=
  { positions := [0, 0, 0, 1, 0, 0, 0, 1, 0], normals := [0, 0, 1, 0, 0, 1, 0, 0, 1],
    texcoords := [0, 0, 1, 0, 0, 1], indices := [0, 1, 2], material_ids := [0] }

/-- A state at the start of the shape loop in which raw material `0` is
compiled to the single node `0`. -/
def oneNodeState : LoadState :=
  { scene := { Scene.new with materials_ := [Material.ctor] }, textures := [],
    matmap := [(0, 0)] }

/-! ## The compiled-material table (C10) -/

/-- After `i` iterations every raw material below `i` is mapped to a valid
node whose type is Fresnel blend or mix. -/
def MatmapInv (i : Nat) (s : LoadState) : Prop :=
  ∀ r : Nat, r < i → ∃ v node, mapFind s.matmap (r : Int) = some v ∧ 0 ≤ v ∧
    s.scene.materials_[v.toNat]? = some node ∧
    (node.type = .kFresnelBlend ∨ node.type = .kMix)

/-! ## Sample observations of a worker -/

/-- An observation with the stop flag unset, the given value of the clear
flag and the given clock reading. -/
def running (clear now : Int) : Observation := { stop := 0, clear := clear, now := now }

/-- An observation with the stop flag set. -/
def stopping (clear now : Int) : Observation := { stop := 1, clear := clear, now := now }

/-! ## The published flag as a sequence of atomic operations -/

/-- The operations the running program performs on the flag `newdata` of a
device: the `newdata.store(1)` of its worker and the compare-exchange of
`Update`. -/
inductive NewdataOp where
  | publish
  | consume
  deriving DecidableEq, Repr

/-- Effect of one operation on the flag: its new value, and whether the
operation is a compare-exchange that succeeded, which is when `Update` merges
the buffer of the device. -/
def newdataStep (v : Int) : NewdataOp → Int × Bool
  | .publish => (1, false)
  | .consume => ((atomic_compare_exchange_strong v 1 0).2.1,
      (atomic_compare_exchange_strong v 1 0).1)

/-- Number of merges in a sequence of operations on the flag, from the value
`v`. -/
def mergesOf (v : Int) : List NewdataOp → Nat
  | [] => 0
  | op :: rest =>
    (if (newdataStep v op).2 then 1 else 0) + mergesOf (newdataStep v op).1 rest

/-- Device `dev` after the merge loop has passed it. -/
def consumeNewdata (dev : Device) : Device :=
  if dev.type = .kPrimary then dev
  else { dev with ctrl := { dev.ctrl with newdata := (newdataStep dev.ctrl.newdata .consume).1 } }

/-- The calls the merge loop makes for device `i`. -/
def mergeCalls (g_window_width g_window_height : Int) (i : Nat) (dev : Device) :
    List DeviceCall :=
  if dev.type ≠ .kPrimary ∧ dev.ctrl.newdata = 1 then
    [.WriteBuffer (i : Int) (g_window_width * g_window_height),
     .Accumulate (g_window_width * g_window_width)
       (Int.tdiv (g_window_width * g_window_height + 63) 64 * 64)]
  else []

/-- Two devices: a primary one and a secondary one whose flags hold the given
values. -/
def twoDevices (clear newdata : Int) : List Device :=
  [{ type := .kPrimary, ctrl := { clear := 0, stop := 0, newdata := 1, idx := 0 } },
   { type := .kSecondary, ctrl := { clear := clear, stop := 0, newdata := newdata, idx := 1 } }]

/-! ## The clear broadcast of `Update` -/

/-- Device `i` after the clear loop has passed it. -/
def requestClear (g_primary : Int) (i : Nat) (dev : Device) : Device :=
  if (i : Int) = g_primary then dev else { dev with ctrl := { dev.ctrl with clear := 1 } }

/-- Globals with the given devices, device `0` primary, a window of `4` by
`2`, no sample limit, and the given state of the material-change flag. -/
def sampleGlobals (devices : List Device) (g_material_changed : Bool) : Globals :=
  { devices := devices, g_primary := 0, g_window_width := 4, g_window_height := 2,
    g_num_samples := -1, g_samplecount := 0, g_is_mouse_wheel := false,
    g_is_fwd_pressed := false, g_is_back_pressed := false, g_is_right_pressed := false,
    g_is_left_pressed := false, g_is_home_pressed := false, g_is_end_pressed := false,
    g_material_changed := g_material_changed, g_light_changed := false }

/-! ## Emissive records -/

/-- The record the triangle loop appends for triangle `i` of shape `s` when
its compiled material index is `matidx`: one record if the node at `matidx`
is emissive, none otherwise. -/
def emissiveOf (materials : List Material) (s i : Nat) (matidx : Int) : List Emissive :=
  match vecAtI materials matidx with
  | .ok node =>
    if node.type = .kEmissive then
      [{ shapeidx := (s : Int), primidx := (i : Int), m := matidx }]
    else []
  | .error _ => []

/-- The records for a list of triangles, each given as shape index, primitive
index and compiled material index. -/
def emissiveRecords (materials : List Material) (tris : List (Nat × Nat × Int)) :
    List Emissive :=
  tris.flatMap (fun t => emissiveOf materials t.1 t.2.1 t.2.2)

/-- The triangles of shape `s`, with the compiled material index `f id` of
each. -/
def shapeTriangles (f : Int → Int) (s : Nat) (ids : List Int) : List (Nat × Nat × Int) :=
  ids.enum.map (fun q => (s, q.1, f q.2))

/-- The shape and primitive indices of all triangles, in shape-then-triangle
order. -/
def triangleOrder (objshapes : List shape_t) : List (Nat × Nat) :=
  objshapes.enum.flatMap (fun p =>
    (List.range (p.2.mesh.indices.length / 3)).map (fun i => (p.1, i)))

/-- State reached by the triangle loop of shape `s` after `n` iterations, as
far as the emissive records go. -/
structure EmissivePrefix (mesh : mesh_t) (s : Nat) (st0 : LoadState) (n : Nat)
    (st : LoadState) : Prop where
  emissives : st.scene.emissives_ = st0.scene.emissives_ ++
    emissiveRecords st0.scene.materials_
      (shapeTriangles (matmapAt st0.matmap) s (mesh.material_ids.take n))
  ids : n ≤ mesh.material_ids.length
  materials : st.scene.materials_ = st0.scene.materials_
  matmapAt : ∀ k, matmapAt st.matmap k = matmapAt st0.matmap k

/-- State reached by the shape loop after `n` shapes, as far as the emissive
records go. -/
structure EmissiveShapes (objshapes : List shape_t) (st0 : LoadState) (n : Nat)
    (st : LoadState) : Prop where
  emissives : st.scene.emissives_ = st0.scene.emissives_ ++
    emissiveRecords st0.scene.materials_
      ((objshapes.take n).enum.flatMap (fun p =>
        shapeTriangles (matmapAt st0.matmap) p.1 (shapeRawIds p.2.mesh)))
  ids : ∀ sh ∈ objshapes.take n, sh.mesh.indices.length / 3 ≤ sh.mesh.material_ids.length
  materials : st.scene.materials_ = st0.scene.materials_
  matmapAt : ∀ k, matmapAt st.matmap k = matmapAt st0.matmap k

/-- A state at the start of the shape loop whose only node is emissive and is
the compiled node of raw material `0`. -/
def emissiveState : LoadState :=
  { scene := { Scene.new with materials_ := [{ Material.ctor with type := .kEmissive }] },
    textures := [], matmap := [(0, 0)] }

/-! ## Outcomes of `LoadFromObj` -/

/-- Every file name in the texture map can be opened. -/
def KeysOpen (env : Env) (bp : String) (st : LoadState) : Prop :=
  ∀ (n : String) (j : Int), mapFind st.textures n = some j →
    env.ImageInput_open (bp ++ n) ≠ none

/-- The parser's output for a mesh is usable with `n` raw materials: every
triangle has a material id, and the id is one of `0, ..., n - 1`. -/
def WellFormedIds (n : Nat) (mesh : mesh_t) : Prop :=
  mesh.indices.length / 3 ≤ mesh.material_ids.length ∧
  ∀ id ∈ shapeRawIds mesh, 0 ≤ id ∧ id < (n : Int)

/-- What the shape loop keeps of the state `st0` it starts from: the nodes and
the entries of the material table. -/
def KeepsTable (st0 st : LoadState) : Prop :=
  st.scene.materials_ = st0.scene.materials_ ∧
  ∀ (k v : Int), mapFind st0.matmap k = some v → mapFind st.matmap k = some v

/-! ## The kinds of node the material loop creates -/

/-- Every node is of one of the five kinds the material loop creates. -/
def FiveKinds (ms : List Material) : Prop :=
  ∀ m ∈ ms, m.type = .kLambert ∨ m.type = .kMicrofacetGGX ∨ m.type = .kFresnelBlend ∨
    m.type = .kPassthrough ∨ m.type = .kMix

/-! ## A mesh with material ids outside the table -/

/-- The quad with the material ids `-1` (no material) and `1`. -/
def strayMesh : mesh_t :=
  { positions := [0, 0, 0, 1, 0, 0, 1, 1, 0, 0, 1, 0], normals := [], texcoords := [],
    indices := [0, 1, 2, 0, 2, 3], material_ids := [-1, 1] }

/-! ## The shapes tile the flattened buffers -/

/-- The shape records of a scene cover its index and vertex buffers without
gap or overlap, in order, and there is one material id per triangle. -/
structure Tiling (sc : Scene) : Prop where
  starts : ∀ (s : Nat) (shape : Shape), sc.shapes_[s]? = some shape →
    shape.startidx = 3 * ((sc.shapes_.take s).map (fun x => x.numprims)).sum ∧
    shape.startvtx = ((sc.shapes_.take s).map (fun x => x.numvertices)).sum
  indices : (sc.indices_.length : Int) = 3 * (sc.shapes_.map (fun x => x.numprims)).sum
  vertices : (sc.vertices_.length : Int) = (sc.shapes_.map (fun x => x.numvertices)).sum
  ids : sc.indices_.length = 3 * sc.materialids_.length

/-! ## The number of nodes per raw material -/

/-- The value of `isTransparent` in iteration `k` of the material loop run by
`LoadFromObj` (`false` when the loop does not get that far). -/
def judgedTransparent (env : Env) (bp : String) (mats : List material_t) (k : Nat) : Bool :=
  match forLoop (materialBody env bp mats) k 0 LoadState.init, mats[k]? with
  | .ok stk, some om =>
    match lambertStep env bp om stk with
    | .ok (d, st1) =>
      match transparencyTest env om d st1.scene with
      | .ok tr => tr
      | .error _ => false
    | .error _ => false
  | _, _ => false

/-- The number of raw materials among `0, ..., j - 1` judged transparent. -/
def transparentBelow (env : Env) (bp : String) (mats : List material_t) : Nat → Nat
  | 0 => 0
  | j + 1 => transparentBelow env bp mats j + (if judgedTransparent env bp mats j then 1 else 0)

/-! ## The material keys -/

/-- The value `delta` gets in the `switch` of `UpdateMaterialValue`. -/
def stepOf (PI : float) (mode : MaterialUpdateMode) (isPositive : Bool) : float :=
  match mode with
  | .specularRoughness => if isPositive then 1 / 10 else -(1 / 10)
  | .normalMapIntensity => if isPositive then 1 / 5 else -(1 / 5)
  | .lightAngle => if isPositive then 15 * (PI / 180) else -15 * (PI / 180)
  | .other _ => 0

/-- The transforms of the shapes after the rotation block has run with the
angle `delta` from the camera `camera_`. -/
def rotatedShapes {κ μ : Type} (R : Rays κ μ) (delta : float) (camera_ : κ)
    (shapes_m : List μ) : List μ :=
  shapes_m.map (fun m =>
    R.mul m (R.mul (R.mul (R.translation (R.GetCameraPos (R.Rotate delta camera_)))
      (R.rotation_y delta)) (R.inverse (R.translation (R.GetCameraPos (R.Rotate delta camera_))))))

/-- A world in which a camera is its angle about the vertical axis and a
transform is a rotation angle about that axis: rotations compose by addition
and translations are left out. -/
def angleRays : Rays float float :=
  { PI := 22 / 7
    Rotate := fun delta angle => angle + delta
    GetCameraPos := fun _ => ⟨0, 0, 0⟩
    rotation_y := fun delta => delta
    translation := fun _ => 0
    inverse := fun m => -m
    mul := fun a b => a + b }

/-- A state with the given mode and flags, roughness `1 / 5`, intensity `4`,
the nodes Lambert, GGX, Fresnel blend, pass-through, mix (of weight `3 / 10`),
two shapes and the camera at angle `0`. -/
def sampleMaterialState (mode : MaterialUpdateMode) (g_material_changed g_light_changed : Bool) :
    MaterialState float float :=
  { g_material_update_mode := mode
    g_material_changed := g_material_changed
    g_light_changed := g_light_changed
    specularRoughness_ := 1 / 5
    normalMapIntensity_ := 4
    materials_ :=
      [{ Material.ctor with ni := 4, type := .kLambert },
       { Material.ctor with ns := 1 / 5, type := .kMicrofacetGGX },
       { Material.ctor with type := .kFresnelBlend },
       { Material.ctor with type := .kPassthrough },
       { Material.ctor with ns := 3 / 10, type := .kMix }]
    shapes_m := [0, 1]
    camera_ := 0 }

/-! ## The texture pool after the setters -/

/-- A call of one of the two setters, with its arguments. -/
inductive SetterCall where
  | SetEnvironment (filename basepath : String) (envmapmul : float)
  | SetBackground (filename basepath : String)
  deriving DecidableEq, Repr

/-- The call `c` made on `obj` in the world `env`. -/
def applySetter (env : Env) (c : SetterCall) (obj : SceneObject) : Result SceneObject :=
  match c with
  | .SetEnvironment filename basepath envmapmul =>
    SetEnvironment env filename basepath envmapmul obj
  | .SetBackground filename basepath => SetBackground env filename basepath obj

/-- A sequence of setter calls, each in its own world, made one after the
other on `obj`; it ends at the first call that throws. -/
def applySetters : List (Env × SetterCall) → SceneObject → Result SceneObject
  | [], obj => .ok obj
  | (env, c) :: rest, obj =>
    match applySetter env c obj with
    | .ok obj' => applySetters rest obj'
    | .error e => .error e

/-- Alignment of the texture pool of a scene: one buffer per descriptor, each
as long as the recorded size, and each descriptor records its own position as
the offset of its data. -/
structure PoolInv (sc : Scene) : Prop where
  pool : sc.texturedata_.length = sc.textures_.length
  sizes : ∀ (k : Nat) (t : Texture) (data : List Nat), sc.textures_[k]? = some t →
    sc.texturedata_[k]? = some data → data.length = t.size
  offsets : ∀ (k : Nat) (t : Texture), sc.textures_[k]? = some t → t.dataoffset = k

/-! # Theorems -/

/-! ## Basic facts -/

theorem vecAt_eq_ok {α : Type} {v : List α} {k : Nat} {x : α} :
    vecAt v k = .ok x ↔ v[k]? = some x := by
  unfold vecAt
  cases h : v[k]? <;> simp

theorem vecAt_of_lt {α : Type} {v : List α} {k : Nat} (h : k < v.length) :
    vecAt v k = .ok v[k] := by
  rw [vecAt_eq_ok]; exact List.getElem?_eq_getElem h

theorem vecAtI_eq_ok {α : Type} {v : List α} {k : Int} {x : α} :
    vecAtI v k = .ok x ↔ 0 ≤ k ∧ v[k.toNat]? = some x := by
  unfold vecAtI
  by_cases hk : k < 0
  · simp [hk]
  · simp [hk, vecAt_eq_ok]; omega

theorem forLoop_zero {σ : Type} (body : Nat → σ → Result σ) (i : Nat) (s : σ) :
    forLoop body 0 i s = .ok s := rfl

theorem forLoop_succ {σ : Type} (body : Nat → σ → Result σ) (n i : Nat) (s : σ) :
    forLoop body (n + 1) i s = (body i s).bind (forLoop body n (i + 1)) := by
  simp only [forLoop, Except.bind]
  cases body i s <;> rfl

theorem forLoop_add {σ : Type} (body : Nat → σ → Result σ) (m n i : Nat) (s : σ) :
    forLoop body (m + n) i s = (forLoop body m i s).bind (forLoop body n (i + m)) := by
  induction m generalizing i s with
  | zero => simp [forLoop, Except.bind]
  | succ m ih =>
    rw [Nat.add_right_comm, forLoop_succ, forLoop_succ]
    cases h : body i s with
    | error e => rfl
    | ok s' =>
      simp only [Except.bind]
      rw [ih]
      have : i + 1 + m = i + (m + 1) := by omega
      rw [this]
      rfl

theorem forLoop_succ_last {σ : Type} (body : Nat → σ → Result σ) (n i : Nat) (s : σ) :
    forLoop body (n + 1) i s = (forLoop body n i s).bind (body (i + n)) := by
  rw [forLoop_add]
  congr 1
  funext s'
  simp only [forLoop]
  cases body (i + n) s' <;> rfl

/-- An invariant kept by every iteration is kept by the loop. -/
theorem forLoop_invariant {σ : Type} (body : Nat → σ → Result σ) (P : Nat → σ → Prop)
    (step : ∀ i s s', P i s → body i s = .ok s' → P (i + 1) s') :
    ∀ (n i : Nat) (s s' : σ), P i s → forLoop body n i s = .ok s' → P (i + n) s' := by
  intro n
  induction n with
  | zero =>
    intro i s s' hP h
    simp only [forLoop, Except.ok.injEq] at h
    subst h; exact hP
  | succ n ih =>
    intro i s s' hP h
    rw [forLoop_succ] at h
    cases hb : body i s with
    | error e => rw [hb] at h; simp [Except.bind] at h
    | ok s1 =>
      rw [hb] at h
      simp only [Except.bind] at h
      have := ih (i + 1) s1 s' (step i s s1 hP hb) h
      have e : i + (n + 1) = i + 1 + n := by omega
      rw [e]; exact this

theorem mapFind_mapAssign_self {κ ν : Type} [DecidableEq κ] (m : List (κ × ν)) (k : κ) (v : ν) :
    mapFind (mapAssign m k v) k = some v := by
  induction m with
  | nil => simp [mapAssign, mapFind]
  | cons p rest ih =>
    obtain ⟨k', v'⟩ := p
    by_cases h : k' = k
    · simp [mapAssign, mapFind, h]
    · simp [mapAssign, mapFind, h, ih]

theorem mapFind_mapAssign_ne {κ ν : Type} [DecidableEq κ] (m : List (κ × ν)) (k k' : κ) (v : ν)
    (hne : k' ≠ k) : mapFind (mapAssign m k v) k' = mapFind m k' := by
  induction m with
  | nil => simp [mapAssign, mapFind, Ne.symm hne]
  | cons p rest ih =>
    obtain ⟨k1, v1⟩ := p
    by_cases h : k1 = k
    · subst h
      simp [mapAssign, mapFind, Ne.symm hne]
    · by_cases h2 : k1 = k'
      · subst h2
        simp [mapAssign, mapFind, h]
      · simp [mapAssign, mapFind, h, h2, ih]

/-! ## The nodes of one raw material -/

theorem lambertStep_eq (env : Env) (bp : String) (om : material_t) (st : LoadState) :
    lambertStep env bp om st =
      (resolveOpt env bp om.diffuse_texname st).bind (fun r1 =>
        (resolveOpt env bp om.normal_texname r1.2).bind (fun r2 =>
          .ok (lambertNode env om r1.1 r2.1,
               pushMaterial r2.2 (lambertNode env om r1.1 r2.1) om.name))) := by
  unfold lambertStep resolveOpt
  by_cases h1 : om.diffuse_texname = "" <;> by_cases h2 : om.normal_texname = "" <;>
    simp only [h1, h2, bind, Except.bind, pure, Except.pure, lambertNode, Material.ctor, ne_eq,
      not_true_eq_false, not_false_eq_true, if_true, if_false]

theorem readInto_length (wr : Nat → Option Nat) (buffer : List Nat) :
    (readInto wr buffer).length = buffer.length := by
  simp [readInto]

/-- A successful `LoadTexture` appends exactly one buffer to the pool, of the
recorded size, and records the previous pool length as the data offset. -/
theorem LoadTexture_ok {env : Env} {filename : String} {data data' : List (List Nat)}
    {t : Texture} (h : LoadTexture env filename data = .ok (t, data')) :
    ∃ buf, data' = data ++ [buf] ∧ buf.length = t.size ∧ t.dataoffset = data.length ∧
      ∃ input, env.ImageInput_open filename = some input ∧
        t.fmt = GetTextureForemat input.spec := by
  unfold LoadTexture at h
  cases ho : env.ImageInput_open filename with
  | none => rw [ho] at h; simp at h
  | some input =>
    rw [ho] at h
    simp only at h
    cases hf : GetTextureForemat input.spec <;> rw [hf] at h <;>
      simp only [Except.ok.injEq, Prod.mk.injEq] at h <;>
      obtain ⟨h1, h2⟩ := h <;> subst h1 <;> subst h2 <;>
      exact ⟨_, rfl, by simp [readInto_length], rfl, input, rfl, hf.symm⟩

/-- The two ways `resolveTexture` returns: the name was cached, or the texture
was loaded and appended. -/
theorem resolveTexture_cases {env : Env} {bp name : String} {st st' : LoadState} {idx : Int}
    (h : resolveTexture env bp name st = .ok (idx, st')) :
    (mapFind st.textures name = some idx ∧ st' = st) ∨
    (mapFind st.textures name = none ∧ idx = (st.scene.textures_.length : Int) ∧
      ∃ t data, LoadTexture env (bp ++ name) st.scene.texturedata_ = .ok (t, data) ∧
        st' = { st with
          scene := { st.scene with
            texturedata_ := data, textures_ := st.scene.textures_ ++ [t] }
          textures := mapAssign st.textures name idx }) := by
  unfold resolveTexture at h
  cases hf : mapFind st.textures name with
  | some j =>
    rw [hf] at h
    simp only [Except.ok.injEq, Prod.mk.injEq] at h
    left; exact ⟨by rw [h.1], h.2.symm⟩
  | none =>
    rw [hf] at h
    simp only at h
    cases hl : LoadTexture env (bp ++ name) st.scene.texturedata_ with
    | error e => rw [hl] at h; simp at h
    | ok r =>
      obtain ⟨t, data⟩ := r
      rw [hl] at h
      simp only [Except.ok.injEq, Prod.mk.injEq] at h
      right
      refine ⟨rfl, h.1.symm, t, data, rfl, ?_⟩
      rw [← h.2, ← h.1]

theorem resolveTexture_find {env : Env} {bp name : String} {st st' : LoadState} {idx : Int}
    (h : resolveTexture env bp name st = .ok (idx, st')) :
    mapFind st'.textures name = some idx := by
  rcases resolveTexture_cases h with ⟨hf, rfl⟩ | ⟨_, _, t, data, _, rfl⟩
  · exact hf
  · exact mapFind_mapAssign_self _ _ _

theorem resolveTexture_keeps {env : Env} {bp name : String} {st st' : LoadState} {idx : Int}
    (h : resolveTexture env bp name st = .ok (idx, st')) {n : String} {j : Int}
    (hn : mapFind st.textures n = some j) : mapFind st'.textures n = some j := by
  rcases resolveTexture_cases h with ⟨_, rfl⟩ | ⟨hnone, _, t, data, _, rfl⟩
  · exact hn
  · have hne : n ≠ name := by
      intro e; subst e; rw [hn] at hnone; cases hnone
    simp only
    rw [mapFind_mapAssign_ne _ _ _ _ hne]; exact hn

theorem resolveTexture_frame {env : Env} {bp name : String} {st st' : LoadState} {idx : Int}
    (h : resolveTexture env bp name st = .ok (idx, st')) :
    st'.scene.materials_ = st.scene.materials_ ∧
    st'.scene.material_names_ = st.scene.material_names_ ∧ st'.matmap = st.matmap := by
  rcases resolveTexture_cases h with ⟨_, rfl⟩ | ⟨_, _, t, data, _, rfl⟩ <;> simp

theorem resolveOpt_find {env : Env} {bp name : String} {st st' : LoadState} {idx : Int}
    (h : resolveOpt env bp name st = .ok (idx, st')) :
    (name = "" ∧ idx = -1 ∧ st' = st) ∨ (name ≠ "" ∧ mapFind st'.textures name = some idx) := by
  unfold resolveOpt at h
  by_cases hn : name = ""
  · simp only [hn, ne_eq, not_true_eq_false, if_false, Except.ok.injEq, Prod.mk.injEq] at h
    left; exact ⟨hn, h.1.symm, h.2.symm⟩
  · simp only [hn, ne_eq, not_false_eq_true, if_true] at h
    right; exact ⟨hn, resolveTexture_find h⟩

theorem resolveOpt_keeps {env : Env} {bp name : String} {st st' : LoadState} {idx : Int}
    (h : resolveOpt env bp name st = .ok (idx, st')) {n : String} {j : Int}
    (hn : mapFind st.textures n = some j) : mapFind st'.textures n = some j := by
  unfold resolveOpt at h
  by_cases hne : name = ""
  · simp only [hne, ne_eq, not_true_eq_false, if_false, Except.ok.injEq, Prod.mk.injEq] at h
    rw [← h.2]; exact hn
  · simp only [hne, ne_eq, not_false_eq_true, if_true] at h
    exact resolveTexture_keeps h hn

theorem resolveOpt_frame {env : Env} {bp name : String} {st st' : LoadState} {idx : Int}
    (h : resolveOpt env bp name st = .ok (idx, st')) :
    st'.scene.materials_ = st.scene.materials_ ∧
    st'.scene.material_names_ = st.scene.material_names_ ∧ st'.matmap = st.matmap := by
  unfold resolveOpt at h
  by_cases hne : name = ""
  · simp only [hne, ne_eq, not_true_eq_false, if_false, Except.ok.injEq, Prod.mk.injEq] at h
    rw [← h.2]; exact ⟨rfl, rfl, rfl⟩
  · simp only [hne, ne_eq, not_false_eq_true, if_true] at h
    exact resolveTexture_frame h

/-- Inversion of a successful `lambertStep`. -/
theorem lambertStep_ok {env : Env} {bp : String} {om : material_t} {st st1 : LoadState}
    {d : Material} (h : lambertStep env bp om st = .ok (d, st1)) :
    ∃ kx sa nx sb, resolveOpt env bp om.diffuse_texname st = .ok (kx, sa) ∧
      resolveOpt env bp om.normal_texname sa = .ok (nx, sb) ∧
      d = lambertNode env om kx nx ∧ st1 = pushMaterial sb d om.name := by
  rw [lambertStep_eq] at h
  cases h1 : resolveOpt env bp om.diffuse_texname st with
  | error e => rw [h1] at h; simp [Except.bind] at h
  | ok r1 =>
    rw [h1] at h
    simp only [Except.bind] at h
    cases h2 : resolveOpt env bp om.normal_texname r1.2 with
    | error e => rw [h2] at h; simp at h
    | ok r2 =>
      rw [h2] at h
      simp only [Except.ok.injEq, Prod.mk.injEq] at h
      exact ⟨r1.1, r1.2, r2.1, r2.2, rfl, h2, h.1.symm, by rw [← h.2, ← h.1]⟩

theorem one_sqnorm_pos : (float3.mk 1 1 1).sqnorm > 0 := by
  norm_num [float3.sqnorm]

/-- After the Lambert block the normal-map name, when present, is cached
under the index stored in the Lambert node. -/
theorem lambertStep_normal {env : Env} {bp : String} {om : material_t} {st st1 : LoadState}
    {d : Material} (h : lambertStep env bp om st = .ok (d, st1)) :
    (om.normal_texname = "" ∧ d.nmapidx = -1) ∨
    (om.normal_texname ≠ "" ∧ mapFind st1.textures om.normal_texname = some d.nmapidx) := by
  obtain ⟨kx, sa, nx, sb, _, h2, rfl, rfl⟩ := lambertStep_ok h
  rcases resolveOpt_find h2 with ⟨hn, hi, _⟩ | ⟨hn, hf⟩
  · left; exact ⟨hn, hi⟩
  · right; exact ⟨hn, hf⟩

/-- After the Lambert block the diffuse texture name, when present, is cached
under the index stored in the Lambert node. -/
theorem lambertStep_diffuse {env : Env} {bp : String} {om : material_t} {st st1 : LoadState}
    {d : Material} (h : lambertStep env bp om st = .ok (d, st1)) :
    (om.diffuse_texname = "" ∧ d.kxmapidx = -1) ∨
    (om.diffuse_texname ≠ "" ∧ mapFind st1.textures om.diffuse_texname = some d.kxmapidx) := by
  obtain ⟨kx, sa, nx, sb, h1, h2, rfl, rfl⟩ := lambertStep_ok h
  rcases resolveOpt_find h1 with ⟨hn, hi, _⟩ | ⟨hn, hf⟩
  · left; exact ⟨hn, hi⟩
  · right; exact ⟨hn, resolveOpt_keeps h2 hf⟩

theorem lambertStep_materials {env : Env} {bp : String} {om : material_t} {st st1 : LoadState}
    {d : Material} (h : lambertStep env bp om st = .ok (d, st1)) :
    st1.scene.materials_ = st.scene.materials_ ++ [d] ∧
    st1.scene.material_names_ = st.scene.material_names_ ++ [om.name] ∧
    st1.matmap = st.matmap ∧ d.type = .kLambert := by
  obtain ⟨kx, sa, nx, sb, h1, h2, rfl, rfl⟩ := lambertStep_ok h
  have f1 := resolveOpt_frame h1
  have f2 := resolveOpt_frame h2
  simp only [pushMaterial]
  refine ⟨?_, ?_, ?_, rfl⟩
  · rw [f2.1, f1.1]
  · rw [f2.2.1, f1.2.1]
  · rw [f2.2.2, f1.2.2]

/-- In the specular block the normal map of the Lambert node is always found
in the cache: the block loads nothing and appends the GGX node with that same
index, then the Fresnel-blend node. -/
theorem specularStep_eq {env : Env} {bp : String} {om : material_t} {st st1 : LoadState}
    {d : Material} (h : lambertStep env bp om st = .ok (d, st1)) :
    specularStep env bp om st1 = .ok (afterSpecular env om d st1) := by
  unfold specularStep afterSpecular
  have hp := one_sqnorm_pos
  rcases lambertStep_normal h with ⟨hn, hi⟩ | ⟨hn, hf⟩
  · simp [hp, hn, hi, bind, Except.bind, pure, Except.pure, pushMaterial, ggxNode, layeredNode,
      Material.ctor]
  · simp [hp, hn, resolveTexture, hf, bind, Except.bind, pure, Except.pure, pushMaterial,
      ggxNode, layeredNode, Material.ctor]

theorem transparencyTest_congr (env : Env) (om : material_t) (d : Material) (a b : Scene)
    (h1 : a.textures_ = b.textures_) (h2 : a.texturedata_ = b.texturedata_) :
    transparencyTest env om d a = transparencyTest env om d b := by
  unfold transparencyTest
  rw [h1, h2]

/-- Normal form of one iteration of the material loop. -/
theorem compileMaterial_eq (env : Env) (bp : String) (i : Nat) (om : material_t)
    (st : LoadState) :
    compileMaterial env bp i om st =
      (lambertStep env bp om st).bind (fun r =>
        (transparencyTest env om r.1 r.2.scene).bind (fun tr =>
          .ok (compiled env i om r.1 r.2 tr))) := by
  unfold compileMaterial
  cases h : lambertStep env bp om st with
  | error e => rfl
  | ok r =>
    obtain ⟨d, st1⟩ := r
    simp only [bind, Except.bind, pure, Except.pure]
    rw [specularStep_eq h]
    simp only
    have : transparencyTest env om d (afterSpecular env om d st1).scene =
        transparencyTest env om d st1.scene :=
      transparencyTest_congr _ _ _ _ _ rfl rfl
    rw [this]
    cases transparencyTest env om d st1.scene <;> rfl

/-- Inversion of a successful iteration of the material loop. -/
theorem compileMaterial_ok {env : Env} {bp : String} {i : Nat} {om : material_t}
    {st st' : LoadState} (h : compileMaterial env bp i om st = .ok st') :
    ∃ d st1 tr, lambertStep env bp om st = .ok (d, st1) ∧
      transparencyTest env om d st1.scene = .ok tr ∧ st' = compiled env i om d st1 tr := by
  rw [compileMaterial_eq] at h
  cases h1 : lambertStep env bp om st with
  | error e => rw [h1] at h; simp [Except.bind] at h
  | ok r =>
    obtain ⟨d, st1⟩ := r
    rw [h1] at h
    simp only [Except.bind] at h
    cases h2 : transparencyTest env om d st1.scene with
    | error e => rw [h2] at h; simp at h
    | ok tr =>
      rw [h2] at h
      simp only [Except.ok.injEq] at h
      exact ⟨d, st1, tr, rfl, h2, h.symm⟩

theorem compiled_materials (env : Env) (i : Nat) (om : material_t) (d : Material)
    (st1 : LoadState) (tr : Bool) (n : Nat) (hn : st1.scene.materials_.length = n + 1) :
    (compiled env i om d st1 tr).scene.materials_ =
      st1.scene.materials_ ++ tailNodes env om d n tr := by
  cases tr <;>
    simp [compiled, afterSpecular, mixStep, pushMaterial, tailNodes, hn, passthroughNode,
      mixNode, Material.ctor, add_assoc]

theorem compiled_frame (env : Env) (i : Nat) (om : material_t) (d : Material)
    (st1 : LoadState) (tr : Bool) :
    (compiled env i om d st1 tr).textures = st1.textures ∧
    (compiled env i om d st1 tr).scene.textures_ = st1.scene.textures_ ∧
    (compiled env i om d st1 tr).scene.texturedata_ = st1.scene.texturedata_ ∧
    (compiled env i om d st1 tr).matmap =
      mapAssign st1.matmap (i : Int)
        (((compiled env i om d st1 tr).scene.materials_.length : Int) - 1) := by
  cases tr <;> simp [compiled, afterSpecular, mixStep, pushMaterial]

/-! ## The per-shape copy loops -/

theorem vecAt_getD {α : Type} {v : List α} {k : Nat} (h : k < v.length) (dflt : α) :
    vecAt v k = .ok (v.getD k dflt) := by
  rw [vecAt_eq_ok, List.getD_eq_getElem?_getD, List.getElem?_eq_getElem h]
  rfl

theorem copyVertices_prefix (mesh : mesh_t) (scene : Scene) (n : Nat)
    (hn : n ≤ mesh.positions.length / 3) :
    copyVertices mesh n scene = .ok { scene with
      vertices_ := scene.vertices_ ++ (List.range n).map (float3At mesh.positions) } := by
  unfold copyVertices
  induction n with
  | zero => simp [forLoop]
  | succ n ih =>
    rw [forLoop_succ_last, ih (by omega)]
    have h0 : 3 * n < mesh.positions.length := by omega
    have h1 : 3 * n + 1 < mesh.positions.length := by omega
    have h2 : 3 * n + 2 < mesh.positions.length := by omega
    simp [Except.bind, bind, pure, Except.pure, vecAt_getD h0 0, vecAt_getD h1 0,
      vecAt_getD h2 0, List.range_succ, float3At]

theorem copyVertices_eq (mesh : mesh_t) (scene : Scene) :
    copyVertices mesh (mesh.positions.length / 3) scene =
      .ok { scene with vertices_ := scene.vertices_ ++ shapeVertices mesh } :=
  copyVertices_prefix mesh scene _ (le_refl _)

theorem copyNormals_prefix (mesh : mesh_t) (scene : Scene) (n : Nat)
    (hn : n ≤ mesh.normals.length / 3) :
    forLoop (fun i scene => do
      let x ← vecAt mesh.normals (3 * i)
      let y ← vecAt mesh.normals (3 * i + 1)
      let z ← vecAt mesh.normals (3 * i + 2)
      pure { scene with normals_ := scene.normals_ ++ [⟨x, y, z⟩] }) n 0 scene =
    .ok { scene with
      normals_ := scene.normals_ ++ (List.range n).map (float3At mesh.normals) } := by
  induction n with
  | zero => simp [forLoop]
  | succ n ih =>
    rw [forLoop_succ_last, ih (by omega)]
    have h0 : 3 * n < mesh.normals.length := by omega
    have h1 : 3 * n + 1 < mesh.normals.length := by omega
    have h2 : 3 * n + 2 < mesh.normals.length := by omega
    simp [Except.bind, bind, pure, Except.pure, vecAt_getD h0 0, vecAt_getD h1 0,
      vecAt_getD h2 0, List.range_succ, float3At]

theorem copyNormals_eq (mesh : mesh_t) (scene : Scene) :
    copyNormals mesh scene =
      .ok { scene with normals_ := scene.normals_ ++ shapeNormals mesh } :=
  copyNormals_prefix mesh scene _ (le_refl _)

theorem copyUVs_own_prefix (mesh : mesh_t) (scene : Scene) (n : Nat)
    (hn : n ≤ mesh.texcoords.length / 2) :
    forLoop (fun i scene => do
      let u ← vecAt mesh.texcoords (2 * i)
      let v ← vecAt mesh.texcoords (2 * i + 1)
      pure { scene with uvs_ := scene.uvs_ ++ [⟨u, v⟩] }) n 0 scene =
    .ok { scene with
      uvs_ := scene.uvs_ ++ (List.range n).map (float2At mesh.texcoords) } := by
  induction n with
  | zero => simp [forLoop]
  | succ n ih =>
    rw [forLoop_succ_last, ih (by omega)]
    have h0 : 2 * n < mesh.texcoords.length := by omega
    have h1 : 2 * n + 1 < mesh.texcoords.length := by omega
    simp [Except.bind, bind, pure, Except.pure, vecAt_getD h0 0, vecAt_getD h1 0,
      List.range_succ, float2At]

theorem copyUVs_zero (scene : Scene) (n : Nat) :
    forLoop (fun _ scene =>
      (pure { scene with uvs_ := scene.uvs_ ++ [⟨0, 0⟩] } : Result Scene)) n 0 scene =
    .ok { scene with uvs_ := scene.uvs_ ++ List.replicate n ⟨0, 0⟩ } := by
  induction n with
  | zero => simp [forLoop]
  | succ n ih =>
    rw [forLoop_succ_last, ih]
    simp [Except.bind, pure, Except.pure, List.replicate_succ']

/-- The UV block of a shape always returns, and appends `shapeUVs`. -/
theorem copyUVs_eq (mesh : mesh_t) (scene : Scene) :
    copyUVs mesh (mesh.positions.length / 3) scene =
      .ok { scene with uvs_ := scene.uvs_ ++ shapeUVs mesh } := by
  unfold copyUVs shapeUVs
  by_cases h : mesh.texcoords.length / 2 = mesh.positions.length / 3
  · simp only [h, if_true]
    rw [← h]
    exact copyUVs_own_prefix mesh scene _ (le_refl _)
  · simp only [h, if_false]
    exact copyUVs_zero scene _

/-! ## The triangle loop -/

theorem mapIndex_fst (m : List (Int × Int)) (key : Int) :
    (mapIndex m key).1 = matmapAt m key := by
  unfold mapIndex matmapAt
  cases mapFind m key <;> rfl

theorem mapIndex_keeps (m : List (Int × Int)) (key k : Int) (v : Int)
    (h : mapFind m k = some v) : mapFind (mapIndex m key).2 k = some v := by
  unfold mapIndex
  cases hf : mapFind m key with
  | some w => exact h
  | none =>
    have hne : k ≠ key := by intro e; subst e; rw [h] at hf; cases hf
    simp only
    rw [mapFind_mapAssign_ne _ _ _ _ hne]; exact h

theorem mapIndex_matmapAt (m : List (Int × Int)) (key k : Int) :
    matmapAt (mapIndex m key).2 k = matmapAt m k := by
  unfold mapIndex
  cases hf : mapFind m key with
  | some w => rfl
  | none =>
    simp only
    by_cases hk : k = key
    · subst hk
      simp [matmapAt, mapFind_mapAssign_self, hf]
    · simp [matmapAt, mapFind_mapAssign_ne _ _ _ _ hk]

/-- Inversion of one iteration of the triangle loop: the three indices are
appended as read, the material id is the value of `matmap` at the triangle's
raw id, and at most one emissive record is appended. -/
theorem triangleStep_ok {mesh : mesh_t} {s i : Nat} {st st' : LoadState}
    (h : triangleStep mesh s i st = .ok st') :
    ∃ i0 i1 i2 id es, mesh.indices[3 * i]? = some i0 ∧ mesh.indices[3 * i + 1]? = some i1 ∧
      mesh.indices[3 * i + 2]? = some i2 ∧ mesh.material_ids[i]? = some id ∧
      st'.scene = { st.scene with
        indices_ := st.scene.indices_ ++ [(i0 : Int), (i1 : Int), (i2 : Int)]
        materialids_ := st.scene.materialids_ ++ [matmapAt st.matmap id]
        emissives_ := st.scene.emissives_ ++ es } ∧
      st'.matmap = (mapIndex st.matmap id).2 ∧ st'.textures = st.textures := by
  unfold triangleStep at h
  simp only [bind, Except.bind, pure, Except.pure] at h
  cases h0 : vecAt mesh.indices (3 * i) with
  | error e => rw [h0] at h; simp at h
  | ok i0 =>
  cases h1 : vecAt mesh.indices (3 * i + 1) with
  | error e => rw [h0, h1] at h; simp at h
  | ok i1 =>
  cases h2 : vecAt mesh.indices (3 * i + 2) with
  | error e => rw [h0, h1, h2] at h; simp at h
  | ok i2 =>
  cases h3 : vecAt mesh.material_ids i with
  | error e => rw [h0, h1, h2, h3] at h; simp at h
  | ok id =>
  rw [h0, h1, h2, h3] at h
  simp only at h
  cases h4 : vecAtI st.scene.materials_ (mapIndex st.matmap id).1 with
  | error e => rw [h4] at h; simp at h
  | ok node =>
    rw [h4] at h
    simp only [Except.ok.injEq] at h
    refine ⟨i0, i1, i2, id,
      if node.type = .kEmissive then
        [{ shapeidx := (s : Int), primidx := (i : Int), m := (mapIndex st.matmap id).1 }]
      else [], vecAt_eq_ok.1 h0, vecAt_eq_ok.1 h1, vecAt_eq_ok.1 h2, vecAt_eq_ok.1 h3, ?_, ?_, ?_⟩
    · rw [← h, ← mapIndex_fst]
      by_cases ht : node.type = .kEmissive <;> simp [ht]
    · rw [← h]
    · rw [← h]

theorem take_three_succ {α : Type} (l : List α) (i : Nat) (a b c : α)
    (h0 : l[3 * i]? = some a) (h1 : l[3 * i + 1]? = some b) (h2 : l[3 * i + 2]? = some c) :
    l.take (3 * (i + 1)) = l.take (3 * i) ++ [a, b, c] := by
  have e : 3 * (i + 1) = 3 * i + 1 + 1 + 1 := by omega
  rw [e, List.take_succ, List.take_succ, List.take_succ, h0, h1, h2]
  simp

theorem triangleLoop_ok {mesh : mesh_t} {s n : Nat} {st0 st' : LoadState}
    (h : forLoop (triangleStep mesh s) n 0 st0 = .ok st') :
    TrianglePrefix mesh st0 n st' := by
  have key := forLoop_invariant (triangleStep mesh s)
    (fun i st => TrianglePrefix mesh st0 i st) ?_ n 0 st0 st' ?_ h
  · simpa using key
  · intro i st st1 hP hstep
    obtain ⟨i0, i1, i2, id, es, h0, h1, h2, h3, hsc, hm, ht⟩ := triangleStep_ok hstep
    obtain ⟨es0, hsc0⟩ := hP.scene
    refine ⟨⟨es0 ++ es, ?_⟩, ?_, ?_, ?_⟩
    · rw [hsc, hsc0, take_three_succ _ _ _ _ _ h0 h1 h2, List.take_succ, h3, hP.matmapAt]
      simp
    · intro k; rw [hm, mapIndex_matmapAt]; exact hP.matmapAt k
    · intro k v hk; rw [hm]; exact mapIndex_keeps _ _ _ _ (hP.keeps k v hk)
    · rw [ht]; exact hP.textures
  · exact ⟨⟨[], by simp⟩, fun _ => rfl, fun _ _ hk => hk, rfl⟩

/-! ## The shape loop -/

/-- Inversion of one iteration of the shape loop. -/
theorem shapeStep_ok {objshapes : List shape_t} {s : Nat} {st st' : LoadState}
    (h : shapeStep objshapes s st = .ok st') :
    ∃ sh es, objshapes[s]? = some sh ∧
      st'.scene = { st.scene with
        vertices_ := st.scene.vertices_ ++ shapeVertices sh.mesh
        normals_ := st.scene.normals_ ++ shapeNormals sh.mesh
        uvs_ := st.scene.uvs_ ++ shapeUVs sh.mesh
        indices_ := st.scene.indices_ ++ shapeIndices sh.mesh
        materialids_ := st.scene.materialids_ ++
          (shapeRawIds sh.mesh).map (matmapAt st.matmap)
        emissives_ := st.scene.emissives_ ++ es
        shapes_ := st.scene.shapes_ ++ [shapeRecord st.scene sh.mesh] } ∧
      (∀ k, matmapAt st'.matmap k = matmapAt st.matmap k) ∧
      (∀ k v, mapFind st.matmap k = some v → mapFind st'.matmap k = some v) ∧
      st'.textures = st.textures := by
  unfold shapeStep at h
  simp only [bind, Except.bind, pure, Except.pure] at h
  cases hs : vecAt objshapes s with
  | error e => rw [hs] at h; simp at h
  | ok sh =>
    rw [hs] at h
    simp only [copyVertices_eq, copyNormals_eq, copyUVs_eq] at h
    cases ht : forLoop (triangleStep sh.mesh s) (sh.mesh.indices.length / 3) 0
        { st with scene := { st.scene with
            vertices_ := st.scene.vertices_ ++ shapeVertices sh.mesh
            normals_ := st.scene.normals_ ++ shapeNormals sh.mesh
            uvs_ := st.scene.uvs_ ++ shapeUVs sh.mesh } } with
    | error e => rw [ht] at h; simp at h
    | ok st4 =>
      rw [ht] at h
      simp only [Except.ok.injEq] at h
      have hp := triangleLoop_ok ht
      obtain ⟨es, hsc⟩ := hp.scene
      refine ⟨sh, es, vecAt_eq_ok.1 hs, ?_, ?_, ?_, ?_⟩
      · rw [← h]
        simp only [hsc, shapeIndices, shapeRawIds, shapeRecord]
      · intro k; rw [← h]; exact hp.matmapAt k
      · intro k v hk; rw [← h]; exact hp.keeps k v hk
      · rw [← h]; exact hp.textures

theorem take_succ_of_get {α : Type} (l : List α) (n : Nat) (a : α) (h : l[n]? = some a) :
    l.take (n + 1) = l.take n ++ [a] := by
  rw [List.take_succ, h]; rfl

theorem shapeLoop_prefix {objshapes : List shape_t} {n : Nat} {st0 st' : LoadState}
    (h : forLoop (shapeStep objshapes) n 0 st0 = .ok st') :
    ShapePrefix objshapes st0 n st' := by
  have key := forLoop_invariant (shapeStep objshapes)
    (fun i st => ShapePrefix objshapes st0 i st) ?_ n 0 st0 st' ?_ h
  · simpa using key
  · intro i st st1 hP hstep
    obtain ⟨sh, es, hsh, hsc, hm, hk, _⟩ := shapeStep_ok hstep
    have ht := take_succ_of_get objshapes i sh hsh
    constructor
    · rw [hsc, ht]; simp [hP.vertices]
    · rw [hsc, ht]; simp [hP.normals]
    · rw [hsc, ht]; simp [hP.uvs]
    · rw [hsc, ht]; simp [hP.indices]
    · rw [hsc, ht]
      have : matmapAt st.matmap = matmapAt st0.matmap := funext hP.matmapAt
      simp [hP.materialids, this]
    · rw [hsc]; simp [hP.shapes_length]; omega
    · rw [hsc]; exact hP.materials
    · rw [hsc]; exact hP.material_names
    · rw [hsc]; exact hP.textures_
    · rw [hsc]; exact hP.texturedata_
    · intro k; rw [hm]; exact hP.matmapAt k
    · intro k v hv; exact hk k v (hP.keeps k v hv)
  · constructor <;> simp

theorem shapeLoop_ok {objshapes : List shape_t} {st0 st' : LoadState}
    (h : shapeLoop objshapes st0 = .ok st') :
    ShapePrefix objshapes st0 objshapes.length st' :=
  shapeLoop_prefix h

/-- Inversion of a successful `LoadFromObj`: the parser reported no error,
both loops returned, and the result is the finished scene. -/
theorem LoadFromObj_ok {env : Env} {filename basepath : String} {scene : Scene}
    (h : LoadFromObj env filename basepath = .ok scene) :
    (env.LoadObj filename basepath).2.2 = "" ∧
    ∃ st1 st2, materialLoop env basepath (env.LoadObj filename basepath).2.1
        LoadState.init = .ok st1 ∧
      shapeLoop (env.LoadObj filename basepath).1 st1 = .ok st2 ∧
      scene = finishScene st2.scene := by
  unfold LoadFromObj at h
  rcases hL : env.LoadObj filename basepath with ⟨objshapes, objmaterials, res⟩
  rw [hL] at h
  simp only at h
  by_cases hr : res = ""
  · simp only [hr, ne_eq, not_true_eq_false, if_false, bind, Except.bind, pure,
      Except.pure] at h
    cases h1 : materialLoop env basepath objmaterials LoadState.init with
    | error e => rw [h1] at h; simp at h
    | ok st1 =>
      rw [h1] at h
      simp only at h
      cases h2 : shapeLoop objshapes st1 with
      | error e => rw [h2] at h; simp at h
      | ok st2 =>
        rw [h2] at h
        simp only [Except.ok.injEq] at h
        exact ⟨hr, st1, st2, rfl, h2, h.symm⟩
  · simp [hr] at h

/-! ## Invariants of the material loop -/

theorem materialBody_ok {env : Env} {bp : String} {mats : List material_t} {i : Nat}
    {st st' : LoadState} (h : materialBody env bp mats i st = .ok st') :
    ∃ om, mats[i]? = some om ∧ compileMaterial env bp i om st = .ok st' := by
  unfold materialBody at h
  simp only [bind, Except.bind] at h
  cases hv : vecAt mats i with
  | error e => rw [hv] at h; simp at h
  | ok om => rw [hv] at h; exact ⟨om, vecAt_eq_ok.1 hv, h⟩

/-- Full description of a successful iteration of the material loop: the
Lambert node `d`, then the nodes `tailNodes`, are appended to `materials_`,
and the index of the last of them is recorded in `matmap`. -/
theorem compileMaterial_nodes {env : Env} {bp : String} {i : Nat} {om : material_t}
    {st st' : LoadState} (h : compileMaterial env bp i om st = .ok st') :
    ∃ d st1 tr, lambertStep env bp om st = .ok (d, st1) ∧
      transparencyTest env om d st1.scene = .ok tr ∧
      st' = compiled env i om d st1 tr ∧
      d.type = .kLambert ∧
      st'.scene.materials_ =
        st.scene.materials_ ++ d :: tailNodes env om d st.scene.materials_.length tr ∧
      st'.matmap =
        mapAssign st.matmap (i : Int) ((st'.scene.materials_.length : Int) - 1) := by
  obtain ⟨d, st1, tr, hl, ht, rfl⟩ := compileMaterial_ok h
  obtain ⟨hm, _, hmm, hty⟩ := lambertStep_materials hl
  refine ⟨d, st1, tr, hl, ht, rfl, hty, ?_, ?_⟩
  · rw [compiled_materials env i om d st1 tr st.scene.materials_.length (by simp [hm]), hm]
    simp
  · rw [(compiled_frame env i om d st1 tr).2.2.2, hmm]

theorem acyclic_nil : Acyclic [] := by
  intro k m h; simp at h

theorem acyclic_append_nodes (env : Env) (om : material_t) (d : Material) (tr : Bool)
    (ms : List Material) (hd : d.type = .kLambert) (h : Acyclic ms) :
    Acyclic (ms ++ d :: tailNodes env om d ms.length tr) := by
  intro k m hk hc
  by_cases hlt : k < ms.length
  · rw [List.getElem?_append_left hlt] at hk
    exact h k m hk hc
  · rw [List.getElem?_append_right (by omega)] at hk
    obtain ⟨j, hj⟩ : ∃ j, k = ms.length + j := ⟨k - ms.length, by omega⟩
    subst hj
    simp only [Nat.add_sub_cancel_left] at hk
    cases tr <;> simp only [tailNodes, if_true, if_false, List.append_nil, List.cons_append,
      List.nil_append, Bool.false_eq_true] at hk
    · match j, hk with
      | 0, hk => simp at hk; subst hk; rw [hd] at hc; simp at hc
      | 1, hk => simp at hk; subst hk; simp [ggxNode] at hc
      | 2, hk =>
        simp at hk; subst hk
        simp only [layeredNode, Nat.cast_add]; omega
      | j + 3, hk => simp at hk
    · match j, hk with
      | 0, hk => simp at hk; subst hk; rw [hd] at hc; simp at hc
      | 1, hk => simp at hk; subst hk; simp [ggxNode] at hc
      | 2, hk =>
        simp at hk; subst hk
        simp only [layeredNode, Nat.cast_add]; omega
      | 3, hk => simp at hk; subst hk; simp [passthroughNode] at hc
      | 4, hk =>
        simp at hk; subst hk
        simp only [mixNode, Nat.cast_add]; omega
      | j + 5, hk => simp at hk

theorem materialLoop_acyclic {env : Env} {bp : String} {mats : List material_t} {n : Nat}
    {st0 st : LoadState} (h0 : Acyclic st0.scene.materials_)
    (h : forLoop (materialBody env bp mats) n 0 st0 = .ok st) :
    Acyclic st.scene.materials_ := by
  refine forLoop_invariant (materialBody env bp mats) (fun _ s => Acyclic s.scene.materials_)
    ?_ n 0 st0 st h0 h
  intro i s s' hP hb
  obtain ⟨om, _, hc⟩ := materialBody_ok hb
  obtain ⟨d, st1, tr, _, _, _, hty, hm, _⟩ := compileMaterial_nodes hc
  rw [hm]
  exact acyclic_append_nodes env om d tr _ hty hP

theorem finishScene_materials (scene : Scene) :
    (finishScene scene).materials_ = scene.materials_ := by
  unfold finishScene
  by_cases h : scene.uvs_.isEmpty <;> simp [h]

/-! ## The material graph is acyclic (C1) -/

/-- C1.  Whenever `Scene::LoadFromObj` returns a scene, every composite node
of `materials_` (type `kFresnelBlend` or `kMix`) at index `k` has
`0 ≤ brdftopidx < k` and `0 ≤ brdfbaseidx < k`: there is no forward, self or
cyclic reference. -/
theorem composite_indices_precede (env : Env) (filename basepath : String) (scene : Scene)
    (h : LoadFromObj env filename basepath = .ok scene) (k : Nat) (m : Material)
    (hk : scene.materials_[k]? = some m)
    (hc : m.type = .kFresnelBlend ∨ m.type = .kMix) :
    0 ≤ m.brdftopidx ∧ m.brdftopidx < (k : Int) ∧
    0 ≤ m.brdfbaseidx ∧ m.brdfbaseidx < (k : Int) := by
  obtain ⟨_, st1, st2, h1, h2, rfl⟩ := LoadFromObj_ok h
  have hm : (finishScene st2.scene).materials_ = st1.scene.materials_ := by
    rw [finishScene_materials, (shapeLoop_ok h2).materials]
  rw [hm] at hk
  exact materialLoop_acyclic acyclic_nil h1 k m hk hc

/-- C1 at a quad with one material of opacity `0.3`: the scene is returned,
its node `4` is the mix node, and its two references are `3` and `2`. -/
theorem composite_indices_precede_witness :
    ∃ scene m, LoadFromObj (sampleEnv true [⟨"quad", quadMesh⟩]
        [sampleMaterial (3 / 10) "a.png" ""] 0) "quad.obj" "" = .ok scene ∧
      scene.materials_[4]? = some m ∧ m.type = .kMix ∧
      (0 ≤ m.brdftopidx ∧ m.brdftopidx < ((4 : Nat) : Int) ∧
        0 ≤ m.brdfbaseidx ∧ m.brdfbaseidx < ((4 : Nat) : Int)) := by
  have hs : ∃ scene, LoadFromObj (sampleEnv true [⟨"quad", quadMesh⟩]
      [sampleMaterial (3 / 10) "a.png" ""] 0) "quad.obj" "" = .ok scene ∧
      ∃ m, scene.materials_[4]? = some m ∧ m.type = .kMix :=
    ⟨_, by with_unfolding_all rfl, _, by with_unfolding_all rfl, by with_unfolding_all rfl⟩
  obtain ⟨scene, h, m, hk, ht⟩ := hs
  exact ⟨scene, m, h, hk, ht,
    composite_indices_precede _ _ _ scene h 4 m hk (Or.inr ht)⟩

/-! ## The alpha scan -/

theorem toChar_lt_unsigned (c : Nat) :
    toChar false c < toChar false 255 ↔ c % 256 < 255 := by
  simp only [toChar, Bool.false_and, Bool.false_eq_true, if_false]
  omega

theorem toChar_lt_signed (c : Nat) :
    toChar true c < toChar true 255 ↔ 128 ≤ c % 256 ∧ c % 256 < 255 := by
  simp only [toChar, Bool.true_and]
  by_cases h : 128 ≤ c % 256
  · simp [h]; omega
  · simp [h]; omega

/-- The alpha scan returns, with a fuel of `size` or more, and its result is
`true` exactly when some byte at an offset `i, i + 4, ...` below `size`
compares less than `(char)(255)`. -/
theorem alphaScan_spec (char_signed : Bool) (data : List Nat) (size : Nat)
    (hsize : size ≤ data.length) :
    ∀ (fuel i : Nat), i % 4 = 3 → size ≤ i + 4 * fuel →
      ∃ b, alphaScan char_signed data size fuel i = .ok b ∧
        (b = true ↔ ∃ j, i ≤ j ∧ j < size ∧ j % 4 = 3 ∧
          toChar char_signed (data.getD j 0) < toChar char_signed 255) := by
  intro fuel
  induction fuel with
  | zero =>
    intro i _ hf
    refine ⟨false, rfl, ?_⟩
    constructor
    · intro h; cases h
    · rintro ⟨j, h1, h2, _⟩; omega
  | succ fuel ih =>
    intro i hi hf
    unfold alphaScan
    by_cases hlt : i < size
    · simp only [hlt, if_true]
      rw [vecAt_getD (by omega) 0]
      simp only
      by_cases hc : toChar char_signed (data.getD i 0) < toChar char_signed 255
      · simp only [hc, if_true]
        exact ⟨true, rfl, ⟨fun _ => ⟨i, le_refl _, hlt, hi, hc⟩, fun _ => rfl⟩⟩
      · simp only [hc, if_false]
        obtain ⟨b, hb, hiff⟩ := ih (i + 4) (by omega) (by omega)
        refine ⟨b, hb, hiff.trans ?_⟩
        constructor
        · rintro ⟨j, h1, h2, h3, h4⟩
          exact ⟨j, by omega, h2, h3, h4⟩
        · rintro ⟨j, h1, h2, h3, h4⟩
          have hne : j ≠ i := by intro e; subst e; exact hc h4
          exact ⟨j, by omega, h2, h3, h4⟩
    · simp only [hlt, if_false]
      refine ⟨false, rfl, ?_⟩
      constructor
      · intro h; cases h
      · rintro ⟨j, h1, h2, _⟩; omega

/-! ## The texture pool invariant -/

theorem texInv_init : TexInv LoadState.init := by
  constructor <;> simp [LoadState.init, Scene.new, mapFind]

theorem mapFind_mapAssign_cases {κ ν : Type} [DecidableEq κ] (m : List (κ × ν)) (k n : κ)
    (v j : ν) (h : mapFind (mapAssign m k v) n = some j) :
    (n = k ∧ j = v) ∨ mapFind m n = some j := by
  by_cases hn : n = k
  · subst hn
    rw [mapFind_mapAssign_self] at h
    left; exact ⟨rfl, by cases h; rfl⟩
  · rw [mapFind_mapAssign_ne _ _ _ _ hn] at h
    right; exact h

theorem resolveTexture_texInv {env : Env} {bp name : String} {st st' : LoadState} {idx : Int}
    (hinv : TexInv st) (h : resolveTexture env bp name st = .ok (idx, st')) : TexInv st' := by
  rcases resolveTexture_cases h with ⟨_, rfl⟩ | ⟨_, hidx, t, data, hl, rfl⟩
  · exact hinv
  · obtain ⟨buf, rfl, hbuf, hoff, _⟩ := LoadTexture_ok hl
    have hpool := hinv.pool
    constructor
    · simp [hpool]
    · intro k t' data' ht hd
      simp only at ht hd
      by_cases hk : k < st.scene.textures_.length
      · rw [List.getElem?_append_left hk] at ht
        rw [List.getElem?_append_left (by omega)] at hd
        exact hinv.sizes k t' data' ht hd
      · rw [List.getElem?_append_right (by omega)] at ht
        rw [List.getElem?_append_right (by omega)] at hd
        rw [hpool] at hd
        cases hj : k - st.scene.textures_.length with
        | zero =>
          rw [hj] at ht hd
          simp at ht hd
          subst ht; subst hd; exact hbuf
        | succ j => rw [hj] at ht; simp at ht
    · intro k t' ht
      simp only at ht
      by_cases hk : k < st.scene.textures_.length
      · rw [List.getElem?_append_left hk] at ht
        exact hinv.offsets k t' ht
      · rw [List.getElem?_append_right (by omega)] at ht
        cases hj : k - st.scene.textures_.length with
        | zero =>
          rw [hj] at ht
          simp at ht
          subst ht; rw [hoff]; omega
        | succ j => rw [hj] at ht; simp at ht
    · intro n j hn
      simp only at hn ⊢
      rcases mapFind_mapAssign_cases _ _ _ _ _ hn with ⟨_, rfl⟩ | hold
      · subst hidx; simp
      · have := hinv.cached n j hold
        simp only [List.length_append, List.length_singleton, Nat.cast_add, Nat.cast_one]
        omega

theorem resolveOpt_texInv {env : Env} {bp name : String} {st st' : LoadState} {idx : Int}
    (hinv : TexInv st) (h : resolveOpt env bp name st = .ok (idx, st')) : TexInv st' := by
  unfold resolveOpt at h
  by_cases hne : name = ""
  · simp only [hne, ne_eq, not_true_eq_false, if_false, Except.ok.injEq, Prod.mk.injEq] at h
    rw [← h.2]; exact hinv
  · simp only [hne, ne_eq, not_false_eq_true, if_true] at h
    exact resolveTexture_texInv hinv h

theorem pushMaterial_texInv {st : LoadState} (hinv : TexInv st) (m : Material) (name : String) :
    TexInv (pushMaterial st m name) :=
  ⟨hinv.pool, hinv.sizes, hinv.offsets, hinv.cached⟩

theorem lambertStep_texInv {env : Env} {bp : String} {om : material_t} {st st1 : LoadState}
    {d : Material} (hinv : TexInv st) (h : lambertStep env bp om st = .ok (d, st1)) :
    TexInv st1 := by
  obtain ⟨kx, sa, nx, sb, h1, h2, _, rfl⟩ := lambertStep_ok h
  exact pushMaterial_texInv (resolveOpt_texInv (resolveOpt_texInv hinv h1) h2) _ _

theorem compiled_texInv (env : Env) (i : Nat) (om : material_t) (d : Material)
    {st1 : LoadState} (tr : Bool) (hinv : TexInv st1) :
    TexInv (compiled env i om d st1 tr) := by
  obtain ⟨h1, h2, h3, _⟩ := compiled_frame env i om d st1 tr
  constructor
  · rw [h2, h3]; exact hinv.pool
  · rw [h2, h3]; exact hinv.sizes
  · rw [h2]; exact hinv.offsets
  · rw [h1, h2]; exact hinv.cached

theorem compileMaterial_texInv {env : Env} {bp : String} {i : Nat} {om : material_t}
    {st st' : LoadState} (hinv : TexInv st) (h : compileMaterial env bp i om st = .ok st') :
    TexInv st' := by
  obtain ⟨d, st1, tr, hl, _, rfl⟩ := compileMaterial_ok h
  exact compiled_texInv env i om d tr (lambertStep_texInv hinv hl)

/-- The texture pool invariant holds in every state the material loop reaches
from a state in which it holds. -/
theorem materialLoop_texInv {env : Env} {bp : String} {mats : List material_t} {n : Nat}
    {st0 st : LoadState} (h0 : TexInv st0)
    (h : forLoop (materialBody env bp mats) n 0 st0 = .ok st) : TexInv st := by
  refine forLoop_invariant (materialBody env bp mats) (fun _ s => TexInv s)
    ?_ n 0 st0 st h0 h
  intro i s s' hP hb
  obtain ⟨om, _, hc⟩ := materialBody_ok hb
  exact compileMaterial_texInv hP hc

/-! ## The transparency predicate -/

theorem transparencyTest_dissolve {env : Env} {om : material_t} (d : Material) (scene : Scene)
    (h : om.dissolve < 1) : transparencyTest env om d scene = .ok true := by
  unfold transparencyTest
  simp [h, pure, Except.pure]

theorem transparencyTest_no_texture {env : Env} {om : material_t} {d : Material}
    (scene : Scene) (h : ¬ om.dissolve < 1) (hk : d.kxmapidx = -1) :
    transparencyTest env om d scene = .ok false := by
  unfold transparencyTest
  simp [h, hk, pure, Except.pure]

theorem transparencyTest_other_format {env : Env} {om : material_t} {d : Material}
    {scene : Scene} {t : Texture} (h : ¬ om.dissolve < 1) (hk : 0 ≤ d.kxmapidx)
    (ht : scene.textures_[d.kxmapidx.toNat]? = some t) (hf : t.fmt ≠ .RGBA8) :
    transparencyTest env om d scene = .ok false := by
  unfold transparencyTest
  have hv : vecAtI scene.textures_ d.kxmapidx = .ok t := vecAtI_eq_ok.2 ⟨hk, ht⟩
  have hne : d.kxmapidx ≠ -1 := by omega
  simp [h, hne, hv, hf, bind, Except.bind, pure, Except.pure]

/-- For an opacity that is not below one and an 8-bit diffuse texture, the
predicate is the result of the alpha scan over the texture's buffer: it is
`true` exactly when some byte at an offset `3, 7, 11, ...` compares less than
`(char)(255)` as a plain `char`. -/
theorem transparencyTest_rgba8 {env : Env} {om : material_t} {d : Material}
    {scene : Scene} {t : Texture} {data : List Nat} (h : ¬ om.dissolve < 1)
    (hk : 0 ≤ d.kxmapidx) (ht : scene.textures_[d.kxmapidx.toNat]? = some t)
    (hf : t.fmt = .RGBA8) (hd : scene.texturedata_[d.kxmapidx.toNat]? = some data)
    (hsize : t.size ≤ data.length) :
    ∃ b, transparencyTest env om d scene = .ok b ∧
      (b = true ↔ ∃ j, j < t.size ∧ j % 4 = 3 ∧
        toChar env.char_signed (data.getD j 0) < toChar env.char_signed 255) := by
  unfold transparencyTest
  have hv : vecAtI scene.textures_ d.kxmapidx = .ok t := vecAtI_eq_ok.2 ⟨hk, ht⟩
  have hv2 : vecAtI scene.texturedata_ d.kxmapidx = .ok data := vecAtI_eq_ok.2 ⟨hk, hd⟩
  have hne : d.kxmapidx ≠ -1 := by omega
  obtain ⟨b, hb, hiff⟩ :=
    alphaScan_spec env.char_signed data t.size hsize t.size 3 (by norm_num) (by omega)
  refine ⟨b, ?_, hiff.trans ?_⟩
  · simp [h, hne, hv, hv2, hf, hb, bind, Except.bind]
  · constructor
    · rintro ⟨j, _, h2, h3, h4⟩; exact ⟨j, h2, h3, h4⟩
    · rintro ⟨j, h2, h3, h4⟩; exact ⟨j, by omega, h2, h3, h4⟩

theorem compiled_true_materials (env : Env) (i : Nat) (om : material_t) (d : Material)
    {st st1 : LoadState} {bp : String} (hl : lambertStep env bp om st = .ok (d, st1)) :
    (compiled env i om d st1 true).scene.materials_ =
      st.scene.materials_ ++
        [d, ggxNode env d.nmapidx, layeredNode (st.scene.materials_.length + 2),
         passthroughNode, mixNode (st.scene.materials_.length + 4) om.dissolve d.kxmapidx] := by
  obtain ⟨hm, _, _, _⟩ := lambertStep_materials hl
  rw [compiled_materials env i om d st1 true st.scene.materials_.length (by simp [hm]), hm]
  simp [tailNodes]

theorem compileMaterial_of_test {env : Env} {bp : String} (i : Nat) {om : material_t}
    {st st1 : LoadState} {d : Material} {tr : Bool}
    (hl : lambertStep env bp om st = .ok (d, st1))
    (ht : transparencyTest env om d st1.scene = .ok tr) :
    compileMaterial env bp i om st = .ok (compiled env i om d st1 tr) := by
  rw [compileMaterial_eq, hl]
  simp only [Except.bind, ht]

/-! ## Opaque and transparent materials (C3, C4) -/

/-- C4.  A raw material with `dissolve < 1`, whatever its textures, appends
exactly the five nodes Lambert, GGX, Fresnel blend, pass-through, mix, in that
order; exactly one of them is a mix node and its `ns` is the raw `dissolve`.
(`lambertStep` returning says that the material's textures could be
loaded.) -/
theorem transparent_material_five_nodes (env : Env) (bp : String) (i : Nat)
    (om : material_t) (st st1 : LoadState) (d : Material) (hd : om.dissolve < 1)
    (hl : lambertStep env bp om st = .ok (d, st1)) :
    ∃ st' g l p x, compileMaterial env bp i om st = .ok st' ∧
      st'.scene.materials_ = st.scene.materials_ ++ [d, g, l, p, x] ∧
      d.type = .kLambert ∧ g.type = .kMicrofacetGGX ∧ l.type = .kFresnelBlend ∧
      p.type = .kPassthrough ∧ x.type = .kMix ∧ x.ns = om.dissolve ∧
      ([d, g, l, p, x].filter (fun m => decide (m.type = .kMix))).length = 1 := by
  have hty := (lambertStep_materials hl).2.2.2
  refine ⟨_, ggxNode env d.nmapidx, layeredNode (st.scene.materials_.length + 2),
    passthroughNode, mixNode (st.scene.materials_.length + 4) om.dissolve d.kxmapidx,
    compileMaterial_of_test i hl (transparencyTest_dissolve d st1.scene hd),
    compiled_true_materials env i om d hl, hty, rfl, rfl, rfl, rfl, rfl, ?_⟩
  simp [hty, ggxNode, layeredNode, passthroughNode, mixNode]

/-- C4 at the first material of a scene, with opacity `0.3` and the one-texel
texture: the five nodes are appended and the mix node carries `0.3`. -/
theorem transparent_material_five_nodes_witness :
    ∃ d st1, lambertStep (sampleEnv true [] [] 255) "" (sampleMaterial (3 / 10) "a.png" "")
        LoadState.init = .ok (d, st1) ∧
      ∃ st' g l p x, compileMaterial (sampleEnv true [] [] 255) "" 0
          (sampleMaterial (3 / 10) "a.png" "") LoadState.init = .ok st' ∧
        st'.scene.materials_ = LoadState.init.scene.materials_ ++ [d, g, l, p, x] ∧
        d.type = .kLambert ∧ g.type = .kMicrofacetGGX ∧ l.type = .kFresnelBlend ∧
        p.type = .kPassthrough ∧ x.type = .kMix ∧
        x.ns = (sampleMaterial (3 / 10) "a.png" "").dissolve ∧
        ([d, g, l, p, x].filter (fun m => decide (m.type = .kMix))).length = 1 := by
  have hl : ∃ d st1, lambertStep (sampleEnv true [] [] 255) ""
      (sampleMaterial (3 / 10) "a.png" "") LoadState.init = .ok (d, st1) :=
    ⟨_, _, by with_unfolding_all rfl⟩
  obtain ⟨d, st1, hl⟩ := hl
  exact ⟨d, st1, hl, transparent_material_five_nodes _ "" 0 _ LoadState.init st1 d
    (by norm_num [sampleMaterial]) hl⟩

/-! ## The alpha test on signed `char` targets (C2) -/

/-- C2, the code at the failing inputs.  On a target whose plain `char` is
signed, a material with `dissolve = 1` and an 8-bit diffuse texture whose only
alpha byte is `0`, or `100`, is compiled to the three nodes of an opaque
material: the byte is read as a non-negative `char` and `(char)(255)` is `-1`,
so the test `data[i] < (char)(255)` fails.  An alpha byte of `200` is read as
`-56` and does make the material transparent. -/
theorem alpha_test_signed_char :
    ((LoadFromObj (sampleEnv true [⟨"quad", quadMesh⟩] [sampleMaterial 1 "a.png" ""] 0)
        "quad.obj" "").map
      (fun sc => (sc.textures_.map (fun t => t.fmt), sc.texturedata_,
        sc.materials_.map (fun m => m.type))) =
      .ok ([.RGBA8], [[10, 20, 30, 0]], [.kLambert, .kMicrofacetGGX, .kFresnelBlend])) ∧
    ((LoadFromObj (sampleEnv true [⟨"quad", quadMesh⟩] [sampleMaterial 1 "a.png" ""] 100)
        "quad.obj" "").map
      (fun sc => (sc.textures_.map (fun t => t.fmt), sc.texturedata_,
        sc.materials_.map (fun m => m.type))) =
      .ok ([.RGBA8], [[10, 20, 30, 100]], [.kLambert, .kMicrofacetGGX, .kFresnelBlend])) ∧
    ((LoadFromObj (sampleEnv true [⟨"quad", quadMesh⟩] [sampleMaterial 1 "a.png" ""] 200)
        "quad.obj" "").map
      (fun sc => (sc.textures_.map (fun t => t.fmt), sc.texturedata_,
        sc.materials_.map (fun m => m.type))) =
      .ok ([.RGBA8], [[10, 20, 30, 200]],
        [.kLambert, .kMicrofacetGGX, .kFresnelBlend, .kPassthrough, .kMix])) := by
  refine ⟨?_, ?_, ?_⟩ <;> with_unfolding_all rfl

/-! ## The texture cache (C5) -/

theorem mapFind_none_iff {κ ν : Type} [DecidableEq κ] (m : List (κ × ν)) (k : κ) :
    mapFind m k = none ↔ k ∉ m.map Prod.fst := by
  induction m with
  | nil => simp [mapFind]
  | cons p rest ih =>
    obtain ⟨k1, v1⟩ := p
    by_cases h : k1 = k
    · simp [mapFind, h]
    · simp [mapFind, h, ih, Ne.symm h]

theorem mapAssign_of_none {κ ν : Type} [DecidableEq κ] (m : List (κ × ν)) (k : κ) (v : ν)
    (h : mapFind m k = none) : mapAssign m k v = m ++ [(k, v)] := by
  induction m with
  | nil => rfl
  | cons p rest ih =>
    obtain ⟨k1, v1⟩ := p
    by_cases hk : k1 = k
    · simp [mapFind, hk] at h
    · simp only [mapFind, hk, if_false] at h
      simp [mapAssign, hk, ih h]

theorem resolveTexture_keysInv {env : Env} {bp name : String} {st st' : LoadState}
    {idx : Int} {refs : List String} (hinv : KeysInv st refs)
    (h : resolveTexture env bp name st = .ok (idx, st')) : KeysInv st' (refs ++ [name]) := by
  rcases resolveTexture_cases h with ⟨hf, hst⟩ | ⟨hnone, _, t, data, _, rfl⟩
  · rw [hst]
    have hmem : name ∈ st.textures.map Prod.fst := by
      by_contra hc
      rw [(mapFind_none_iff _ _).2 hc] at hf; cases hf
    refine ⟨hinv.nodup, hinv.length, ?_⟩
    intro n
    rw [hinv.mem n]
    constructor
    · intro hn; exact List.mem_append_left _ hn
    · intro hn
      rcases List.mem_append.1 hn with hn | hn
      · exact hn
      · have : n = name := by simpa using hn
        subst this; exact (hinv.mem n).1 hmem
  · have hnot := (mapFind_none_iff _ _).1 hnone
    simp only
    rw [mapAssign_of_none _ _ _ hnone]
    refine ⟨?_, ?_, ?_⟩
    · rw [List.map_append]
      simp only [List.map_cons, List.map_nil]
      refine List.Nodup.append hinv.nodup (List.nodup_singleton _) ?_
      intro a ha hb
      rw [List.mem_singleton] at hb
      subst hb
      exact hnot ha
    · simp [hinv.length]
    · intro n
      simp only [List.map_append, List.map_cons, List.map_nil, List.mem_append,
        List.mem_singleton]
      rw [hinv.mem n]

theorem resolveOpt_keysInv {env : Env} {bp name : String} {st st' : LoadState}
    {idx : Int} {refs : List String} (hinv : KeysInv st refs)
    (h : resolveOpt env bp name st = .ok (idx, st')) :
    KeysInv st' (refs ++ [name].filter (fun n => n ≠ "")) := by
  unfold resolveOpt at h
  by_cases hne : name = ""
  · simp only [hne, ne_eq, not_true_eq_false, if_false, Except.ok.injEq, Prod.mk.injEq] at h
    rw [← h.2]
    simpa [hne] using hinv
  · simp only [hne, ne_eq, not_false_eq_true, if_true] at h
    have := resolveTexture_keysInv hinv h
    simpa [hne] using this

theorem compileMaterial_keysInv {env : Env} {bp : String} {i : Nat} {om : material_t}
    {st st' : LoadState} {refs : List String} (hinv : KeysInv st refs)
    (h : compileMaterial env bp i om st = .ok st') :
    KeysInv st' (refs ++
      [om.diffuse_texname, om.normal_texname].filter (fun n => n ≠ "")) := by
  obtain ⟨d, st1, tr, hl, _, rfl⟩ := compileMaterial_ok h
  obtain ⟨kx, sa, nx, sb, h1, h2, _, rfl⟩ := lambertStep_ok hl
  have hb := resolveOpt_keysInv (resolveOpt_keysInv hinv h1) h2
  obtain ⟨f1, f2, _, _⟩ := compiled_frame env i om d (pushMaterial sb d om.name) tr
  have e : refs ++ [om.diffuse_texname, om.normal_texname].filter (fun n => n ≠ "") =
      refs ++ [om.diffuse_texname].filter (fun n => n ≠ "") ++
        [om.normal_texname].filter (fun n => n ≠ "") := by
    rw [List.append_assoc, ← List.filter_append]; rfl
  rw [e]
  exact ⟨by rw [f1]; exact hb.nodup, by rw [f1, f2]; exact hb.length,
    by rw [f1]; exact hb.mem⟩

theorem materialLoop_keysInv {env : Env} {bp : String} {mats : List material_t} {n : Nat}
    {st : LoadState} (h : forLoop (materialBody env bp mats) n 0 LoadState.init = .ok st) :
    KeysInv st (texRefs (mats.take n)) := by
  have key := forLoop_invariant (materialBody env bp mats)
    (fun i s => KeysInv s (texRefs (mats.take i))) ?_ n 0 LoadState.init st ?_ h
  · simpa using key
  · intro i s s' hP hb
    obtain ⟨om, hom, hc⟩ := materialBody_ok hb
    have := compileMaterial_keysInv hP hc
    rw [take_succ_of_get mats i om hom]
    simpa [texRefs, List.flatMap_append] using this
  · constructor <;> simp [LoadState.init, Scene.new, texRefs]

theorem Grows.refl (a : LoadState) : Grows a a :=
  ⟨⟨[], by simp⟩, fun _ _ h => h⟩

theorem Grows.trans {a b c : LoadState} (h1 : Grows a b) (h2 : Grows b c) : Grows a c := by
  obtain ⟨m1, e1⟩ := h1.materials
  obtain ⟨m2, e2⟩ := h2.materials
  exact ⟨⟨m1 ++ m2, by rw [e2, e1, List.append_assoc]⟩,
    fun n j h => h2.textures n j (h1.textures n j h)⟩

theorem compileMaterial_grows {env : Env} {bp : String} {i : Nat} {om : material_t}
    {st st' : LoadState} (h : compileMaterial env bp i om st = .ok st') : Grows st st' := by
  obtain ⟨d, st1, tr, hl, _, hst, _, hm, _⟩ := compileMaterial_nodes h
  refine ⟨⟨_, hm⟩, ?_⟩
  intro n j hn
  obtain ⟨kx, sa, nx, sb, h1, h2, _, hpush⟩ := lambertStep_ok hl
  rw [hst, (compiled_frame env i om d st1 tr).1, hpush]
  exact resolveOpt_keeps h2 (resolveOpt_keeps h1 hn)

theorem materialLoop_grows {env : Env} {bp : String} {mats : List material_t} {n i : Nat}
    {st0 st : LoadState} (h : forLoop (materialBody env bp mats) n i st0 = .ok st) :
    Grows st0 st := by
  refine forLoop_invariant (materialBody env bp mats) (fun _ s => Grows st0 s)
    ?_ n i st0 st (Grows.refl _) h
  intro i s s' hP hb
  obtain ⟨om, _, hc⟩ := materialBody_ok hb
  exact hP.trans (compileMaterial_grows hc)

theorem forLoop_split {σ : Type} {body : Nat → σ → Result σ} {m n i : Nat} {s s' : σ}
    (h : forLoop body (m + n) i s = .ok s') :
    ∃ sm, forLoop body m i s = .ok sm ∧ forLoop body n (i + m) sm = .ok s' := by
  rw [forLoop_add] at h
  cases hm : forLoop body m i s with
  | error e => rw [hm] at h; simp [Except.bind] at h
  | ok sm => rw [hm] at h; exact ⟨sm, rfl, h⟩

/-- A run of `n` iterations passes through iteration `k < n`. -/
theorem forLoop_through {σ : Type} {body : Nat → σ → Result σ} {n k : Nat} {s s' : σ}
    (hk : k < n) (h : forLoop body n 0 s = .ok s') :
    ∃ sk sk1, forLoop body k 0 s = .ok sk ∧ body k sk = .ok sk1 ∧
      forLoop body (k + 1) 0 s = .ok sk1 ∧ forLoop body (n - (k + 1)) (k + 1) sk1 = .ok s' := by
  have e : n = (k + 1) + (n - (k + 1)) := by omega
  rw [e] at h
  obtain ⟨sk1, h1, h2⟩ := forLoop_split h
  have h1' := h1
  rw [forLoop_succ_last] at h1
  cases hk0 : forLoop body k 0 s with
  | error e => rw [hk0] at h1; simp [Except.bind] at h1
  | ok sk =>
    rw [hk0] at h1
    simp only [Except.bind, Nat.zero_add] at h1
    refine ⟨sk, sk1, rfl, h1, h1', ?_⟩
    simpa using h2

theorem getElem?_append_offset {α : Type} (l r : List α) (j : Nat) :
    (l ++ r)[l.length + j]? = r[j]? := by
  rw [List.getElem?_append_right (by omega)]
  congr 1
  omega

/-- C5.  After the material loop, `textures_` and `texturedata_` each hold
exactly one entry per distinct non-empty texture name the raw materials refer
to, however many materials refer to it; and every reference to a name resolves
to the index the final texture map `textures` gives for that name: for the
raw material `k`, whose Lambert node is the first node appended in iteration
`k` and whose GGX node is the second, the Lambert node's `kxmapidx` and
`nmapidx` and the GGX node's `nmapidx` are the map's values at
`diffuse_texname` and `normal_texname`.  Two references to one name thus get
one index. -/
theorem texture_cache_shared (env : Env) (bp : String) (mats : List material_t)
    (st : LoadState) (h : materialLoop env bp mats LoadState.init = .ok st) :
    st.scene.textures_.length = (texRefs mats).dedup.length ∧
    st.scene.texturedata_.length = (texRefs mats).dedup.length ∧
    ∀ (k : Nat) (om : material_t) (stk : LoadState), mats[k]? = some om →
      forLoop (materialBody env bp mats) k 0 LoadState.init = .ok stk →
      ∃ d g, st.scene.materials_[stk.scene.materials_.length]? = some d ∧
        d.type = .kLambert ∧
        st.scene.materials_[stk.scene.materials_.length + 1]? = some g ∧
        g.type = .kMicrofacetGGX ∧
        (om.diffuse_texname ≠ "" →
          mapFind st.textures om.diffuse_texname = some d.kxmapidx) ∧
        (om.normal_texname ≠ "" →
          mapFind st.textures om.normal_texname = some d.nmapidx ∧
          mapFind st.textures om.normal_texname = some g.nmapidx) := by
  unfold materialLoop at h
  have hkeys := materialLoop_keysInv h
  rw [List.take_length] at hkeys
  have hpool := (materialLoop_texInv texInv_init h).pool
  have hlen : st.scene.textures_.length = (texRefs mats).dedup.length := by
    rw [← hkeys.length, ← List.length_map st.textures Prod.fst]
    apply List.Perm.length_eq
    rw [List.perm_ext_iff_of_nodup hkeys.nodup (List.nodup_dedup _)]
    intro n
    rw [hkeys.mem n, List.mem_dedup]
  refine ⟨hlen, by rw [hpool, hlen], ?_⟩
  intro k om stk hom hstk
  have hk : k < mats.length := by
    by_contra hc
    rw [List.getElem?_eq_none (by omega)] at hom; cases hom
  obtain ⟨sk, sk1, h1, h2, _, h4⟩ := forLoop_through hk h
  rw [hstk] at h1
  cases h1
  obtain ⟨om', hom', hc⟩ := materialBody_ok h2
  rw [hom] at hom'
  cases hom'
  obtain ⟨d, st1, tr, hl, _, hst, hty, hm, _⟩ := compileMaterial_nodes hc
  have hg := materialLoop_grows h4
  obtain ⟨more, hmore⟩ := hg.materials
  have hfr := (compiled_frame env k om d st1 tr).1
  refine ⟨d, ggxNode env d.nmapidx, ?_, hty, ?_, rfl, ?_, ?_⟩
  · rw [hmore, hm, List.append_assoc]
    have := getElem?_append_offset stk.scene.materials_
      (d :: tailNodes env om d stk.scene.materials_.length tr ++ more) 0
    rw [Nat.add_zero] at this
    rw [this]; rfl
  · rw [hmore, hm, List.append_assoc, getElem?_append_offset]
    rfl
  · intro hne
    rcases lambertStep_diffuse hl with ⟨he, _⟩ | ⟨_, hf⟩
    · exact absurd he hne
    · exact hg.textures _ _ (by rw [hst, hfr]; exact hf)
  · intro hne
    rcases lambertStep_normal hl with ⟨he, _⟩ | ⟨_, hf⟩
    · exact absurd he hne
    · have := hg.textures _ _ (by rw [hst, hfr]; exact hf)
      exact ⟨this, this⟩

/-- C5 at two materials that both refer to `a.png` and `f.exr`, with the
roles swapped: four references, two textures loaded. -/
theorem texture_cache_shared_witness :
    ∃ st, materialLoop (sampleEnv true [] [] 255) ""
        [sampleMaterial 1 "a.png" "f.exr", sampleMaterial 1 "f.exr" "a.png"]
        LoadState.init = .ok st ∧
      st.scene.textures_.length = 2 ∧ st.scene.texturedata_.length = 2 ∧
      st.scene.textures_.length = (texRefs
        [sampleMaterial 1 "a.png" "f.exr", sampleMaterial 1 "f.exr" "a.png"]).dedup.length := by
  have hs : ∃ st, materialLoop (sampleEnv true [] [] 255) ""
      [sampleMaterial 1 "a.png" "f.exr", sampleMaterial 1 "f.exr" "a.png"]
      LoadState.init = .ok st ∧
      st.scene.textures_.length = 2 ∧ st.scene.texturedata_.length = 2 :=
    ⟨_, by with_unfolding_all rfl, by with_unfolding_all rfl, by with_unfolding_all rfl⟩
  obtain ⟨st, h, h2, h3⟩ := hs
  exact ⟨st, h, h2, h3, (texture_cache_shared _ _ _ st h).1⟩

/-! ## The material loop leaves the geometry buffers alone -/

theorem resolveOpt_geometry {env : Env} {bp name : String} {st st' : LoadState} {idx : Int}
    (h : resolveOpt env bp name st = .ok (idx, st')) :
    geometryOf st'.scene = geometryOf st.scene := by
  unfold resolveOpt at h
  by_cases hne : name = ""
  · simp only [hne, ne_eq, not_true_eq_false, if_false, Except.ok.injEq, Prod.mk.injEq] at h
    rw [← h.2]
  · simp only [hne, ne_eq, not_false_eq_true, if_true] at h
    rcases resolveTexture_cases h with ⟨_, rfl⟩ | ⟨_, _, t, data, _, rfl⟩ <;> rfl

theorem compileMaterial_geometry {env : Env} {bp : String} {i : Nat} {om : material_t}
    {st st' : LoadState} (h : compileMaterial env bp i om st = .ok st') :
    geometryOf st'.scene = geometryOf st.scene := by
  obtain ⟨d, st1, tr, hl, _, rfl⟩ := compileMaterial_ok h
  obtain ⟨kx, sa, nx, sb, h1, h2, _, rfl⟩ := lambertStep_ok hl
  have e : geometryOf (compiled env i om d (pushMaterial sb d om.name) tr).scene =
      geometryOf sb.scene := by
    cases tr <;> rfl
  rw [e, resolveOpt_geometry h2, resolveOpt_geometry h1]

theorem materialLoop_geometry {env : Env} {bp : String} {mats : List material_t} {n : Nat}
    {st0 st : LoadState} (h : forLoop (materialBody env bp mats) n 0 st0 = .ok st) :
    geometryOf st.scene = geometryOf st0.scene := by
  refine forLoop_invariant (materialBody env bp mats)
    (fun _ s => geometryOf s.scene = geometryOf st0.scene) ?_ n 0 st0 st rfl h
  intro i s s' hP hb
  obtain ⟨om, _, hc⟩ := materialBody_ok hb
  rw [compileMaterial_geometry hc]; exact hP

/-- At the end of the material loop run by `LoadFromObj` the geometry buffers
are still empty. -/
theorem materialLoop_geometry_init {env : Env} {bp : String} {mats : List material_t}
    {st : LoadState} (h : materialLoop env bp mats LoadState.init = .ok st) :
    st.scene.vertices_ = [] ∧ st.scene.normals_ = [] ∧ st.scene.uvs_ = [] ∧
    st.scene.indices_ = [] ∧ st.scene.materialids_ = [] ∧ st.scene.shapes_ = [] ∧
    st.scene.emissives_ = [] := by
  have := materialLoop_geometry h
  simp only [geometryOf, LoadState.init, Scene.new, Prod.mk.injEq] at this
  exact this

theorem shapeVertices_length (mesh : mesh_t) :
    (shapeVertices mesh).length = mesh.positions.length / 3 := by
  simp [shapeVertices]

theorem shapeNormals_length (mesh : mesh_t) :
    (shapeNormals mesh).length = mesh.normals.length / 3 := by
  simp [shapeNormals]

theorem shapeUVs_length (mesh : mesh_t) :
    (shapeUVs mesh).length = mesh.positions.length / 3 := by
  unfold shapeUVs
  split <;> simp

theorem flatMap_length_congr {α β γ : Type} (l : List α) (f : α → List β) (g : α → List γ)
    (h : ∀ a ∈ l, (f a).length = (g a).length) :
    (l.flatMap f).length = (l.flatMap g).length := by
  induction l with
  | nil => rfl
  | cons a rest ih =>
    simp only [List.flatMap_cons, List.length_append]
    rw [h a (List.mem_cons_self _ _), ih (fun b hb => h b (List.mem_cons_of_mem _ hb))]

/-- The buffers of the scene `LoadFromObj` returns, from the parser's output
and the material table `matmap` at the end of the material loop. -/
theorem LoadFromObj_buffers {env : Env} {filename basepath : String} {scene : Scene}
    (h : LoadFromObj env filename basepath = .ok scene) :
    ∃ st1 st2, materialLoop env basepath (env.LoadObj filename basepath).2.1
        LoadState.init = .ok st1 ∧
      shapeLoop (env.LoadObj filename basepath).1 st1 = .ok st2 ∧
      scene = finishScene st2.scene ∧
      st2.scene.vertices_ =
        (env.LoadObj filename basepath).1.flatMap (fun sh => shapeVertices sh.mesh) ∧
      st2.scene.normals_ =
        (env.LoadObj filename basepath).1.flatMap (fun sh => shapeNormals sh.mesh) ∧
      st2.scene.uvs_ =
        (env.LoadObj filename basepath).1.flatMap (fun sh => shapeUVs sh.mesh) ∧
      st2.scene.indices_ =
        (env.LoadObj filename basepath).1.flatMap (fun sh => shapeIndices sh.mesh) ∧
      st2.scene.materialids_ =
        ((env.LoadObj filename basepath).1.flatMap (fun sh => shapeRawIds sh.mesh)).map
          (matmapAt st1.matmap) ∧
      st2.scene.materials_ = st1.scene.materials_ := by
  obtain ⟨_, st1, st2, h1, h2, hsc⟩ := LoadFromObj_ok h
  obtain ⟨g1, g2, g3, g4, g5, _, _⟩ := materialLoop_geometry_init h1
  have hp := shapeLoop_ok h2
  refine ⟨st1, st2, h1, h2, hsc, ?_, ?_, ?_, ?_, ?_, hp.materials⟩
  · rw [hp.vertices, g1, List.take_length]; rfl
  · rw [hp.normals, g2, List.take_length]; rfl
  · rw [hp.uvs, g3, List.take_length]; rfl
  · rw [hp.indices, g4, List.take_length]; rfl
  · rw [hp.materialids, g5, List.take_length]; rfl

theorem finishScene_fields (scene : Scene) :
    (finishScene scene).vertices_ = scene.vertices_ ∧
    (finishScene scene).normals_ = scene.normals_ ∧
    (finishScene scene).indices_ = scene.indices_ ∧
    (finishScene scene).materialids_ = scene.materialids_ ∧
    (finishScene scene).shapes_ = scene.shapes_ ∧
    (finishScene scene).uvs_ =
      (if scene.uvs_ = [] then List.replicate scene.normals_.length ⟨0, 0⟩ else scene.uvs_) := by
  unfold finishScene
  by_cases h : scene.uvs_ = []
  · simp [h]
  · have : scene.uvs_.isEmpty = false := by
      cases hu : scene.uvs_ with
      | nil => exact absurd hu h
      | cons a l => rfl
    simp [h, this]

/-! ## Triangle indices are stored shape-local (C6) -/

/-- C6, counterexample.  Two one-triangle shapes, each with the indices
`0, 1, 2`: the second shape starts at vertex `3`, and its indices are appended
as `0, 1, 2`, not as `3, 4, 5`. -/
theorem indices_offset_counterexample :
    ∃ scene, LoadFromObj (sampleEnv true [⟨"a", triMesh⟩, ⟨"b", triMesh⟩]
        [sampleMaterial 1 "" ""] 0) "two.obj" "" = .ok scene ∧
      scene.shapes_.map (fun sh => sh.startvtx) = [0, 3] ∧
      scene.indices_ = [0, 1, 2, 0, 1, 2] ∧
      scene.indices_ ≠ [0 + 0, 1 + 0, 2 + 0, 0 + 3, 1 + 3, 2 + 3] := by
  refine ⟨_, by with_unfolding_all rfl, by with_unfolding_all rfl,
    by with_unfolding_all rfl, ?_⟩
  decide

/-- C6, amended.  The triangle indices of a shape are appended to `indices_`
unchanged; the base-vertex offset is recorded in the shape's `startvtx`, the
number of entries of `vertices_` when the shape started, and for an index
below the shape's vertex count, index plus `startvtx` addresses that vertex
of the shape in the global `vertices_`. -/
theorem indices_shape_local (objshapes : List shape_t) (s : Nat) (st st' : LoadState)
    (h : shapeStep objshapes s st = .ok st') :
    ∃ sh shape, objshapes[s]? = some sh ∧
      st'.scene.shapes_ = st.scene.shapes_ ++ [shape] ∧
      shape.startvtx = (st.scene.vertices_.length : Int) ∧
      st'.scene.indices_ = st.scene.indices_ ++
        (sh.mesh.indices.take (3 * (sh.mesh.indices.length / 3))).map
          (fun (v : Nat) => (v : Int)) ∧
      ∀ v : Nat, v ∈ sh.mesh.indices → v < sh.mesh.positions.length / 3 →
        ∃ x y z, sh.mesh.positions[3 * v]? = some x ∧ sh.mesh.positions[3 * v + 1]? = some y ∧
          sh.mesh.positions[3 * v + 2]? = some z ∧
          st'.scene.vertices_[(shape.startvtx + (v : Int)).toNat]? = some ⟨x, y, z⟩ := by
  obtain ⟨sh, es, hsh, hsc, _, _, _⟩ := shapeStep_ok h
  refine ⟨sh, shapeRecord st.scene sh.mesh, hsh, by rw [hsc], rfl, by rw [hsc]; rfl, ?_⟩
  intro v _ hv
  have h0 : 3 * v < sh.mesh.positions.length := by omega
  have h1 : 3 * v + 1 < sh.mesh.positions.length := by omega
  have h2 : 3 * v + 2 < sh.mesh.positions.length := by omega
  refine ⟨sh.mesh.positions[3 * v], sh.mesh.positions[3 * v + 1], sh.mesh.positions[3 * v + 2],
    List.getElem?_eq_getElem h0, List.getElem?_eq_getElem h1, List.getElem?_eq_getElem h2, ?_⟩
  have e : ((shapeRecord st.scene sh.mesh).startvtx + (v : Int)).toNat =
      st.scene.vertices_.length + v := by
    simp only [shapeRecord]; omega
  rw [e, hsc]
  simp only
  rw [getElem?_append_offset, shapeVertices, List.getElem?_map,
    List.getElem?_range hv]
  simp [float3At, List.getD_eq_getElem?_getD, List.getElem?_eq_getElem h0,
    List.getElem?_eq_getElem h1, List.getElem?_eq_getElem h2]

/-- C6 amended, at the second of two one-triangle shapes. -/
theorem indices_shape_local_witness :
    ∃ st st', shapeStep [⟨"a", triMesh⟩, ⟨"b", triMesh⟩] 0
        oneNodeState = .ok st ∧
      shapeStep [⟨"a", triMesh⟩, ⟨"b", triMesh⟩] 1 st = .ok st' ∧
      ∃ sh shape, [(⟨"a", triMesh⟩ : shape_t), ⟨"b", triMesh⟩][1]? = some sh ∧
        st'.scene.shapes_ = st.scene.shapes_ ++ [shape] ∧
        shape.startvtx = (st.scene.vertices_.length : Int) ∧
        st'.scene.indices_ = st.scene.indices_ ++
          (sh.mesh.indices.take (3 * (sh.mesh.indices.length / 3))).map
          (fun (v : Nat) => (v : Int)) ∧
        ∀ v : Nat, v ∈ sh.mesh.indices → v < sh.mesh.positions.length / 3 →
          ∃ x y z, sh.mesh.positions[3 * v]? = some x ∧
            sh.mesh.positions[3 * v + 1]? = some y ∧
            sh.mesh.positions[3 * v + 2]? = some z ∧
            st'.scene.vertices_[(shape.startvtx + (v : Int)).toNat]? = some ⟨x, y, z⟩ := by
  have hs : ∃ st st', shapeStep [⟨"a", triMesh⟩, ⟨"b", triMesh⟩] 0
        oneNodeState = .ok st ∧
      shapeStep [⟨"a", triMesh⟩, ⟨"b", triMesh⟩] 1 st = .ok st' :=
    ⟨_, _, by with_unfolding_all rfl, by with_unfolding_all rfl⟩
  obtain ⟨st, st', h0, h1⟩ := hs
  exact ⟨st, st', h0, h1, indices_shape_local _ 1 st st' h1⟩

/-! ## Stream lengths per shape and per scene (C7, C8) -/

/-- C7, counterexample.  A shape with three vertices and an empty normal
stream contributes three entries to `vertices_` and to `uvs_` and none to
`normals_`; after the build the three buffers do not have the same length. -/
theorem stream_lengths_counterexample :
    ∃ scene, LoadFromObj (sampleEnv true [⟨"a", triMesh⟩] [sampleMaterial 1 "" ""] 0)
        "tri.obj" "" = .ok scene ∧
      scene.vertices_.length = 3 ∧ scene.normals_.length = 0 ∧ scene.uvs_.length = 3 ∧
      scene.normals_.length ≠ scene.vertices_.length :=
  ⟨_, by with_unfolding_all rfl, by with_unfolding_all rfl, by with_unfolding_all rfl,
    by with_unfolding_all rfl, by with_unfolding_all decide⟩

/-- C7, amended.  Every shape contributes `positions.size()/3` entries to
`vertices_` and to `uvs_`, and `normals.size()/3` entries to `normals_`; so
the three contributions are equal exactly when the shape's normal count
equals its vertex count.  After a build in which that holds for every shape,
`vertices_`, `normals_` and `uvs_` have the same length. -/
theorem stream_lengths :
    (∀ (objshapes : List shape_t) (s : Nat) (st st' : LoadState),
      shapeStep objshapes s st = .ok st' →
      ∃ sh, objshapes[s]? = some sh ∧
        st'.scene.vertices_.length =
          st.scene.vertices_.length + sh.mesh.positions.length / 3 ∧
        st'.scene.uvs_.length = st.scene.uvs_.length + sh.mesh.positions.length / 3 ∧
        st'.scene.normals_.length =
          st.scene.normals_.length + sh.mesh.normals.length / 3) ∧
    (∀ (env : Env) (filename basepath : String) (scene : Scene),
      LoadFromObj env filename basepath = .ok scene →
      (∀ sh ∈ (env.LoadObj filename basepath).1,
        sh.mesh.normals.length / 3 = sh.mesh.positions.length / 3) →
      scene.normals_.length = scene.vertices_.length ∧
      scene.uvs_.length = scene.vertices_.length) := by
  constructor
  · intro objshapes s st st' h
    obtain ⟨sh, es, hsh, hsc, _, _, _⟩ := shapeStep_ok h
    refine ⟨sh, hsh, ?_, ?_, ?_⟩ <;> rw [hsc] <;>
      simp [shapeVertices_length, shapeUVs_length, shapeNormals_length]
  · intro env filename basepath scene h hall
    obtain ⟨st1, st2, _, _, hsc, hv, hn, hu, _, _, _⟩ := LoadFromObj_buffers h
    obtain ⟨fv, fn, _, _, _, fu⟩ := finishScene_fields st2.scene
    have hnv : st2.scene.normals_.length = st2.scene.vertices_.length := by
      rw [hn, hv]
      apply flatMap_length_congr
      intro sh hsh
      rw [shapeNormals_length, shapeVertices_length]; exact hall sh hsh
    have huv : st2.scene.uvs_.length = st2.scene.vertices_.length := by
      rw [hu, hv]
      apply flatMap_length_congr
      intro sh _
      rw [shapeUVs_length, shapeVertices_length]
    rw [hsc, fv, fn, fu]
    refine ⟨hnv, ?_⟩
    by_cases he : st2.scene.uvs_ = []
    · simp only [he, if_true, List.length_replicate]; exact hnv
    · simp only [he, if_false]; exact huv

/-- C7 amended, at a scene of two shapes whose normal counts equal their
vertex counts. -/
theorem stream_lengths_witness :
    ∃ scene, LoadFromObj (sampleEnv true [⟨"a", fullMesh⟩, ⟨"b", fullMesh⟩]
        [sampleMaterial 1 "" ""] 0) "two.obj" "" = .ok scene ∧
      scene.normals_.length = scene.vertices_.length ∧
      scene.uvs_.length = scene.vertices_.length := by
  have hs : ∃ scene, LoadFromObj (sampleEnv true [⟨"a", fullMesh⟩, ⟨"b", fullMesh⟩]
      [sampleMaterial 1 "" ""] 0) "two.obj" "" = .ok scene :=
    ⟨_, by with_unfolding_all rfl⟩
  obtain ⟨scene, h⟩ := hs
  refine ⟨scene, h, stream_lengths.2 _ _ _ scene h ?_⟩
  intro sh hsh
  simp only [sampleEnv, List.mem_cons, List.mem_singleton, List.not_mem_nil, or_false,
    or_self] at hsh
  rcases hsh with rfl | rfl <;> rfl

/-- C8, counterexample.  A scene whose only shape is a quad with four
vertices, no normals and no UV stream: `uvs_` gets four zero pairs from the
per-shape fallback, the scene-wide fallback does not run, and `uvs_.size()`
is `4` while `normals_.size()` is `0`. -/
theorem uv_fallback_counterexample :
    ∃ scene, LoadFromObj (sampleEnv true [⟨"quad", quadMesh⟩] [sampleMaterial 1 "" ""] 0)
        "quad.obj" "" = .ok scene ∧
      quadMesh.texcoords.length / 2 ≠ quadMesh.positions.length / 3 ∧
      scene.uvs_.length = 4 ∧ scene.normals_.length = 0 ∧
      scene.uvs_.length ≠ scene.normals_.length :=
  ⟨_, by with_unfolding_all rfl, by decide, by with_unfolding_all rfl,
    by with_unfolding_all rfl, by with_unfolding_all decide⟩

/-- C8, amended.  After the build `uvs_.size()` equals `vertices_.size()`
whenever the scene has a vertex; the scene-wide zero-fill fallback, which
sizes `uvs_` to `normals_.size()`, takes effect only when `uvs_` is still
empty after the shape loop, that is when no shape has a vertex. -/
theorem uv_fallback (env : Env) (filename basepath : String) (scene : Scene)
    (h : LoadFromObj env filename basepath = .ok scene) :
    (scene.vertices_ ≠ [] → scene.uvs_.length = scene.vertices_.length) ∧
    (scene.vertices_ = [] →
      scene.uvs_ = List.replicate scene.normals_.length ⟨0, 0⟩ ∧
      scene.uvs_.length = scene.normals_.length) := by
  obtain ⟨st1, st2, _, _, hsc, hv, _, hu, _, _, _⟩ := LoadFromObj_buffers h
  obtain ⟨fv, fn, _, _, _, fu⟩ := finishScene_fields st2.scene
  have huv : st2.scene.uvs_.length = st2.scene.vertices_.length := by
    rw [hu, hv]
    apply flatMap_length_congr
    intro sh _
    rw [shapeUVs_length, shapeVertices_length]
  rw [hsc, fv, fn, fu]
  constructor
  · intro hne
    have : st2.scene.uvs_ ≠ [] := by
      intro he
      rw [he] at huv
      exact hne (List.length_eq_zero.1 huv.symm)
    simp only [this, if_false]; exact huv
  · intro he
    have : st2.scene.uvs_ = [] := by
      rw [he] at huv
      exact List.length_eq_zero.1 huv
    simp [this]

/-- C8 amended, at a scene whose only shape is a quad. -/
theorem uv_fallback_witness :
    ∃ scene, LoadFromObj (sampleEnv true [⟨"quad", quadMesh⟩] [sampleMaterial 1 "" ""] 0)
        "quad.obj" "" = .ok scene ∧
      (scene.vertices_ ≠ [] → scene.uvs_.length = scene.vertices_.length) ∧
      (scene.vertices_ = [] →
        scene.uvs_ = List.replicate scene.normals_.length ⟨0, 0⟩ ∧
        scene.uvs_.length = scene.normals_.length) := by
  have hs : ∃ scene, LoadFromObj (sampleEnv true [⟨"quad", quadMesh⟩]
      [sampleMaterial 1 "" ""] 0) "quad.obj" "" = .ok scene :=
    ⟨_, by with_unfolding_all rfl⟩
  obtain ⟨scene, h⟩ := hs
  exact ⟨scene, h, uv_fallback _ _ _ scene h⟩

/-! ## UV pairs per shape (C9) -/

/-- C9.  A shape with `P = positions.size()/3` vertices appends exactly `P`
entries to `uvs_`: the input pairs `(texcoords[2i], texcoords[2i+1])` in order
when `texcoords.size()/2 = P`, and `P` pairs `(0, 0)` otherwise.  The UV block
always returns, and this is what an iteration of the shape loop that returns
has appended. -/
theorem shape_uvs (objshapes : List shape_t) (s : Nat) (sh : shape_t)
    (hs : objshapes[s]? = some sh) :
    ∃ new : List float2, new.length = sh.mesh.positions.length / 3 ∧
      (sh.mesh.texcoords.length / 2 = sh.mesh.positions.length / 3 →
        ∀ i : Nat, i < sh.mesh.positions.length / 3 →
          ∃ u v, sh.mesh.texcoords[2 * i]? = some u ∧ sh.mesh.texcoords[2 * i + 1]? = some v ∧
            new[i]? = some ⟨u, v⟩) ∧
      (sh.mesh.texcoords.length / 2 ≠ sh.mesh.positions.length / 3 →
        new = List.replicate (sh.mesh.positions.length / 3) ⟨0, 0⟩) ∧
      (∀ scene : Scene, copyUVs sh.mesh (sh.mesh.positions.length / 3) scene =
        .ok { scene with uvs_ := scene.uvs_ ++ new }) ∧
      (∀ st st' : LoadState, shapeStep objshapes s st = .ok st' →
        st'.scene.uvs_ = st.scene.uvs_ ++ new) := by
  refine ⟨shapeUVs sh.mesh, shapeUVs_length sh.mesh, ?_, ?_, copyUVs_eq sh.mesh, ?_⟩
  · intro hm i hi
    have h0 : 2 * i < sh.mesh.texcoords.length := by omega
    have h1 : 2 * i + 1 < sh.mesh.texcoords.length := by omega
    refine ⟨sh.mesh.texcoords[2 * i], sh.mesh.texcoords[2 * i + 1],
      List.getElem?_eq_getElem h0, List.getElem?_eq_getElem h1, ?_⟩
    simp only [shapeUVs, hm, if_true]
    rw [List.getElem?_map, List.getElem?_range hi]
    simp [float2At, List.getD_eq_getElem?_getD, List.getElem?_eq_getElem h0,
      List.getElem?_eq_getElem h1]
  · intro hm
    simp only [shapeUVs, hm, if_false]
  · intro st st' h
    obtain ⟨sh', es, hsh, hsc, _, _, _⟩ := shapeStep_ok h
    rw [hs] at hsh
    cases hsh
    rw [hsc]

/-- C9 at a shape with three vertices and three UV pairs. -/
theorem shape_uvs_witness :
    [(⟨"a", fullMesh⟩ : shape_t)][0]? = some ⟨"a", fullMesh⟩ ∧
    ∃ new : List float2, new.length = fullMesh.positions.length / 3 ∧
      (fullMesh.texcoords.length / 2 = fullMesh.positions.length / 3 →
        ∀ i : Nat, i < fullMesh.positions.length / 3 →
          ∃ u v, fullMesh.texcoords[2 * i]? = some u ∧ fullMesh.texcoords[2 * i + 1]? = some v ∧
            new[i]? = some ⟨u, v⟩) ∧
      (fullMesh.texcoords.length / 2 ≠ fullMesh.positions.length / 3 →
        new = List.replicate (fullMesh.positions.length / 3) ⟨0, 0⟩) ∧
      (∀ scene : Scene, copyUVs fullMesh (fullMesh.positions.length / 3) scene =
        .ok { scene with uvs_ := scene.uvs_ ++ new }) ∧
      (∀ st st' : LoadState, shapeStep [⟨"a", fullMesh⟩] 0 st = .ok st' →
        st'.scene.uvs_ = st.scene.uvs_ ++ new) :=
  ⟨rfl, shape_uvs [⟨"a", fullMesh⟩] 0 ⟨"a", fullMesh⟩ rfl⟩

/-! ## The compiled-material table (C10) -/

theorem appended_last_node (env : Env) (om : material_t) (d : Material) (tr : Bool)
    (ms : List Material) :
    ∃ node, (ms ++ d :: tailNodes env om d ms.length tr)[
        (ms ++ d :: tailNodes env om d ms.length tr).length - 1]? = some node ∧
      (node.type = .kFresnelBlend ∨ node.type = .kMix) := by
  cases tr
  · refine ⟨layeredNode (ms.length + 2), ?_, Or.inl rfl⟩
    have e : (ms ++ d :: tailNodes env om d ms.length false).length - 1 = ms.length + 2 := by
      simp [tailNodes]
    rw [e, getElem?_append_offset]
    rfl
  · refine ⟨mixNode (ms.length + 4) om.dissolve d.kxmapidx, ?_, Or.inr rfl⟩
    have e : (ms ++ d :: tailNodes env om d ms.length true).length - 1 = ms.length + 4 := by
      simp [tailNodes]
    rw [e, getElem?_append_offset]
    rfl

theorem compileMaterial_matmapInv {env : Env} {bp : String} {i : Nat} {om : material_t}
    {st st' : LoadState} (hinv : MatmapInv i st)
    (h : compileMaterial env bp i om st = .ok st') : MatmapInv (i + 1) st' := by
  obtain ⟨d, st1, tr, _, _, _, _, hm, hmap⟩ := compileMaterial_nodes h
  intro r hr
  by_cases hri : r = i
  · subst hri
    obtain ⟨node, hnode, hty⟩ := appended_last_node env om d tr st.scene.materials_
    refine ⟨(st'.scene.materials_.length : Int) - 1, node, ?_, ?_, ?_, hty⟩
    · rw [hmap]; exact mapFind_mapAssign_self _ _ _
    · rw [hm]; simp; omega
    · have e : ((st'.scene.materials_.length : Int) - 1).toNat =
          st'.scene.materials_.length - 1 := by omega
      rw [e, hm]; exact hnode
  · obtain ⟨v, node, hf, hv, hn, hty⟩ := hinv r (by omega)
    refine ⟨v, node, ?_, hv, ?_, hty⟩
    · rw [hmap, mapFind_mapAssign_ne _ _ _ _ (by omega)]; exact hf
    · rw [hm]
      have hlt : v.toNat < st.scene.materials_.length := by
        by_contra hc
        rw [List.getElem?_eq_none (by omega)] at hn; cases hn
      rw [List.getElem?_append_left hlt]; exact hn

theorem materialLoop_matmapInv {env : Env} {bp : String} {mats : List material_t} {n : Nat}
    {st : LoadState} (h : forLoop (materialBody env bp mats) n 0 LoadState.init = .ok st) :
    MatmapInv n st := by
  have key := forLoop_invariant (materialBody env bp mats) MatmapInv ?_ n 0
    LoadState.init st ?_ h
  · simpa using key
  · intro i s s' hP hb
    obtain ⟨om, _, hc⟩ := materialBody_ok hb
    exact compileMaterial_matmapInv hP hc
  · intro r hr; omega

/-- An entry of `matmap` made in iteration `k` is not touched by the later
iterations. -/
theorem materialLoop_matmap_keeps {env : Env} {bp : String} {mats : List material_t}
    {n i k : Nat} {v : Int} {st0 st : LoadState} (hk : k < i)
    (h0 : mapFind st0.matmap (k : Int) = some v)
    (h : forLoop (materialBody env bp mats) n i st0 = .ok st) :
    mapFind st.matmap (k : Int) = some v := by
  have key := forLoop_invariant (materialBody env bp mats)
    (fun j s => k < j ∧ mapFind s.matmap (k : Int) = some v) ?_ n i st0 st ⟨hk, h0⟩ h
  · exact key.2
  · intro j s s' hP hb
    obtain ⟨om, _, hc⟩ := materialBody_ok hb
    obtain ⟨d, st1, tr, _, _, _, _, _, hmap⟩ := compileMaterial_nodes hc
    refine ⟨by omega, ?_⟩
    rw [hmap, mapFind_mapAssign_ne _ _ _ _ (by omega)]
    exact hP.2

/-- C10.  Let `matmap` be the table at the end of the material loop.  For
every raw material `k`, `matmap[k]` is the index of the last node appended in
iteration `k` (the number of nodes after that iteration, minus one; those
nodes stay where they are).  The entries of `materialids_` are the raw
material ids of the triangles, in shape-then-triangle order, each replaced by
the value of `matmap` at it; and for an id `r` with `0 ≤ r < n` that value is
a valid index into `materials_` of a Fresnel-blend or mix node. -/
theorem material_ids_resolve (env : Env) (filename basepath : String) (scene : Scene)
    (h : LoadFromObj env filename basepath = .ok scene) :
    ∃ st1, materialLoop env basepath (env.LoadObj filename basepath).2.1
        LoadState.init = .ok st1 ∧
      (∀ (k : Nat) (stk : LoadState), k < (env.LoadObj filename basepath).2.1.length →
        forLoop (materialBody env basepath (env.LoadObj filename basepath).2.1) (k + 1) 0
          LoadState.init = .ok stk →
        mapFind st1.matmap (k : Int) = some ((stk.scene.materials_.length : Int) - 1) ∧
        stk.scene.materials_ <+: scene.materials_) ∧
      scene.materialids_ =
        ((env.LoadObj filename basepath).1.flatMap (fun sh => shapeRawIds sh.mesh)).map
          (matmapAt st1.matmap) ∧
      ∀ r : Int, 0 ≤ r → r < ((env.LoadObj filename basepath).2.1.length : Int) →
        ∃ v node, mapFind st1.matmap r = some v ∧ matmapAt st1.matmap r = v ∧ 0 ≤ v ∧
          scene.materials_[v.toNat]? = some node ∧
          (node.type = .kFresnelBlend ∨ node.type = .kMix) := by
  obtain ⟨st1, st2, h1, _, hsc, _, _, _, _, hids, hmat⟩ := LoadFromObj_buffers h
  have hmats : scene.materials_ = st1.scene.materials_ := by
    rw [hsc, finishScene_materials, hmat]
  have hidsf : scene.materialids_ = st2.scene.materialids_ := by
    rw [hsc, (finishScene_fields st2.scene).2.2.2.1]
  refine ⟨st1, h1, ?_, by rw [hidsf, hids], ?_⟩
  · intro k stk hk hstk
    unfold materialLoop at h1
    obtain ⟨sk, sk1, _, hbody, hk1, hrest⟩ := forLoop_through hk h1
    rw [hstk] at hk1
    cases hk1
    obtain ⟨om, _, hc⟩ := materialBody_ok hbody
    obtain ⟨d, s1, tr, _, _, _, _, _, hmap⟩ := compileMaterial_nodes hc
    have hself : mapFind stk.matmap (k : Int) =
        some ((stk.scene.materials_.length : Int) - 1) := by
      rw [hmap]; exact mapFind_mapAssign_self _ _ _
    refine ⟨materialLoop_matmap_keeps (Nat.lt_succ_self k) hself hrest, ?_⟩
    obtain ⟨more, hmore⟩ := (materialLoop_grows hrest).materials
    rw [hmats, hmore]
    exact List.prefix_append _ _
  · intro r hr0 hrn
    obtain ⟨v, node, hf, hv, hn, hty⟩ := materialLoop_matmapInv h1 r.toNat (by omega)
    have e : ((r.toNat : Nat) : Int) = r := by omega
    rw [e] at hf
    exact ⟨v, node, hf, by simp [matmapAt, hf], hv, by rw [hmats]; exact hn, hty⟩

/-- C10 at a quad with one transparent material: both triangles get the
compiled index `4`, the mix node. -/
theorem material_ids_resolve_witness :
    ∃ scene, LoadFromObj (sampleEnv true [⟨"quad", quadMesh⟩]
        [sampleMaterial (3 / 10) "" ""] 0) "quad.obj" "" = .ok scene ∧
      scene.materialids_ = [4, 4] ∧
      ∃ st1, materialLoop (sampleEnv true [⟨"quad", quadMesh⟩]
          [sampleMaterial (3 / 10) "" ""] 0) "" [sampleMaterial (3 / 10) "" ""]
          LoadState.init = .ok st1 ∧
        scene.materialids_ = ([0, 0] : List Int).map (matmapAt st1.matmap) := by
  have hs : ∃ scene, LoadFromObj (sampleEnv true [⟨"quad", quadMesh⟩]
      [sampleMaterial (3 / 10) "" ""] 0) "quad.obj" "" = .ok scene ∧
      scene.materialids_ = [4, 4] :=
    ⟨_, by with_unfolding_all rfl, by with_unfolding_all rfl⟩
  obtain ⟨scene, h, hids⟩ := hs
  obtain ⟨st1, h1, _, h3, _⟩ := material_ids_resolve _ _ _ scene h
  exact ⟨scene, h, hids, st1, h1, h3⟩

/-! ## The nodes of a raw material in the final sequence (C16, C17) -/

/-- The nodes of raw material `k` stay, in the final `materials_`, where
iteration `k` appended them: right after the nodes present when the iteration
started. -/
theorem materialLoop_nodes_at {env : Env} {bp : String} {mats : List material_t}
    {st : LoadState} (h : materialLoop env bp mats LoadState.init = .ok st)
    {k : Nat} {om : material_t} {stk : LoadState} (hom : mats[k]? = some om)
    (hstk : forLoop (materialBody env bp mats) k 0 LoadState.init = .ok stk) :
    ∃ d st1 tr more, lambertStep env bp om stk = .ok (d, st1) ∧
      transparencyTest env om d st1.scene = .ok tr ∧ d.type = .kLambert ∧
      st.scene.materials_ = stk.scene.materials_ ++
        (d :: tailNodes env om d stk.scene.materials_.length tr ++ more) ∧
      Grows (compiled env k om d st1 tr) st := by
  unfold materialLoop at h
  have hk : k < mats.length := by
    by_contra hc
    rw [List.getElem?_eq_none (by omega)] at hom; cases hom
  obtain ⟨sk, sk1, h1, h2, _, h4⟩ := forLoop_through hk h
  rw [hstk] at h1
  cases h1
  obtain ⟨om', hom', hc⟩ := materialBody_ok h2
  rw [hom] at hom'
  cases hom'
  obtain ⟨d, st1, tr, hl, ht, hst, hty, hm, _⟩ := compileMaterial_nodes hc
  have hg := materialLoop_grows h4
  obtain ⟨more, hmore⟩ := hg.materials
  refine ⟨d, st1, tr, more, hl, ht, hty, ?_, ?_⟩
  · rw [hmore, hm, List.append_assoc]
  · rw [← hst]; exact hg

theorem tailNodes_get_zero (env : Env) (om : material_t) (d : Material) (n : Nat) (tr : Bool)
    (ms more : List Material) (hn : ms.length = n) :
    (ms ++ (d :: tailNodes env om d n tr ++ more))[n]? = some d ∧
    (ms ++ (d :: tailNodes env om d n tr ++ more))[n + 1]? = some (ggxNode env d.nmapidx) ∧
    (ms ++ (d :: tailNodes env om d n tr ++ more))[n + 2]? = some (layeredNode (n + 2)) := by
  subst hn
  refine ⟨?_, ?_, ?_⟩
  · have := getElem?_append_offset ms (d :: tailNodes env om d ms.length tr ++ more) 0
    rw [Nat.add_zero] at this
    rw [this]; rfl
  · rw [getElem?_append_offset]; rfl
  · rw [getElem?_append_offset]; simp [tailNodes]

theorem tailNodes_get_mix (env : Env) (om : material_t) (d : Material) (n : Nat)
    (ms more : List Material) (hn : ms.length = n) :
    (ms ++ (d :: tailNodes env om d n true ++ more))[n + 3]? = some passthroughNode ∧
    (ms ++ (d :: tailNodes env om d n true ++ more))[n + 4]? =
      some (mixNode (n + 4) om.dissolve d.kxmapidx) := by
  subst hn
  refine ⟨?_, ?_⟩
  · rw [getElem?_append_offset]; simp [tailNodes]
  · rw [getElem?_append_offset]; simp [tailNodes]

/-- C16.  For every raw material `k`, with `n` the number of nodes present
when its iteration starts: the final `materials_` holds its Lambert node at
`n`, its GGX node at `n + 1` and its Fresnel-blend node at `k' = n + 2`, whose
`brdftopidx` is `k' - 1` and whose `brdfbaseidx` is `k' - 2`.  The GGX node's
`nmapidx` equals the Lambert node's: the index the texture map gives for
`normal_texname`, or `-1` when that name is empty.  The specular block finds
the name in the map, so it returns without loading: it leaves `textures_`,
`texturedata_` and the texture map as the Lambert block left them. -/
theorem fresnel_blend_references (env : Env) (bp : String) (mats : List material_t)
    (st : LoadState) (h : materialLoop env bp mats LoadState.init = .ok st)
    (k : Nat) (om : material_t) (stk : LoadState) (hom : mats[k]? = some om)
    (hstk : forLoop (materialBody env bp mats) k 0 LoadState.init = .ok stk) :
    ∃ d g l st1 st2, lambertStep env bp om stk = .ok (d, st1) ∧
      st.scene.materials_[stk.scene.materials_.length]? = some d ∧ d.type = .kLambert ∧
      st.scene.materials_[stk.scene.materials_.length + 1]? = some g ∧
      g.type = .kMicrofacetGGX ∧
      st.scene.materials_[stk.scene.materials_.length + 2]? = some l ∧
      l.type = .kFresnelBlend ∧
      l.brdftopidx = ((stk.scene.materials_.length + 2 : Nat) : Int) - 1 ∧
      l.brdfbaseidx = ((stk.scene.materials_.length + 2 : Nat) : Int) - 2 ∧
      g.nmapidx = d.nmapidx ∧
      (om.normal_texname = "" → d.nmapidx = -1) ∧
      (om.normal_texname ≠ "" → mapFind st.textures om.normal_texname = some d.nmapidx) ∧
      specularStep env bp om st1 = .ok st2 ∧
      st2.scene.textures_ = st1.scene.textures_ ∧
      st2.scene.texturedata_ = st1.scene.texturedata_ ∧ st2.textures = st1.textures := by
  obtain ⟨d, st1, tr, more, hl, _, hty, hm, hg⟩ := materialLoop_nodes_at h hom hstk
  obtain ⟨g0, g1, g2⟩ := tailNodes_get_zero env om d stk.scene.materials_.length tr
    stk.scene.materials_ more rfl
  rw [← hm] at g0 g1 g2
  refine ⟨d, ggxNode env d.nmapidx, layeredNode (stk.scene.materials_.length + 2), st1,
    afterSpecular env om d st1, hl, g0, hty, g1, rfl, g2, rfl, rfl, rfl, rfl, ?_, ?_,
    specularStep_eq hl, rfl, rfl, rfl⟩
  · intro he
    rcases lambertStep_normal hl with ⟨_, hi⟩ | ⟨hne, _⟩
    · exact hi
    · exact absurd he hne
  · intro hne
    rcases lambertStep_normal hl with ⟨he, _⟩ | ⟨_, hf⟩
    · exact absurd he hne
    · exact hg.textures _ _ (by rw [(compiled_frame env k om d st1 tr).1]; exact hf)

/-- C16 at the second of two materials that share the normal map `a.png`. -/
theorem fresnel_blend_references_witness :
    ∃ st stk d g l, materialLoop (sampleEnv true [] [] 255) ""
        [sampleMaterial 1 "" "a.png", sampleMaterial 1 "" "a.png"] LoadState.init = .ok st ∧
      forLoop (materialBody (sampleEnv true [] [] 255) ""
        [sampleMaterial 1 "" "a.png", sampleMaterial 1 "" "a.png"]) 1 0 LoadState.init =
        .ok stk ∧
      stk.scene.materials_.length = 3 ∧
      st.scene.materials_[stk.scene.materials_.length]? = some d ∧
      st.scene.materials_[stk.scene.materials_.length + 1]? = some g ∧
      st.scene.materials_[stk.scene.materials_.length + 2]? = some l ∧
      l.brdftopidx = ((stk.scene.materials_.length + 2 : Nat) : Int) - 1 ∧
      l.brdfbaseidx = ((stk.scene.materials_.length + 2 : Nat) : Int) - 2 ∧
      g.nmapidx = d.nmapidx := by
  have hs : ∃ st stk, materialLoop (sampleEnv true [] [] 255) ""
        [sampleMaterial 1 "" "a.png", sampleMaterial 1 "" "a.png"] LoadState.init = .ok st ∧
      forLoop (materialBody (sampleEnv true [] [] 255) ""
        [sampleMaterial 1 "" "a.png", sampleMaterial 1 "" "a.png"]) 1 0 LoadState.init =
        .ok stk ∧ stk.scene.materials_.length = 3 :=
    ⟨_, _, by with_unfolding_all rfl, by with_unfolding_all rfl, by with_unfolding_all rfl⟩
  obtain ⟨st, stk, h, hstk, hlen⟩ := hs
  obtain ⟨d, g, l, _, _, _, h0, _, h1, _, h2, _, ht, hb, hn, _⟩ :=
    fresnel_blend_references _ _ _ st h 1 (sampleMaterial 1 "" "a.png") stk rfl hstk
  exact ⟨st, stk, d, g, l, h, hstk, hlen, h0, h1, h2, ht, hb, hn⟩

/-- C17.  For every raw material `k` judged transparent, with `n` the number
of nodes present when its iteration starts: the final `materials_` holds its
Fresnel-blend node at `n + 2`, its pass-through node at `n + 3` and its mix
node at `k' = n + 4`, whose `brdftopidx` is `k' - 1`, whose `brdfbaseidx` is
`k' - 2`, whose `ns` is the raw `dissolve` and whose `nsmapidx` is the
`kxmapidx` of the material's Lambert node at `n`: the index the texture map
gives for `diffuse_texname`, or `-1` when that name is empty. -/
theorem mix_references (env : Env) (bp : String) (mats : List material_t)
    (st : LoadState) (h : materialLoop env bp mats LoadState.init = .ok st)
    (k : Nat) (om : material_t) (stk st1 : LoadState) (d : Material)
    (hom : mats[k]? = some om)
    (hstk : forLoop (materialBody env bp mats) k 0 LoadState.init = .ok stk)
    (hl : lambertStep env bp om stk = .ok (d, st1))
    (htr : transparencyTest env om d st1.scene = .ok true) :
    ∃ l p x, st.scene.materials_[stk.scene.materials_.length]? = some d ∧
      d.type = .kLambert ∧
      st.scene.materials_[stk.scene.materials_.length + 2]? = some l ∧
      l.type = .kFresnelBlend ∧
      st.scene.materials_[stk.scene.materials_.length + 3]? = some p ∧
      p.type = .kPassthrough ∧
      st.scene.materials_[stk.scene.materials_.length + 4]? = some x ∧
      x.type = .kMix ∧
      x.brdftopidx = ((stk.scene.materials_.length + 4 : Nat) : Int) - 1 ∧
      x.brdfbaseidx = ((stk.scene.materials_.length + 4 : Nat) : Int) - 2 ∧
      x.ns = om.dissolve ∧ x.nsmapidx = d.kxmapidx ∧
      (om.diffuse_texname = "" → d.kxmapidx = -1) ∧
      (om.diffuse_texname ≠ "" →
        mapFind st.textures om.diffuse_texname = some d.kxmapidx) := by
  obtain ⟨d', st1', tr, more, hl', ht', hty, hm, hg⟩ := materialLoop_nodes_at h hom hstk
  rw [hl] at hl'
  cases hl'
  rw [htr] at ht'
  cases ht'
  obtain ⟨g0, _, g2⟩ := tailNodes_get_zero env om d stk.scene.materials_.length true
    stk.scene.materials_ more rfl
  obtain ⟨g3, g4⟩ := tailNodes_get_mix env om d stk.scene.materials_.length
    stk.scene.materials_ more rfl
  rw [← hm] at g0 g2 g3 g4
  refine ⟨layeredNode (stk.scene.materials_.length + 2), passthroughNode,
    mixNode (stk.scene.materials_.length + 4) om.dissolve d.kxmapidx,
    g0, hty, g2, rfl, g3, rfl, g4, rfl, rfl, rfl, rfl, rfl, ?_, ?_⟩
  · intro he
    rcases lambertStep_diffuse hl with ⟨_, hi⟩ | ⟨hne, _⟩
    · exact hi
    · exact absurd he hne
  · intro hne
    rcases lambertStep_diffuse hl with ⟨he, _⟩ | ⟨_, hf⟩
    · exact absurd he hne
    · exact hg.textures _ _ (by rw [(compiled_frame env k om d st1 true).1]; exact hf)

/-- C17 at a single material of opacity `0.3` with the diffuse texture
`a.png`. -/
theorem mix_references_witness :
    ∃ st d l p x, materialLoop (sampleEnv true [] [] 255) ""
        [sampleMaterial (3 / 10) "a.png" ""] LoadState.init = .ok st ∧
      st.scene.materials_[LoadState.init.scene.materials_.length]? = some d ∧
      d.type = .kLambert ∧
      st.scene.materials_[LoadState.init.scene.materials_.length + 2]? = some l ∧
      l.type = .kFresnelBlend ∧
      st.scene.materials_[LoadState.init.scene.materials_.length + 3]? = some p ∧
      p.type = .kPassthrough ∧
      st.scene.materials_[LoadState.init.scene.materials_.length + 4]? = some x ∧
      x.type = .kMix ∧
      x.brdftopidx = ((LoadState.init.scene.materials_.length + 4 : Nat) : Int) - 1 ∧
      x.brdfbaseidx = ((LoadState.init.scene.materials_.length + 4 : Nat) : Int) - 2 ∧
      x.ns = (sampleMaterial (3 / 10) "a.png" "").dissolve ∧ x.nsmapidx = d.kxmapidx ∧
      ((sampleMaterial (3 / 10) "a.png" "").diffuse_texname = "" → d.kxmapidx = -1) ∧
      ((sampleMaterial (3 / 10) "a.png" "").diffuse_texname ≠ "" →
        mapFind st.textures (sampleMaterial (3 / 10) "a.png" "").diffuse_texname =
          some d.kxmapidx) := by
  have hs : ∃ st d st1, materialLoop (sampleEnv true [] [] 255) ""
        [sampleMaterial (3 / 10) "a.png" ""] LoadState.init = .ok st ∧
      lambertStep (sampleEnv true [] [] 255) "" (sampleMaterial (3 / 10) "a.png" "")
        LoadState.init = .ok (d, st1) ∧
      transparencyTest (sampleEnv true [] [] 255) (sampleMaterial (3 / 10) "a.png" "") d
        st1.scene = .ok true :=
    ⟨_, _, _, by with_unfolding_all rfl, by with_unfolding_all rfl,
      by with_unfolding_all rfl⟩
  obtain ⟨st, d, st1, h, hl, htr⟩ := hs
  obtain ⟨l, p, x, hx⟩ := mix_references _ _ _ st h 0 (sampleMaterial (3 / 10) "a.png" "")
    LoadState.init st1 d rfl rfl hl htr
  exact ⟨st, d, l, p, x, h, hx⟩

/-! ## Texture formats and the alpha pre-fill (C20) -/

/-- C20.  `GetTextureForemat` maps a `UINT8` source to `RGBA8`, a `HALF`
source to `RGBA16` and every other sample type to `RGBA32`.  For a `UINT8`
source of dimensions `w`, `h`, `d`, `LoadTexture` returns, records
`size = w * h * d * 4` and the format `RGBA8`, and the buffer it passes to the
pixel reader has exactly that many bytes, each `255`; the buffer appended to
the pool is what the reader leaves of it. -/
theorem texture_format_and_prefill :
    (∀ spec : ImageSpec,
      (spec.basetype = .UINT8 → GetTextureForemat spec = .RGBA8) ∧
      (spec.basetype = .HALF → GetTextureForemat spec = .RGBA16) ∧
      (spec.basetype ≠ .UINT8 → spec.basetype ≠ .HALF →
        GetTextureForemat spec = .RGBA32)) ∧
    (∀ (env : Env) (filename : String) (data : List (List Nat)) (input : ImageInput),
      env.ImageInput_open filename = some input → input.spec.basetype = .UINT8 →
      ∃ buf : List Nat,
        buf.length = input.spec.width * input.spec.height * input.spec.depth * 4 ∧
        (∀ k : Nat, k < buf.length → buf[k]? = some 255) ∧
        LoadTexture env filename data =
          .ok ({ w := input.spec.width, h := input.spec.height, d := input.spec.depth,
                 fmt := .RGBA8, dataoffset := data.length,
                 size := input.spec.width * input.spec.height * input.spec.depth * 4 },
               data ++ [readInto (input.read_image .UINT8 4) buf])) := by
  constructor
  · intro spec
    refine ⟨?_, ?_, ?_⟩
    · intro h; simp [GetTextureForemat, h]
    · intro h; simp [GetTextureForemat, h]
    · intro h1 h2; simp [GetTextureForemat, h1, h2]
  · intro env filename data input ho hb
    refine ⟨List.replicate (input.spec.width * input.spec.height * input.spec.depth * 4) 255,
      by simp, ?_, ?_⟩
    · intro k hk
      rw [List.length_replicate] at hk
      rw [List.getElem?_replicate]
      simp [hk]
    · have hf : GetTextureForemat input.spec = .RGBA8 := by simp [GetTextureForemat, hb]
      unfold LoadTexture
      rw [ho]
      simp only [hf]

/-- C20 at the one-texel 8-bit image: four bytes, all `255`, are handed to
the reader, which stores the texel over them. -/
theorem texture_format_and_prefill_witness :
    ∃ buf : List Nat, buf.length = 4 ∧ (∀ k : Nat, k < buf.length → buf[k]? = some 255) ∧
      LoadTexture (sampleEnv true [] [] 0) "a.png" [] =
        .ok (⟨1, 1, 1, .RGBA8, 0, 4⟩,
          [] ++ [readInto ((texelImage 0).read_image .UINT8 4) buf]) ∧
      readInto ((texelImage 0).read_image .UINT8 4) buf = [10, 20, 30, 0] := by
  obtain ⟨buf, hlen, hall, hload⟩ :=
    texture_format_and_prefill.2 (sampleEnv true [] [] 0) "a.png" [] (texelImage 0) rfl rfl
  have hlen4 : buf.length = 4 := hlen
  refine ⟨buf, hlen4, hall, hload, ?_⟩
  match buf, hlen4, hall with
  | [a, b, c, e], _, hall =>
    have h0 := hall 0 (by simp)
    have h1 := hall 1 (by simp)
    have h2 := hall 2 (by simp)
    have h3 := hall 3 (by simp)
    simp only [List.getElem?_cons_zero, List.getElem?_cons_succ, Option.some.injEq]
      at h0 h1 h2 h3
    subst h0 h1 h2 h3
    rfl

/-! ## The worker thread (C13, C18, C19) -/

theorem atomic_compare_exchange_strong_eq (obj desired : Int) :
    atomic_compare_exchange_strong obj obj desired = (true, desired, obj) := by
  simp [atomic_compare_exchange_strong]

theorem atomic_compare_exchange_strong_ne {obj expected : Int} (desired : Int)
    (h : obj ≠ expected) :
    atomic_compare_exchange_strong obj expected desired = (false, obj, obj) := by
  simp [atomic_compare_exchange_strong, h]

/-- A worker that has returned stays as it is when more observations are
offered. -/
theorem RenderThread_done (tps idx : Int) :
    ∀ (pre : List Observation) (u : Int) (post : List Observation),
      (RenderThread tps idx u pre).2 = true →
      RenderThread tps idx u (pre ++ post) = RenderThread tps idx u pre := by
  intro pre
  induction pre with
  | nil => intro u post h; simp [RenderThread] at h
  | cons o rest ih =>
    intro u post h
    by_cases hs : o.stop ≠ 0
    · simp [RenderThread, hs]
    · rw [List.cons_append]
      simp only [RenderThread, hs, if_false] at h ⊢
      rw [ih _ post h]

/-- C13.  Once the check at the top of an iteration reads `stop != 0`, the
worker has returned, and the device calls of the whole run are those of the
iterations before that check: no `Clear`, `Render`, `GetData` or
`newdata.store(1)` is made at or after it, whatever the clear flag, the clock
and any later observation are. -/
theorem render_thread_stops (tps idx u : Int) (pre post : List Observation)
    (obs : Observation) (hstop : obs.stop ≠ 0) :
    RenderThread tps idx u (pre ++ obs :: post) = ((RenderThread tps idx u pre).1, true) := by
  induction pre generalizing u with
  | nil => simp [RenderThread, hstop]
  | cons o rest ih =>
    by_cases hs : o.stop ≠ 0
    · simp [RenderThread, hs]
    · rw [List.cons_append]
      simp only [RenderThread, hs, if_false]
      rw [ih]

/-- C13 at a worker that runs one iteration and then reads the stop flag set,
with the clear flag set and ten seconds gone: only the calls of the first
iteration are made. -/
theorem render_thread_stops_witness :
    RenderThread 1000 1 0 ([running 1 500] ++ stopping 1 10500 :: [running 1 20000]) =
      ([.Clear 1, .Render 1, .GetData 1, .StoreNewdata 1, .Finish 1], true) ∧
    RenderThread 1000 1 0 ([running 1 500] ++ stopping 1 10500 :: [running 1 20000]) =
      ((RenderThread 1000 1 0 [running 1 500]).1, true) :=
  ⟨by decide, render_thread_stops 1000 1 0 [running 1 500] [running 1 20000]
    (stopping 1 10500) (by decide)⟩

/-- Closed form of one iteration of the worker. -/
theorem renderIteration_eq (tps idx u : Int) (obs : Observation) :
    renderIteration tps idx u obs =
      if obs.clear = 1 then
        { calls := [.Clear idx, .Render idx, .GetData idx, .StoreNewdata idx, .Finish idx]
          clear := 0, updatetime := obs.now }
      else if whole_seconds tps (obs.now - u) > 1 then
        { calls := [.Render idx, .GetData idx, .StoreNewdata idx, .Finish idx]
          clear := obs.clear, updatetime := obs.now }
      else { calls := [.Render idx, .Finish idx], clear := obs.clear, updatetime := u } := by
  unfold renderIteration
  by_cases hc : obs.clear = 1
  · simp [atomic_compare_exchange_strong, hc]
  · by_cases ht : whole_seconds tps (obs.now - u) > 1 <;>
      simp [atomic_compare_exchange_strong, hc, ht]

/-- C18.  In one iteration the read-back `GetData` followed by
`newdata.store(1)` happens exactly when the clear flag was consumed in this
iteration or the whole-second duration since `updatetime` (the last publish,
initially the start of the thread) is greater than `1`; `updatetime` becomes
`now` exactly then; and the calls are made in the order clear (if any), render,
read-back and publish (if any), finish. -/
theorem render_iteration_order (tps idx u : Int) (obs : Observation) :
    (renderIteration tps idx u obs).calls =
      (if obs.clear = 1 then [DeviceCall.Clear idx] else []) ++ [DeviceCall.Render idx] ++
      (if obs.clear = 1 ∨ whole_seconds tps (obs.now - u) > 1 then
        [DeviceCall.GetData idx, DeviceCall.StoreNewdata idx] else []) ++
      [DeviceCall.Finish idx] ∧
    (renderIteration tps idx u obs).updatetime =
      (if obs.clear = 1 ∨ whole_seconds tps (obs.now - u) > 1 then obs.now else u) := by
  rw [renderIteration_eq]
  by_cases hc : obs.clear = 1
  · simp [hc]
  · by_cases ht : whole_seconds tps (obs.now - u) > 1 <;> simp [hc, ht]

/-- C19.  The clear flag is tested and cleared in one compare-exchange: when
it holds `1`, the device output is cleared in this iteration and the flag is
`0` right afterwards; when it holds any other value, nothing is cleared and
the flag keeps its value, so a flag that holds `0` stays `0`. -/
theorem clear_flag_consumed (tps idx u : Int) (obs : Observation) :
    (DeviceCall.Clear idx ∈ (renderIteration tps idx u obs).calls ↔ obs.clear = 1) ∧
    (obs.clear = 1 → (renderIteration tps idx u obs).clear = 0) ∧
    (obs.clear ≠ 1 → (renderIteration tps idx u obs).clear = obs.clear) ∧
    (obs.clear = 0 → (renderIteration tps idx u obs).clear = 0 ∧
      ∀ d, DeviceCall.Clear d ∉ (renderIteration tps idx u obs).calls) := by
  rw [renderIteration_eq]
  by_cases hc : obs.clear = 1
  · simp [hc]
  · by_cases ht : whole_seconds tps (obs.now - u) > 1 <;> simp [hc, ht]

/-- C18 at two iterations with the clear flag unset, started at tick `0` of a
clock of `1000` ticks per second: at `2500` ticks two whole seconds have
passed and the iteration publishes; at `1999` ticks only one has, and it does
not. -/
theorem render_iteration_order_witness :
    (renderIteration 1000 1 0 (running 0 2500)).calls =
      [.Render 1, .GetData 1, .StoreNewdata 1, .Finish 1] ∧
    (renderIteration 1000 1 0 (running 0 2500)).updatetime = 2500 ∧
    (renderIteration 1000 1 0 (running 0 1999)).calls = [.Render 1, .Finish 1] ∧
    (renderIteration 1000 1 0 (running 0 1999)).updatetime = 0 := by
  refine ⟨?_, ?_, ?_, ?_⟩
  · rw [(render_iteration_order 1000 1 0 (running 0 2500)).1]; decide
  · rw [(render_iteration_order 1000 1 0 (running 0 2500)).2]; decide
  · rw [(render_iteration_order 1000 1 0 (running 0 1999)).1]; decide
  · rw [(render_iteration_order 1000 1 0 (running 0 1999)).2]; decide

/-- C19 at an iteration that meets the clear flag set: the output is cleared
and the flag is `0` afterwards. -/
theorem clear_flag_consumed_witness :
    DeviceCall.Clear 1 ∈ (renderIteration 1000 1 0 (running 1 10)).calls ∧
    (renderIteration 1000 1 0 (running 1 10)).clear = 0 :=
  ⟨(clear_flag_consumed 1000 1 0 (running 1 10)).1.2 rfl,
    (clear_flag_consumed 1000 1 0 (running 1 10)).2.1 rfl⟩

/-! ## The merge loop of `Update` (C14) -/

theorem mergeLoop_devices (w h : Int) (devs : List Device) (i : Nat) :
    (mergeLoop w h i devs).1 = devs.map consumeNewdata := by
  induction devs generalizing i with
  | nil => rfl
  | cons dev rest ih =>
    simp only [mergeLoop, List.map_cons]
    by_cases hp : dev.type = .kPrimary
    · simp [hp, ih, consumeNewdata]
    · by_cases hn : dev.ctrl.newdata = 1
      · simp [hp, hn, ih, consumeNewdata, newdataStep, atomic_compare_exchange_strong]
      · simp [hp, hn, ih, consumeNewdata, newdataStep, atomic_compare_exchange_strong]

theorem mergeLoop_calls (w h : Int) (devs : List Device) (i : Nat) :
    (mergeLoop w h i devs).2 =
      (devs.enumFrom i).flatMap (fun p => mergeCalls w h p.1 p.2) := by
  induction devs generalizing i with
  | nil => rfl
  | cons dev rest ih =>
    simp only [mergeLoop, List.enumFrom_cons, List.flatMap_cons]
    by_cases hp : dev.type = .kPrimary
    · simp [hp, ih, mergeCalls]
    · by_cases hn : dev.ctrl.newdata = 1
      · simp [hp, hn, ih, mergeCalls, atomic_compare_exchange_strong]
      · simp [hp, hn, ih, mergeCalls, atomic_compare_exchange_strong]

theorem mergesOf_bound (ops : List NewdataOp) :
    ∀ v : Int, mergesOf v ops ≤ ops.count .publish + (if v = 1 then 1 else 0) := by
  induction ops with
  | nil => intro v; simp [mergesOf]
  | cons op rest ih =>
    intro v
    cases op with
    | publish =>
      have h1 := ih 1
      simp only [if_true] at h1
      have hc : (NewdataOp.publish :: rest).count .publish = rest.count .publish + 1 :=
        List.count_cons_self _ _
      rw [hc]
      simp only [mergesOf, newdataStep, Bool.false_eq_true, if_false]
      omega
    | consume =>
      by_cases hv : v = 1
      · have := ih 0
        simp [mergesOf, newdataStep, atomic_compare_exchange_strong, hv] at this ⊢
        omega
      · have := ih v
        simp [mergesOf, newdataStep, atomic_compare_exchange_strong, hv] at this ⊢
        omega

/-- C14.  In the merge loop every device that is not of the primary class has
its flag `newdata` compare-exchanged from `1` to `0`: the loop uploads and
accumulates the buffer of device `i` exactly when the flag held `1`, and the
flag is `0` afterwards; a flag that did not hold `1` and every device of the
primary class are left as they are, and the primary device is never merged.
On the flag of one device, seen as the sequence of its atomic operations, the
merges are at most the publishes plus one if the flag started at `1`; so after
a publish any number of merge attempts without a new publish merge at most
once. -/
theorem merge_consumes_newdata (w h : Int) (devices : List Device) :
    (mergeLoop w h 0 devices).1 = devices.map consumeNewdata ∧
    (mergeLoop w h 0 devices).2 =
      devices.enum.flatMap (fun p => mergeCalls w h p.1 p.2) ∧
    (∀ (i : Nat) (dev : Device), dev.type ≠ .kPrimary →
      (dev.ctrl.newdata = 1 →
        (consumeNewdata dev).ctrl.newdata = 0 ∧
        mergeCalls w h i dev =
          [.WriteBuffer (i : Int) (w * h),
           .Accumulate (w * w) (Int.tdiv (w * h + 63) 64 * 64)]) ∧
      (dev.ctrl.newdata ≠ 1 → consumeNewdata dev = dev ∧ mergeCalls w h i dev = [])) ∧
    (∀ (i : Nat) (dev : Device), dev.type = .kPrimary →
      consumeNewdata dev = dev ∧ mergeCalls w h i dev = []) ∧
    (∀ (v : Int) (ops : List NewdataOp),
      mergesOf v ops ≤ ops.count .publish + (if v = 1 then 1 else 0)) ∧
    (∀ (v : Int) (n : Nat), mergesOf v (.publish :: List.replicate n .consume) ≤ 1) := by
  refine ⟨mergeLoop_devices w h devices 0, mergeLoop_calls w h devices 0, ?_, ?_,
    fun v ops => mergesOf_bound ops v, ?_⟩
  · intro i dev hp
    constructor
    · intro hn
      simp [consumeNewdata, mergeCalls, newdataStep, atomic_compare_exchange_strong, hp, hn]
    · intro hn
      refine ⟨?_, by simp [mergeCalls, hn]⟩
      simp only [consumeNewdata, hp, if_false, newdataStep, atomic_compare_exchange_strong, hn]
  · intro i dev hp
    simp [consumeNewdata, mergeCalls, hp]
  · intro v n
    have := mergesOf_bound (List.replicate n NewdataOp.consume) 0
    have hc : (List.replicate n NewdataOp.consume).count .publish = 0 := by
      rw [List.count_eq_zero]
      intro hmem
      have := List.eq_of_mem_replicate hmem
      cases this
    simp only [mergesOf, newdataStep]
    have h1 := mergesOf_bound (List.replicate n NewdataOp.consume) 1
    rw [hc] at h1
    simpa using h1

/-- C14 at a primary device and a secondary one whose flag holds `1`: one
upload and one accumulate for device `1`, its flag is `0` afterwards, and the
primary device, whose flag also holds `1`, is passed over. -/
theorem merge_consumes_newdata_witness :
    mergeLoop 4 2 0 (twoDevices 0 1) =
      (twoDevices 0 0, [.WriteBuffer 1 8, .Accumulate 16 64]) ∧
    (mergeLoop 4 2 0 (twoDevices 0 1)).1 = (twoDevices 0 1).map consumeNewdata ∧
    mergesOf 0 [.publish, .consume, .consume, .consume] = 1 ∧
    mergesOf 0 (.publish :: List.replicate 3 .consume) ≤ 1 :=
  ⟨by decide, (merge_consumes_newdata 4 2 (twoDevices 0 1)).1, by decide,
    (merge_consumes_newdata 4 2 (twoDevices 0 1)).2.2.2.2.2 0 3⟩

/-! ## The clear broadcast of `Update` (C15) -/

theorem clearLoop_devices (p : Int) (devs : List Device) (i : Nat) :
    (clearLoop p i devs).1 = (devs.enumFrom i).map (fun q => requestClear p q.1 q.2) := by
  induction devs generalizing i with
  | nil => rfl
  | cons dev rest ih =>
    simp only [clearLoop, List.enumFrom_cons, List.map_cons]
    by_cases hp : (i : Int) = p <;> simp [hp, ih, requestClear]

theorem clearLoop_calls (p : Int) (devs : List Device) (i : Nat) :
    (clearLoop p i devs).2 =
      if (i : Int) ≤ p ∧ p < (i : Int) + devs.length then [DeviceCall.Clear p] else [] := by
  induction devs generalizing i with
  | nil =>
    simp only [clearLoop, List.length_nil, Nat.cast_zero, add_zero]
    rw [if_neg (by omega)]
  | cons dev rest ih =>
    simp only [clearLoop, List.length_cons, Nat.cast_add, Nat.cast_one]
    by_cases hp : (i : Int) = p
    · simp only [hp, if_true]
      rw [ih]
      have h1 : ¬ (((i + 1 : Nat) : Int) ≤ p ∧ p < ((i + 1 : Nat) : Int) + rest.length) := by
        omega
      have h2 : p ≤ p ∧ p < p + ((rest.length : Int) + 1) := by omega
      rw [if_neg h1, if_pos h2]
    · simp only [hp, if_false]
      rw [ih]
      by_cases hr : ((i + 1 : Nat) : Int) ≤ p ∧ p < ((i + 1 : Nat) : Int) + rest.length
      · rw [if_pos hr, if_pos (by omega)]
      · rw [if_neg hr, if_neg (by omega)]

theorem mergeCalls_no_clear (w h : Int) (devs : List Device) (i : Nat) (d : Int) :
    DeviceCall.Clear d ∉ (mergeLoop w h i devs).2 := by
  rw [mergeLoop_calls]
  intro hmem
  rw [List.mem_flatMap] at hmem
  obtain ⟨q, _, hq⟩ := hmem
  unfold mergeCalls at hq
  split at hq <;> simp at hq

theorem consumeNewdata_clear (dev : Device) :
    (consumeNewdata dev).ctrl.clear = dev.ctrl.clear := by
  unfold consumeNewdata
  split <;> rfl

theorem updateRequested_iff (rv rh : Bool) (g : Globals) :
    updateRequested rv rh g = true ↔
      (rv = true ∨ rh = true ∨ g.g_is_mouse_wheel = true ∨ g.g_is_fwd_pressed = true ∨
        g.g_is_back_pressed = true ∨ g.g_is_right_pressed = true ∨
        g.g_is_left_pressed = true ∨ g.g_is_home_pressed = true ∨
        g.g_is_end_pressed = true ∨ g.g_material_changed = true ∨
        g.g_light_changed = true) := by
  unfold updateRequested
  cases rv <;> cases rh <;> cases g.g_is_mouse_wheel <;> cases g.g_is_fwd_pressed <;>
    cases g.g_is_back_pressed <;> cases g.g_is_right_pressed <;>
    cases g.g_is_left_pressed <;> cases g.g_is_home_pressed <;>
    cases g.g_is_end_pressed <;> cases g.g_material_changed <;>
    cases g.g_light_changed <;> simp

theorem renderPrimary_devices (g : Globals) :
    (renderPrimary g).1.devices = g.devices ∧ ∀ d, DeviceCall.Clear d ∉ (renderPrimary g).2 := by
  unfold renderPrimary
  split
  · exact ⟨rfl, by simp⟩
  · split
    · exact ⟨rfl, by simp⟩
    · exact ⟨rfl, by simp⟩

theorem clearBlock_eq (update : Bool) (g : Globals) :
    (clearBlock update g).1.devices =
      (if update then g.devices.enum.map (fun q => requestClear g.g_primary q.1 q.2)
       else g.devices) ∧
    (clearBlock update g).2 =
      (if update = true ∧ 0 ≤ g.g_primary ∧ g.g_primary < g.devices.length then
        [DeviceCall.Clear g.g_primary] else []) := by
  unfold clearBlock
  cases update
  · simp
  · simp only [if_true, clearLoop_devices, clearLoop_calls, List.enum, Nat.cast_zero, zero_add,
      true_and]

/-- The devices and the calls of `Update`, by whether a clear was requested. -/
theorem Update_eq (rv rh : Bool) (g : Globals) :
    (Update rv rh g).1.devices =
      (if updateRequested rv rh g then
        (g.devices.enum.map (fun q => requestClear g.g_primary q.1 q.2)).map consumeNewdata
      else g.devices.map consumeNewdata) ∧
    ∃ rest, (∀ d, DeviceCall.Clear d ∉ rest) ∧
      (Update rv rh g).2 =
        (if updateRequested rv rh g = true ∧ 0 ≤ g.g_primary ∧
            g.g_primary < g.devices.length then
          [DeviceCall.Clear g.g_primary] else []) ++ rest := by
  unfold Update
  obtain ⟨hd, hc⟩ := clearBlock_eq (updateRequested rv rh g) g
  obtain ⟨hrd, hrc⟩ := renderPrimary_devices (clearBlock (updateRequested rv rh g) g).1
  constructor
  · simp only [mergeLoop_devices, hrd, hd]
    split <;> rfl
  · refine ⟨(renderPrimary (clearBlock (updateRequested rv rh g) g).1).2 ++
      (mergeLoop g.g_window_width g.g_window_height 0
        (renderPrimary (clearBlock (updateRequested rv rh g) g).1).1.devices).2, ?_, ?_⟩
    · intro d hmem
      rcases List.mem_append.1 hmem with h1 | h1
      · exact hrc d h1
      · exact mergeCalls_no_clear _ _ _ _ _ h1
    · simp only [hc, List.append_assoc]

/-- C15.  A call of `Update` requests a clear exactly when a change is pending:
a camera rotation or movement input is active (mouse rotation, mouse wheel, or
one of the six movement keys) or `g_material_changed` or `g_light_changed` is
set.  In that case `Update` first clears the output of the primary device and
makes no other `Clear` call, and after it the clear flag of every device other
than `g_primary` is `1`.  Otherwise `Update` makes no `Clear` call and every
clear flag keeps its value. -/
theorem update_clear_broadcast (rv rh : Bool) (g : Globals)
    (hprim : 0 ≤ g.g_primary ∧ g.g_primary < g.devices.length) :
    (updateRequested rv rh g = true ↔
      (rv = true ∨ rh = true ∨ g.g_is_mouse_wheel = true ∨ g.g_is_fwd_pressed = true ∨
        g.g_is_back_pressed = true ∨ g.g_is_right_pressed = true ∨
        g.g_is_left_pressed = true ∨ g.g_is_home_pressed = true ∨
        g.g_is_end_pressed = true ∨ g.g_material_changed = true ∨
        g.g_light_changed = true)) ∧
    (updateRequested rv rh g = true →
      (∃ rest, (Update rv rh g).2 = DeviceCall.Clear g.g_primary :: rest ∧
        ∀ d, DeviceCall.Clear d ∉ rest) ∧
      ∀ (i : Nat) (dev : Device), g.devices[i]? = some dev →
        ∃ dev', (Update rv rh g).1.devices[i]? = some dev' ∧
          ((i : Int) ≠ g.g_primary → dev'.ctrl.clear = 1) ∧
          ((i : Int) = g.g_primary → dev'.ctrl.clear = dev.ctrl.clear)) ∧
    (updateRequested rv rh g = false →
      (∀ d, DeviceCall.Clear d ∉ (Update rv rh g).2) ∧
      ∀ (i : Nat) (dev : Device), g.devices[i]? = some dev →
        ∃ dev', (Update rv rh g).1.devices[i]? = some dev' ∧
          dev'.ctrl.clear = dev.ctrl.clear) := by
  obtain ⟨hdev, rest, hrest, hcalls⟩ := Update_eq rv rh g
  refine ⟨updateRequested_iff rv rh g, ?_, ?_⟩
  · intro hu
    constructor
    · refine ⟨rest, ?_, hrest⟩
      rw [hcalls, if_pos ⟨hu, hprim⟩]; rfl
    · intro i dev hi
      rw [hdev]
      simp only [hu, if_true, List.getElem?_map, List.getElem?_enum, hi, Option.map_some']
      refine ⟨_, rfl, ?_, ?_⟩
      · intro hne
        rw [consumeNewdata_clear]
        simp [requestClear, hne]
      · intro he
        rw [consumeNewdata_clear]
        simp [requestClear, he]
  · intro hu
    constructor
    · intro d
      rw [hcalls]
      simp only [hu, Bool.false_eq_true, false_and, if_false, List.nil_append]
      exact hrest d
    · intro i dev hi
      rw [hdev]
      simp only [hu, Bool.false_eq_true, if_false, List.getElem?_map, hi, Option.map_some']
      exact ⟨_, rfl, consumeNewdata_clear dev⟩

/-- C15 at a primary and a secondary device: with `g_material_changed` set
the call clears device `0` and leaves the clear flag of device `1` at `1`;
with nothing pending it only renders and the clear flag stays `0`. -/
theorem update_clear_broadcast_witness :
    Update false false (sampleGlobals (twoDevices 0 0) true) =
      (sampleGlobals (twoDevices 1 0) false, [.Clear 0, .Render 0]) ∧
    Update false false (sampleGlobals (twoDevices 0 0) false) =
      (sampleGlobals (twoDevices 0 0) false, [.Render 0]) ∧
    (∃ rest, (Update false false (sampleGlobals (twoDevices 0 0) true)).2 =
        DeviceCall.Clear (sampleGlobals (twoDevices 0 0) true).g_primary :: rest ∧
      ∀ d, DeviceCall.Clear d ∉ rest) :=
  ⟨by decide, by decide,
    ((update_clear_broadcast false false (sampleGlobals (twoDevices 0 0) true)
      (by decide)).2.1 (by decide)).1⟩

/-! ## Emissive records (C11) -/

theorem enum_take_succ {α : Type} (l : List α) (n : Nat) (a : α) (h : l[n]? = some a) :
    (l.take (n + 1)).enum = (l.take n).enum ++ [(n, a)] := by
  have hn : n < l.length := by
    by_contra hc
    rw [List.getElem?_eq_none (by omega)] at h; cases h
  rw [take_succ_of_get l n a h, List.enum_append]
  simp [List.enumFrom_cons, List.length_take, Nat.min_eq_left (le_of_lt hn)]

/-- One iteration of the triangle loop appends the emissive record of its
triangle, if any. -/
theorem triangleStep_emissive {mesh : mesh_t} {s i : Nat} {st st' : LoadState}
    (h : triangleStep mesh s i st = .ok st') :
    ∃ id, mesh.material_ids[i]? = some id ∧
      st'.scene.emissives_ = st.scene.emissives_ ++
        emissiveOf st.scene.materials_ s i (matmapAt st.matmap id) ∧
      st'.scene.materials_ = st.scene.materials_ ∧
      ∀ k, matmapAt st'.matmap k = matmapAt st.matmap k := by
  obtain ⟨_, _, _, id0, _, _, _, _, hid0, hsc0, hm0, _⟩ := triangleStep_ok h
  unfold triangleStep at h
  simp only [bind, Except.bind, pure, Except.pure] at h
  cases h0 : vecAt mesh.indices (3 * i) with
  | error e => rw [h0] at h; simp at h
  | ok i0 =>
  cases h1 : vecAt mesh.indices (3 * i + 1) with
  | error e => rw [h0, h1] at h; simp at h
  | ok i1 =>
  cases h2 : vecAt mesh.indices (3 * i + 2) with
  | error e => rw [h0, h1, h2] at h; simp at h
  | ok i2 =>
  cases h3 : vecAt mesh.material_ids i with
  | error e => rw [h0, h1, h2, h3] at h; simp at h
  | ok id =>
  rw [h0, h1, h2, h3] at h
  simp only at h
  cases h4 : vecAtI st.scene.materials_ (mapIndex st.matmap id).1 with
  | error e => rw [h4] at h; simp at h
  | ok node =>
    rw [h4] at h
    simp only [Except.ok.injEq] at h
    rw [mapIndex_fst] at h4
    refine ⟨id, vecAt_eq_ok.1 h3, ?_, ?_, ?_⟩
    · rw [← h, ← mapIndex_fst]
      simp only [emissiveOf, mapIndex_fst, h4]
      by_cases ht : node.type = .kEmissive <;> simp [ht]
    · rw [← h]
      by_cases ht : node.type = .kEmissive <;> simp [ht]
    · intro k
      rw [← h]
      exact mapIndex_matmapAt _ _ _

theorem emissiveRecords_append (materials : List Material) (a b : List (Nat × Nat × Int)) :
    emissiveRecords materials (a ++ b) =
      emissiveRecords materials a ++ emissiveRecords materials b := by
  simp [emissiveRecords, List.flatMap_append]

theorem triangleLoop_emissives {mesh : mesh_t} {s n : Nat} {st0 st' : LoadState}
    (h : forLoop (triangleStep mesh s) n 0 st0 = .ok st') :
    EmissivePrefix mesh s st0 n st' := by
  have key := forLoop_invariant (triangleStep mesh s)
    (fun i st => EmissivePrefix mesh s st0 i st) ?_ n 0 st0 st' ?_ h
  · simpa using key
  · intro i st st1 hP hstep
    obtain ⟨id, hid, hem, hmat, hmm⟩ := triangleStep_emissive hstep
    have hlt : i < mesh.material_ids.length := by
      by_contra hc
      rw [List.getElem?_eq_none (by omega)] at hid; cases hid
    refine ⟨?_, hlt, by rw [hmat]; exact hP.materials,
      fun k => by rw [hmm]; exact hP.matmapAt k⟩
    rw [hem, hP.emissives, hP.materials, hP.matmapAt]
    simp only [shapeTriangles]
    rw [enum_take_succ _ _ _ hid, List.map_append, emissiveRecords_append, List.append_assoc]
    simp [emissiveRecords]
  · exact ⟨by simp [emissiveRecords, shapeTriangles], Nat.zero_le _, rfl, fun _ => rfl⟩

/-- An iteration of the shape loop that returns has run the triangle loop of
its shape to the end. -/
theorem shapeStep_triangles {objshapes : List shape_t} {s : Nat} {st st' : LoadState}
    (h : shapeStep objshapes s st = .ok st') :
    ∃ sh st4, objshapes[s]? = some sh ∧
      forLoop (triangleStep sh.mesh s) (sh.mesh.indices.length / 3) 0
        { st with scene := { st.scene with
            vertices_ := st.scene.vertices_ ++ shapeVertices sh.mesh
            normals_ := st.scene.normals_ ++ shapeNormals sh.mesh
            uvs_ := st.scene.uvs_ ++ shapeUVs sh.mesh } } = .ok st4 ∧
      st'.scene.emissives_ = st4.scene.emissives_ ∧
      st'.scene.materials_ = st4.scene.materials_ ∧ st'.matmap = st4.matmap := by
  unfold shapeStep at h
  simp only [bind, Except.bind, pure, Except.pure] at h
  cases hs : vecAt objshapes s with
  | error e => rw [hs] at h; simp at h
  | ok sh =>
    rw [hs] at h
    simp only [copyVertices_eq, copyNormals_eq, copyUVs_eq] at h
    cases ht : forLoop (triangleStep sh.mesh s) (sh.mesh.indices.length / 3) 0
        { st with scene := { st.scene with
            vertices_ := st.scene.vertices_ ++ shapeVertices sh.mesh
            normals_ := st.scene.normals_ ++ shapeNormals sh.mesh
            uvs_ := st.scene.uvs_ ++ shapeUVs sh.mesh } } with
    | error e => rw [ht] at h; simp at h
    | ok st4 =>
      rw [ht] at h
      simp only [Except.ok.injEq] at h
      exact ⟨sh, st4, vecAt_eq_ok.1 hs, ht, by rw [← h], by rw [← h], by rw [← h]⟩

theorem shapeLoop_emissives {objshapes : List shape_t} {n : Nat} {st0 st' : LoadState}
    (h : forLoop (shapeStep objshapes) n 0 st0 = .ok st') :
    EmissiveShapes objshapes st0 n st' := by
  have key := forLoop_invariant (shapeStep objshapes)
    (fun i st => EmissiveShapes objshapes st0 i st) ?_ n 0 st0 st' ?_ h
  · simpa using key
  · intro i st st1 hP hstep
    obtain ⟨sh, st4, hsh, hloop, hem, hmat, hmm⟩ := shapeStep_triangles hstep
    have hp := triangleLoop_emissives hloop
    have hf : matmapAt st.matmap = matmapAt st0.matmap := funext hP.matmapAt
    refine ⟨?_, ?_, ?_, ?_⟩
    · rw [hem, hp.emissives]
      simp only
      rw [hP.emissives, hP.materials, hf, enum_take_succ _ _ _ hsh, List.flatMap_append,
        emissiveRecords_append, List.append_assoc]
      simp [shapeRawIds]
    · intro sh' hmem
      rw [take_succ_of_get objshapes i sh hsh] at hmem
      rcases List.mem_append.1 hmem with h1 | h1
      · exact hP.ids sh' h1
      · simp only [List.mem_singleton] at h1
        subst h1
        exact hp.ids
    · rw [hmat, hp.materials]; exact hP.materials
    · intro k
      rw [hmm, hp.matmapAt]; exact hP.matmapAt k
  · exact ⟨by simp [emissiveRecords], by simp, rfl, fun _ => rfl⟩

theorem flatMap_congr_mem {α β : Type} (l : List α) (f g : α → List β)
    (h : ∀ a ∈ l, f a = g a) : l.flatMap f = l.flatMap g := by
  induction l with
  | nil => rfl
  | cons a rest ih =>
    simp only [List.flatMap_cons]
    rw [h a (List.mem_cons_self _ _), ih (fun b hb => h b (List.mem_cons_of_mem _ hb))]

theorem mem_of_mem_enum {α : Type} {l : List α} {p : Nat × α} (h : p ∈ l.enum) : p.2 ∈ l := by
  obtain ⟨i, hi⟩ := List.mem_iff_getElem?.1 h
  rw [List.getElem?_enum] at hi
  cases hl : l[i]? with
  | none => rw [hl] at hi; cases hi
  | some a =>
    rw [hl] at hi
    simp only [Option.map_some', Option.some.injEq] at hi
    rw [← hi]
    exact List.mem_iff_getElem?.2 ⟨i, hl⟩

theorem finishScene_emissives (scene : Scene) :
    (finishScene scene).emissives_ = scene.emissives_ := by
  unfold finishScene
  by_cases h : scene.uvs_.isEmpty <;> simp [h]

theorem map_snd_flatMap_enum {α β : Type} (l : List α) (f : α → List β) :
    l.enum.flatMap (fun p => f p.2) = l.flatMap f := by
  have : ∀ n, (l.enumFrom n).flatMap (fun p => f p.2) = l.flatMap f := by
    induction l with
    | nil => intro n; rfl
    | cons a rest ih => intro n; simp [List.enumFrom_cons, ih]
  exact this 0

/-- C11.  The shape loop, run from any state, appends to `emissives_` exactly
one record per triangle whose node `materials_[entry]` has type `kEmissive`,
where `entry` is the triangle's entry of `materialids_`, and no other record:
there is a list of the triangles, in shape-then-triangle order, each with the
entry the loop appends to `materialids_` for it, such that the records
appended are those of the triangles with an emissive node, in that order, each
holding the shape index, the primitive index within the shape and that entry;
`materials_` is not changed.  `LoadFromObj` runs this loop from the state the
material loop leaves, in which `materialids_` and `emissives_` are empty, and
returns the scene with these three vectors as the loop leaves them; so after
`LoadFromObj` the same holds of `emissives_` as a whole. -/
theorem emissive_records :
    (∀ (objshapes : List shape_t) (st0 st2 : LoadState),
      shapeLoop objshapes st0 = .ok st2 →
      ∃ tris : List (Nat × Nat × Int),
        tris.map (fun t => (t.1, t.2.1)) = triangleOrder objshapes ∧
        st2.scene.materialids_ = st0.scene.materialids_ ++ tris.map (fun t => t.2.2) ∧
        st2.scene.materials_ = st0.scene.materials_ ∧
        st2.scene.emissives_ = st0.scene.emissives_ ++ tris.flatMap (fun t =>
          match st2.scene.materials_[t.2.2.toNat]? with
          | some node =>
            if 0 ≤ t.2.2 ∧ node.type = .kEmissive then
              [{ shapeidx := (t.1 : Int), primidx := (t.2.1 : Int), m := t.2.2 }]
            else []
          | none => [])) ∧
    (∀ (env : Env) (filename basepath : String) (scene : Scene),
      LoadFromObj env filename basepath = .ok scene →
      ∃ st1 st2, materialLoop env basepath (env.LoadObj filename basepath).2.1
          LoadState.init = .ok st1 ∧
        shapeLoop (env.LoadObj filename basepath).1 st1 = .ok st2 ∧
        st1.scene.materialids_ = [] ∧ st1.scene.emissives_ = [] ∧
        scene.materialids_ = st2.scene.materialids_ ∧
        scene.materials_ = st2.scene.materials_ ∧
        scene.emissives_ = st2.scene.emissives_) ∧
    (∀ (env : Env) (filename basepath : String) (scene : Scene),
      LoadFromObj env filename basepath = .ok scene →
      ∃ tris : List (Nat × Nat × Int),
        tris.map (fun t => (t.1, t.2.1)) = triangleOrder (env.LoadObj filename basepath).1 ∧
        tris.map (fun t => t.2.2) = scene.materialids_ ∧
        scene.emissives_ = tris.flatMap (fun t =>
          match scene.materials_[t.2.2.toNat]? with
          | some node =>
            if 0 ≤ t.2.2 ∧ node.type = .kEmissive then
              [{ shapeidx := (t.1 : Int), primidx := (t.2.1 : Int), m := t.2.2 }]
            else []
          | none => [])) := by
  have hA : ∀ (objshapes : List shape_t) (st0 st2 : LoadState),
      shapeLoop objshapes st0 = .ok st2 →
      ∃ tris : List (Nat × Nat × Int),
        tris.map (fun t => (t.1, t.2.1)) = triangleOrder objshapes ∧
        st2.scene.materialids_ = st0.scene.materialids_ ++ tris.map (fun t => t.2.2) ∧
        st2.scene.materials_ = st0.scene.materials_ ∧
        st2.scene.emissives_ = st0.scene.emissives_ ++ tris.flatMap (fun t =>
          match st2.scene.materials_[t.2.2.toNat]? with
          | some node =>
            if 0 ≤ t.2.2 ∧ node.type = .kEmissive then
              [{ shapeidx := (t.1 : Int), primidx := (t.2.1 : Int), m := t.2.2 }]
            else []
          | none => []) := by
    intro objshapes st0 st2 h2
    have hp := shapeLoop_emissives h2
    have hq := shapeLoop_ok h2
    have hemis := hp.emissives
    have hidsok := hp.ids
    have hids := hq.materialids
    rw [List.take_length] at hemis hidsok hids
    refine ⟨objshapes.enum.flatMap (fun p =>
      shapeTriangles (matmapAt st0.matmap) p.1 (shapeRawIds p.2.mesh)), ?_, ?_,
      hp.materials, ?_⟩
    · rw [List.map_flatMap, triangleOrder]
      apply flatMap_congr_mem
      intro p hp'
      have hlen := hidsok p.2 (mem_of_mem_enum hp')
      simp only [shapeTriangles, List.map_map, shapeRawIds]
      have e : (List.take (p.2.mesh.indices.length / 3) p.2.mesh.material_ids).length =
          p.2.mesh.indices.length / 3 := by
        rw [List.length_take]; omega
      rw [← e, ← List.enum_map_fst, List.map_map]
      rw [e]
      rfl
    · rw [hids]
      congr 1
      have e : ∀ p : Nat × shape_t,
          List.map (fun t : Nat × Nat × Int => t.2.2)
            (shapeTriangles (matmapAt st0.matmap) p.1 (shapeRawIds p.2.mesh)) =
          (shapeRawIds p.2.mesh).map (matmapAt st0.matmap) := by
        intro p
        simp only [shapeTriangles, List.map_map]
        conv_rhs => rw [← List.enum_map_snd (shapeRawIds p.2.mesh), List.map_map]
        rfl
      rw [List.map_flatMap, List.map_flatMap]
      simp only [e]
      exact (map_snd_flatMap_enum _
        (fun sh : shape_t => (shapeRawIds sh.mesh).map (matmapAt st0.matmap))).symm
    · rw [hemis, hp.materials]
      congr 1
      unfold emissiveRecords
      apply flatMap_congr_mem
      intro t _
      unfold emissiveOf vecAtI vecAt
      by_cases hneg : t.2.2 < 0
      · have : ¬ (0 ≤ t.2.2) := by omega
        simp only [hneg, if_true, this, false_and, if_false]
        split <;> rfl
      · have : 0 ≤ t.2.2 := by omega
        simp only [hneg, if_false, this, true_and]
        cases st0.scene.materials_[t.2.2.toNat]? <;> rfl
  have hB : ∀ (env : Env) (filename basepath : String) (scene : Scene),
      LoadFromObj env filename basepath = .ok scene →
      ∃ st1 st2, materialLoop env basepath (env.LoadObj filename basepath).2.1
          LoadState.init = .ok st1 ∧
        shapeLoop (env.LoadObj filename basepath).1 st1 = .ok st2 ∧
        st1.scene.materialids_ = [] ∧ st1.scene.emissives_ = [] ∧
        scene.materialids_ = st2.scene.materialids_ ∧
        scene.materials_ = st2.scene.materials_ ∧
        scene.emissives_ = st2.scene.emissives_ := by
    intro env filename basepath scene h
    obtain ⟨_, st1, st2, h1, h2, hsc⟩ := LoadFromObj_ok h
    obtain ⟨_, _, _, _, hmi0, _, hem0⟩ := materialLoop_geometry_init h1
    refine ⟨st1, st2, h1, h2, hmi0, hem0, ?_, ?_, ?_⟩
    · rw [hsc, (finishScene_fields st2.scene).2.2.2.1]
    · rw [hsc, finishScene_materials]
    · rw [hsc, finishScene_emissives]
  refine ⟨hA, hB, ?_⟩
  intro env filename basepath scene h
  obtain ⟨st1, st2, _, h2, hmi0, hem0, hmi, hmat, hem⟩ := hB env filename basepath scene h
  obtain ⟨tris, hord, hids, _, hrec⟩ := hA _ st1 st2 h2
  rw [hmi0, List.nil_append] at hids
  rw [hem0, List.nil_append] at hrec
  exact ⟨tris, hord, by rw [hmi, hids], by rw [hem, hmat]; exact hrec⟩

/-- C11 at the quad, from a state whose node `0` is emissive and is the
compiled node of raw material `0`: both triangles get the entry `0` and one
record each, in order; and at the scene loaded from the quad with one raw
material, where the entries are `2`, a Fresnel-blend node, and there is no
record. -/
theorem emissive_records_witness :
    (∃ st2, shapeLoop [⟨"quad", quadMesh⟩] emissiveState = .ok st2 ∧
      st2.scene.materialids_ = [0, 0] ∧
      st2.scene.emissives_ = [⟨0, 0, 0⟩, ⟨0, 1, 0⟩] ∧
      ∃ tris : List (Nat × Nat × Int),
        tris.map (fun t => (t.1, t.2.1)) = triangleOrder [⟨"quad", quadMesh⟩] ∧
        st2.scene.materialids_ =
          emissiveState.scene.materialids_ ++ tris.map (fun t => t.2.2) ∧
        st2.scene.materials_ = emissiveState.scene.materials_ ∧
        st2.scene.emissives_ = emissiveState.scene.emissives_ ++ tris.flatMap (fun t =>
          match st2.scene.materials_[t.2.2.toNat]? with
          | some node =>
            if 0 ≤ t.2.2 ∧ node.type = .kEmissive then
              [{ shapeidx := (t.1 : Int), primidx := (t.2.1 : Int), m := t.2.2 }]
            else []
          | none => [])) ∧
    (∃ scene, LoadFromObj (sampleEnv true [⟨"quad", quadMesh⟩] [sampleMaterial 1 "" ""] 0)
        "quad.obj" "" = .ok scene ∧
      scene.materialids_ = [2, 2] ∧ scene.emissives_ = [] ∧
      ∃ tris : List (Nat × Nat × Int),
        tris.map (fun t => (t.1, t.2.1)) = triangleOrder [⟨"quad", quadMesh⟩] ∧
        tris.map (fun t => t.2.2) = scene.materialids_ ∧
        scene.emissives_ = tris.flatMap (fun t =>
          match scene.materials_[t.2.2.toNat]? with
          | some node =>
            if 0 ≤ t.2.2 ∧ node.type = .kEmissive then
              [{ shapeidx := (t.1 : Int), primidx := (t.2.1 : Int), m := t.2.2 }]
            else []
          | none => [])) := by
  have hl : ∃ st2, shapeLoop [⟨"quad", quadMesh⟩] emissiveState = .ok st2 ∧
      st2.scene.materialids_ = [0, 0] ∧
      st2.scene.emissives_ = [⟨0, 0, 0⟩, ⟨0, 1, 0⟩] :=
    ⟨_, by with_unfolding_all rfl, by with_unfolding_all rfl, by with_unfolding_all rfl⟩
  have hs : ∃ scene, LoadFromObj (sampleEnv true [⟨"quad", quadMesh⟩]
      [sampleMaterial 1 "" ""] 0) "quad.obj" "" = .ok scene ∧
      scene.materialids_ = [2, 2] ∧ scene.emissives_ = [] :=
    ⟨_, by with_unfolding_all rfl, by with_unfolding_all rfl, by with_unfolding_all rfl⟩
  obtain ⟨st2, hloop, hmi, hem2⟩ := hl
  obtain ⟨scene, h, hids, hem⟩ := hs
  exact ⟨⟨st2, hloop, hmi, hem2, emissive_records.1 _ _ st2 hloop⟩,
    ⟨scene, h, hids, hem, emissive_records.2.2 _ _ _ scene h⟩⟩

/-- The shape loop run from a state whose node `0` is emissive appends one
record per triangle of the quad, in order. -/
theorem shapeLoop_emissive_example :
    (shapeLoop [⟨"quad", quadMesh⟩] emissiveState).map (fun st => st.scene.emissives_) =
      .ok [⟨0, 0, 0⟩, ⟨0, 1, 0⟩] := by
  with_unfolding_all rfl

/-! ## Outcomes of `LoadFromObj` (C12) -/

/-- A loop whose iterations return, as long as an invariant holds that they
keep, returns. -/
theorem forLoop_progress {σ : Type} (body : Nat → σ → Result σ) (P : Nat → σ → Prop)
    (i0 : Nat) :
    ∀ (n : Nat),
      (∀ i s, i0 ≤ i → i < i0 + n → P i s → ∃ s', body i s = .ok s' ∧ P (i + 1) s') →
      ∀ s, P i0 s → ∃ s', forLoop body n i0 s = .ok s' ∧ P (i0 + n) s' := by
  intro n
  induction n with
  | zero => intro _ s hs; exact ⟨s, rfl, hs⟩
  | succ n ih =>
    intro step s hs
    obtain ⟨sn, hn, hPn⟩ := ih (fun i s' h1 h2 hP => step i s' h1 (by omega) hP) s hs
    obtain ⟨s', hb, hP'⟩ := step (i0 + n) sn (by omega) (by omega) hPn
    refine ⟨s', ?_, hP'⟩
    rw [forLoop_succ_last, hn]
    exact hb

/-- A loop that fails has run some iterations and failed in the next. -/
theorem forLoop_error {σ : Type} (body : Nat → σ → Result σ) :
    ∀ (n i : Nat) (s : σ) (e : Failure), forLoop body n i s = .error e →
      ∃ j sj, j < n ∧ forLoop body j i s = .ok sj ∧ body (i + j) sj = .error e := by
  intro n
  induction n with
  | zero => intro i s e h; simp [forLoop] at h
  | succ n ih =>
    intro i s e h
    rw [forLoop_succ_last] at h
    cases hn : forLoop body n i s with
    | error e' =>
      rw [hn] at h
      simp only [Except.bind, Except.error.injEq] at h
      subst h
      obtain ⟨j, sj, hj, h1, h2⟩ := ih i s e' hn
      exact ⟨j, sj, by omega, h1, h2⟩
    | ok sn =>
      rw [hn] at h
      exact ⟨n, sn, by omega, hn, h⟩

theorem LoadTexture_total (env : Env) (filename : String) (data : List (List Nat)) :
    (env.ImageInput_open filename ≠ none ∧ ∃ r, LoadTexture env filename data = .ok r) ∨
    (env.ImageInput_open filename = none ∧
      ∃ what, LoadTexture env filename data = .error (.runtime_error what)) := by
  unfold LoadTexture
  cases ho : env.ImageInput_open filename with
  | none => right; exact ⟨rfl, _, rfl⟩
  | some input =>
    left
    refine ⟨by simp, ?_⟩
    simp only
    cases GetTextureForemat input.spec <;> exact ⟨_, rfl⟩

theorem resolveTexture_total (env : Env) (bp name : String) (st : LoadState) :
    (∃ r, resolveTexture env bp name st = .ok r) ∨
    (env.ImageInput_open (bp ++ name) = none ∧
      ∃ what, resolveTexture env bp name st = .error (.runtime_error what)) := by
  unfold resolveTexture
  cases hf : mapFind st.textures name with
  | some j => left; exact ⟨_, rfl⟩
  | none =>
    simp only
    rcases LoadTexture_total env (bp ++ name) st.scene.texturedata_ with
      ⟨_, r, hr⟩ | ⟨hn, what, hw⟩
    · left; rw [hr]; exact ⟨_, rfl⟩
    · right; rw [hw]; exact ⟨hn, what, rfl⟩

theorem resolveTexture_keysOpen {env : Env} {bp name : String} {st st' : LoadState}
    {idx : Int} (hinv : KeysOpen env bp st)
    (h : resolveTexture env bp name st = .ok (idx, st')) : KeysOpen env bp st' := by
  rcases resolveTexture_cases h with ⟨_, hst⟩ | ⟨_, _, t, data, hl, hst⟩
  · rw [hst]; exact hinv
  · intro n j hn
    rw [hst] at hn
    simp only at hn
    rcases mapFind_mapAssign_cases _ _ _ _ _ hn with ⟨hname, _⟩ | hold
    · rw [hname]
      obtain ⟨_, _, _, _, input, ho, _⟩ := LoadTexture_ok hl
      rw [ho]; simp
    · exact hinv n j hold

theorem resolveOpt_total (env : Env) (bp name : String) (st : LoadState) :
    (∃ r, resolveOpt env bp name st = .ok r) ∨
    (name ≠ "" ∧ env.ImageInput_open (bp ++ name) = none ∧
      ∃ what, resolveOpt env bp name st = .error (.runtime_error what)) := by
  unfold resolveOpt
  by_cases hn : name = ""
  · left; simp [hn]
  · simp only [hn, ne_eq, not_false_eq_true, if_true]
    rcases resolveTexture_total env bp name st with hr | ⟨ho, hw⟩
    · left; exact hr
    · right; exact ⟨trivial, ho, hw⟩

theorem resolveOpt_keysOpen {env : Env} {bp name : String} {st st' : LoadState}
    {idx : Int} (hinv : KeysOpen env bp st)
    (h : resolveOpt env bp name st = .ok (idx, st')) : KeysOpen env bp st' := by
  unfold resolveOpt at h
  by_cases hne : name = ""
  · simp only [hne, ne_eq, not_true_eq_false, if_false, Except.ok.injEq, Prod.mk.injEq] at h
    rw [← h.2]; exact hinv
  · simp only [hne, ne_eq, not_false_eq_true, if_true] at h
    exact resolveTexture_keysOpen hinv h

/-- The Lambert block returns, or throws because one of the two texture names
of the material cannot be opened. -/
theorem lambertStep_total (env : Env) (bp : String) (om : material_t) (st : LoadState) :
    (∃ r, lambertStep env bp om st = .ok r) ∨
    (∃ n what, n ∈ [om.diffuse_texname, om.normal_texname].filter (fun n => n ≠ "") ∧
      env.ImageInput_open (bp ++ n) = none ∧
      lambertStep env bp om st = .error (.runtime_error what)) := by
  rw [lambertStep_eq]
  rcases resolveOpt_total env bp om.diffuse_texname st with ⟨r1, h1⟩ | ⟨hne, ho, what, hw⟩
  · rw [h1]
    simp only [Except.bind]
    rcases resolveOpt_total env bp om.normal_texname r1.2 with ⟨r2, h2⟩ | ⟨hne, ho, what, hw⟩
    · left; rw [h2]; exact ⟨_, rfl⟩
    · right
      rw [hw]
      exact ⟨om.normal_texname, what, by simp [hne], ho, rfl⟩
  · right
    rw [hw]
    exact ⟨om.diffuse_texname, what, by simp [hne], ho, rfl⟩

/-- Under the pool invariant the transparency predicate always has a value. -/
theorem transparencyTest_total {env : Env} {bp : String} {om : material_t} {st st1 : LoadState}
    {d : Material} (hinv : TexInv st) (hl : lambertStep env bp om st = .ok (d, st1)) :
    ∃ b, transparencyTest env om d st1.scene = .ok b := by
  by_cases hd : om.dissolve < 1
  · exact ⟨true, transparencyTest_dissolve d st1.scene hd⟩
  · rcases lambertStep_diffuse hl with ⟨_, hk⟩ | ⟨_, hfind⟩
    · exact ⟨false, transparencyTest_no_texture _ hd hk⟩
    · have hinv1 := lambertStep_texInv hinv hl
      obtain ⟨hk0, hklt⟩ := hinv1.cached _ _ hfind
      have hlt : d.kxmapidx.toNat < st1.scene.textures_.length := by omega
      have ht := List.getElem?_eq_getElem hlt
      by_cases hf : (st1.scene.textures_[d.kxmapidx.toNat]).fmt = .RGBA8
      · have hlt2 : d.kxmapidx.toNat < st1.scene.texturedata_.length := by
          rw [hinv1.pool]; exact hlt
        have hdata := List.getElem?_eq_getElem hlt2
        have hlen := hinv1.sizes _ _ _ ht hdata
        obtain ⟨b, hb, _⟩ := transparencyTest_rgba8 hd hk0 ht hf hdata (le_of_eq hlen.symm)
        exact ⟨b, hb⟩
      · exact ⟨false, transparencyTest_other_format hd hk0 ht hf⟩

/-- Under the pool invariant an iteration of the material loop returns, or
throws because one of the two texture names of the material cannot be
opened. -/
theorem compileMaterial_total (env : Env) (bp : String) (i : Nat) (om : material_t)
    {st : LoadState} (hinv : TexInv st) :
    (∃ st', compileMaterial env bp i om st = .ok st') ∨
    (∃ n what, n ∈ [om.diffuse_texname, om.normal_texname].filter (fun n => n ≠ "") ∧
      env.ImageInput_open (bp ++ n) = none ∧
      compileMaterial env bp i om st = .error (.runtime_error what)) := by
  rcases lambertStep_total env bp om st with ⟨r, hr⟩ | ⟨n, what, hn, ho, hw⟩
  · left
    obtain ⟨d, st1⟩ := r
    obtain ⟨b, hb⟩ := transparencyTest_total hinv hr
    exact ⟨_, compileMaterial_of_test i hr hb⟩
  · right
    refine ⟨n, what, hn, ho, ?_⟩
    rw [compileMaterial_eq, hw]
    rfl

theorem compileMaterial_keysOpen {env : Env} {bp : String} {i : Nat} {om : material_t}
    {st st' : LoadState} (hinv : KeysOpen env bp st)
    (h : compileMaterial env bp i om st = .ok st') : KeysOpen env bp st' := by
  obtain ⟨d, st1, tr, hl, _, rfl⟩ := compileMaterial_ok h
  obtain ⟨kx, sa, nx, sb, h1, h2, _, rfl⟩ := lambertStep_ok hl
  have hb := resolveOpt_keysOpen (resolveOpt_keysOpen hinv h1) h2
  intro n j hn
  rw [(compiled_frame env i om d (pushMaterial sb d om.name) tr).1] at hn
  exact hb n j hn

theorem texRefs_of_get {mats : List material_t} {k : Nat} {om : material_t}
    (hom : mats[k]? = some om) {n : String}
    (hn : n ∈ [om.diffuse_texname, om.normal_texname].filter (fun n => n ≠ "")) :
    n ∈ texRefs mats := by
  unfold texRefs
  rw [List.mem_flatMap]
  exact ⟨om, List.mem_iff_getElem?.2 ⟨k, hom⟩, hn⟩

/-- The material loop run by `LoadFromObj` returns exactly when every texture
name the materials refer to can be opened, and otherwise throws. -/
theorem materialLoop_total (env : Env) (bp : String) (mats : List material_t) :
    ((∀ n ∈ texRefs mats, env.ImageInput_open (bp ++ n) ≠ none) ∧
      ∃ st, materialLoop env bp mats LoadState.init = .ok st) ∨
    ((∃ n ∈ texRefs mats, env.ImageInput_open (bp ++ n) = none) ∧
      ∃ what, materialLoop env bp mats LoadState.init = .error (.runtime_error what)) := by
  unfold materialLoop
  cases h : forLoop (materialBody env bp mats) mats.length 0 LoadState.init with
  | ok st =>
    left
    refine ⟨?_, st, rfl⟩
    have hopen : KeysOpen env bp st := by
      refine forLoop_invariant (materialBody env bp mats) (fun _ s => KeysOpen env bp s)
        ?_ mats.length 0 LoadState.init st ?_ h
      · intro i s s' hP hb
        obtain ⟨om, _, hc⟩ := materialBody_ok hb
        exact compileMaterial_keysOpen hP hc
      · intro n j hn; simp [LoadState.init, mapFind] at hn
    have hkeys := materialLoop_keysInv h
    rw [List.take_length] at hkeys
    intro n hn
    have hmem := (hkeys.mem n).2 hn
    cases hf : mapFind st.textures n with
    | none => exact absurd hmem ((mapFind_none_iff _ _).1 hf)
    | some j => exact hopen n j hf
  | error e =>
    right
    obtain ⟨j, sj, hj, hpre, hbody⟩ := forLoop_error _ _ _ _ _ h
    have hinv := materialLoop_texInv texInv_init hpre
    have hom := List.getElem?_eq_getElem hj
    unfold materialBody at hbody
    simp only [Nat.zero_add, vecAt_of_lt hj, bind, Except.bind] at hbody
    rcases compileMaterial_total env bp j mats[j] hinv with ⟨st', hok⟩ | ⟨n, what, hn, ho, hw⟩
    · rw [hok] at hbody; cases hbody
    · rw [hw] at hbody
      cases hbody
      exact ⟨⟨n, texRefs_of_get hom hn, ho⟩, what, rfl⟩

theorem vecAt_error {α : Type} {v : List α} {k : Nat} {e : Failure}
    (h : vecAt v k = .error e) : e = .out_of_range := by
  unfold vecAt at h
  cases hv : v[k]? with
  | some x => rw [hv] at h; cases h
  | none => rw [hv] at h; cases h; rfl

theorem vecAtI_error {α : Type} {v : List α} {k : Int} {e : Failure}
    (h : vecAtI v k = .error e) : e = .out_of_range := by
  unfold vecAtI at h
  by_cases hk : k < 0
  · simp only [hk, if_true] at h; cases h; rfl
  · simp only [hk, if_false] at h; exact vecAt_error h

theorem forLoop_error_kind {σ : Type} (body : Nat → σ → Result σ) (Q : Failure → Prop)
    (hbody : ∀ i s e, body i s = .error e → Q e) (n i : Nat) (s : σ) (e : Failure)
    (h : forLoop body n i s = .error e) : Q e := by
  obtain ⟨j, sj, _, _, hb⟩ := forLoop_error body n i s e h
  exact hbody _ _ _ hb

/-- An iteration of the triangle loop does not throw: when it does not return,
it has read a vector past its end. -/
theorem triangleStep_error {mesh : mesh_t} {s i : Nat} {st : LoadState} {e : Failure}
    (h : triangleStep mesh s i st = .error e) : e = .out_of_range := by
  unfold triangleStep at h
  simp only [bind, Except.bind, pure, Except.pure] at h
  cases h0 : vecAt mesh.indices (3 * i) with
  | error e' => rw [h0] at h; simp only [Except.error.injEq] at h; subst h; exact vecAt_error h0
  | ok i0 =>
  cases h1 : vecAt mesh.indices (3 * i + 1) with
  | error e' =>
    rw [h0, h1] at h; simp only [Except.error.injEq] at h; subst h; exact vecAt_error h1
  | ok i1 =>
  cases h2 : vecAt mesh.indices (3 * i + 2) with
  | error e' =>
    rw [h0, h1, h2] at h; simp only [Except.error.injEq] at h; subst h; exact vecAt_error h2
  | ok i2 =>
  cases h3 : vecAt mesh.material_ids i with
  | error e' =>
    rw [h0, h1, h2, h3] at h; simp only [Except.error.injEq] at h; subst h
    exact vecAt_error h3
  | ok id =>
  rw [h0, h1, h2, h3] at h
  simp only at h
  cases h4 : vecAtI st.scene.materials_ (mapIndex st.matmap id).1 with
  | error e' => rw [h4] at h; simp only [Except.error.injEq] at h; subst h; exact vecAtI_error h4
  | ok node => rw [h4] at h; simp at h

/-- An iteration of the shape loop does not throw. -/
theorem shapeStep_error {objshapes : List shape_t} {s : Nat} {st : LoadState} {e : Failure}
    (h : shapeStep objshapes s st = .error e) : e = .out_of_range := by
  unfold shapeStep at h
  simp only [bind, Except.bind, pure, Except.pure] at h
  cases hs : vecAt objshapes s with
  | error e' => rw [hs] at h; simp only [Except.error.injEq] at h; subst h; exact vecAt_error hs
  | ok sh =>
    rw [hs] at h
    simp only [copyVertices_eq, copyNormals_eq, copyUVs_eq] at h
    cases ht : forLoop (triangleStep sh.mesh s) (sh.mesh.indices.length / 3) 0
        { st with scene := { st.scene with
            vertices_ := st.scene.vertices_ ++ shapeVertices sh.mesh
            normals_ := st.scene.normals_ ++ shapeNormals sh.mesh
            uvs_ := st.scene.uvs_ ++ shapeUVs sh.mesh } } with
    | error e' =>
      rw [ht] at h; simp only [Except.error.injEq] at h; subst h
      exact forLoop_error_kind _ (fun e => e = .out_of_range)
        (fun _ _ _ hb => triangleStep_error hb) _ _ _ _ ht
    | ok st4 => rw [ht] at h; simp at h

/-- The shape loop does not throw. -/
theorem shapeLoop_error {objshapes : List shape_t} {st : LoadState} {e : Failure}
    (h : shapeLoop objshapes st = .error e) : e = .out_of_range :=
  forLoop_error_kind _ (fun e => e = .out_of_range)
    (fun _ _ _ hb => shapeStep_error hb) _ _ _ _ h

/-- An iteration of the triangle loop returns when the three indices and the
material id of the triangle exist and the id is one of the raw materials. -/
theorem triangleStep_progress {mesh : mesh_t} {s i n : Nat} {st0 st : LoadState} {id : Int}
    (hk : KeepsTable st0 st) (hinv : MatmapInv n st0)
    (h3 : 3 * i + 2 < mesh.indices.length) (hid : mesh.material_ids[i]? = some id)
    (hr : 0 ≤ id ∧ id < (n : Int)) :
    ∃ st', triangleStep mesh s i st = .ok st' ∧ KeepsTable st0 st' := by
  have hex : ∃ st', triangleStep mesh s i st = .ok st' := by
    obtain ⟨v, node, hf, hv, hn, _⟩ := hinv id.toNat (by omega)
    have hcast : ((id.toNat : Nat) : Int) = id := by omega
    rw [hcast] at hf
    have hf' := hk.2 id v hf
    have h4 : vecAtI st.scene.materials_ (mapIndex st.matmap id).1 = .ok node := by
      rw [vecAtI_eq_ok, mapIndex_fst]
      have hv' : matmapAt st.matmap id = v := by simp [matmapAt, hf']
      rw [hv', hk.1]
      exact ⟨hv, hn⟩
    unfold triangleStep
    simp only [bind, Except.bind, pure, Except.pure]
    rw [vecAt_of_lt (show 3 * i < mesh.indices.length by omega),
      vecAt_of_lt (show 3 * i + 1 < mesh.indices.length by omega),
      vecAt_of_lt h3, vecAt_eq_ok.2 hid]
    simp only
    rw [h4]
    exact ⟨_, rfl⟩
  obtain ⟨st', h⟩ := hex
  refine ⟨st', h, ?_⟩
  obtain ⟨i0, i1, i2, id', es, _, _, _, _, hsc, hm, _⟩ := triangleStep_ok h
  refine ⟨?_, ?_⟩
  · rw [hsc]; exact hk.1
  · intro k v hkv; rw [hm]; exact mapIndex_keeps _ _ _ _ (hk.2 k v hkv)

/-- An iteration of the shape loop returns for a well-formed mesh. -/
theorem shapeStep_progress {objshapes : List shape_t} {s n : Nat} {st0 st : LoadState}
    {sh : shape_t} (hk : KeepsTable st0 st) (hinv : MatmapInv n st0)
    (hs : objshapes[s]? = some sh) (hwf : WellFormedIds n sh.mesh) :
    ∃ st', shapeStep objshapes s st = .ok st' ∧ KeepsTable st0 st' := by
  obtain ⟨st4, ht, hk4⟩ := forLoop_progress (triangleStep sh.mesh s)
    (fun _ x => KeepsTable st0 x) 0 (sh.mesh.indices.length / 3)
    (by
      intro i x _ hi hx
      have hi' : i < sh.mesh.indices.length / 3 := by omega
      have hlt : i < sh.mesh.material_ids.length := by have := hwf.1; omega
      have hid := List.getElem?_eq_getElem hlt
      have hmem : sh.mesh.material_ids[i] ∈ shapeRawIds sh.mesh := by
        unfold shapeRawIds
        rw [List.mem_iff_getElem?]
        exact ⟨i, by rw [List.getElem?_take_of_lt hi']; exact hid⟩
      have h3 : 3 * i + 2 < sh.mesh.indices.length := by omega
      exact triangleStep_progress hx hinv h3 hid (hwf.2 _ hmem))
    { st with scene := { st.scene with
        vertices_ := st.scene.vertices_ ++ shapeVertices sh.mesh
        normals_ := st.scene.normals_ ++ shapeNormals sh.mesh
        uvs_ := st.scene.uvs_ ++ shapeUVs sh.mesh } }
    ⟨hk.1, hk.2⟩
  refine ⟨{ st4 with scene := { st4.scene with
    shapes_ := st4.scene.shapes_ ++ [shapeRecord st.scene sh.mesh] } }, ?_, ⟨hk4.1, hk4.2⟩⟩
  unfold shapeStep
  simp only [bind, Except.bind, pure, Except.pure]
  rw [vecAt_eq_ok.2 hs]
  simp only [copyVertices_eq, copyNormals_eq, copyUVs_eq]
  rw [ht]
  rfl

/-- The shape loop returns when every mesh is well-formed and the material
table holds every raw material. -/
theorem shapeLoop_progress {objshapes : List shape_t} {n : Nat} {st1 : LoadState}
    (hinv : MatmapInv n st1) (hwf : ∀ sh ∈ objshapes, WellFormedIds n sh.mesh) :
    ∃ st2, shapeLoop objshapes st1 = .ok st2 := by
  obtain ⟨st2, h, _⟩ := forLoop_progress (shapeStep objshapes)
    (fun _ x => KeepsTable st1 x) 0 objshapes.length
    (by
      intro s x _ hs hx
      have hlt : s < objshapes.length := by omega
      exact shapeStep_progress hx hinv (List.getElem?_eq_getElem hlt)
        (hwf _ (List.getElem_mem hlt)))
    st1 ⟨rfl, fun _ _ h => h⟩
  exact ⟨st2, by simpa [shapeLoop] using h⟩

/-- C12: `LoadFromObj` throws a runtime error exactly when the parser reports
a non-empty error string or some diffuse or normal texture name of a material
cannot be opened (a cached name is one that was opened, so a name that cannot
be opened is never cached), and then no scene is returned: the result is the
exception. When neither is the case and the parser's output is well-formed
(every triangle has a material id, which is one of the raw materials), it
returns a scene. -/
theorem load_throws_iff (env : Env) (filename basepath : String) :
    ((∃ what, LoadFromObj env filename basepath = .error (.runtime_error what)) ↔
      ((env.LoadObj filename basepath).2.2 ≠ "" ∨
        ∃ n ∈ texRefs (env.LoadObj filename basepath).2.1,
          env.ImageInput_open (basepath ++ n) = none)) ∧
    ((∃ what, LoadFromObj env filename basepath = .error (.runtime_error what)) →
      ¬ ∃ scene, LoadFromObj env filename basepath = .ok scene) ∧
    ((env.LoadObj filename basepath).2.2 = "" →
      (∀ n ∈ texRefs (env.LoadObj filename basepath).2.1,
        env.ImageInput_open (basepath ++ n) ≠ none) →
      (∀ sh ∈ (env.LoadObj filename basepath).1,
        WellFormedIds (env.LoadObj filename basepath).2.1.length sh.mesh) →
      ∃ scene, LoadFromObj env filename basepath = .ok scene) := by
  have hL : LoadFromObj env filename basepath =
      if (env.LoadObj filename basepath).2.2 ≠ "" then
        .error (.runtime_error (env.LoadObj filename basepath).2.2)
      else
        (materialLoop env basepath (env.LoadObj filename basepath).2.1 LoadState.init).bind
          (fun st1 => (shapeLoop (env.LoadObj filename basepath).1 st1).bind
            (fun st2 => .ok (finishScene st2.scene))) := by
    unfold LoadFromObj
    rfl
  refine ⟨⟨?_, ?_⟩, ?_, ?_⟩
  · rintro ⟨what, h⟩
    by_cases hres : (env.LoadObj filename basepath).2.2 = ""
    · right
      rcases materialLoop_total env basepath (env.LoadObj filename basepath).2.1 with
        ⟨_, st1, hm⟩ | ⟨hn, _⟩
      · rw [hL, hm] at h
        simp only [hres, ne_eq, not_true_eq_false, if_false, Except.bind] at h
        cases hsl : shapeLoop (env.LoadObj filename basepath).1 st1 with
        | error e =>
          rw [hsl] at h
          have := shapeLoop_error hsl
          subst this
          cases h
        | ok st2 => rw [hsl] at h; cases h
      · exact hn
    · left; exact hres
  · rintro (hres | hn)
    · exact ⟨(env.LoadObj filename basepath).2.2, by rw [hL]; simp [hres]⟩
    · by_cases hres : (env.LoadObj filename basepath).2.2 = ""
      · rcases materialLoop_total env basepath (env.LoadObj filename basepath).2.1 with
          ⟨hall, _⟩ | ⟨_, what, hw⟩
        · obtain ⟨n, hmem, ho⟩ := hn
          exact absurd ho (hall n hmem)
        · exact ⟨what, by rw [hL, hw]; simp [hres, Except.bind]⟩
      · exact ⟨(env.LoadObj filename basepath).2.2, by rw [hL]; simp [hres]⟩
  · rintro ⟨what, h⟩ ⟨scene, hs⟩
    rw [h] at hs; cases hs
  · intro hres hall hwf
    rcases materialLoop_total env basepath (env.LoadObj filename basepath).2.1 with
      ⟨_, st1, hm⟩ | ⟨⟨n, hmem, ho⟩, _⟩
    · have hinv : MatmapInv (env.LoadObj filename basepath).2.1.length st1 :=
        materialLoop_matmapInv (by simpa [materialLoop] using hm)
      obtain ⟨st2, hsl⟩ := shapeLoop_progress hinv hwf
      exact ⟨finishScene st2.scene, by rw [hL, hm]; simp [hres, Except.bind, hsl]⟩
    · exact absurd ho (hall n hmem)

theorem load_throws_iff_witness :
    (∃ what, LoadFromObj (sampleEnv true [⟨"quad", quadMesh⟩]
        [sampleMaterial 1 "missing.png" ""] 0) "quad.obj" "" = .error (.runtime_error what)) ∧
    (¬ ∃ scene, LoadFromObj (sampleEnv true [⟨"quad", quadMesh⟩]
        [sampleMaterial 1 "missing.png" ""] 0) "quad.obj" "" = .ok scene) ∧
    (∃ scene, LoadFromObj (sampleEnv true [⟨"quad", quadMesh⟩]
        [sampleMaterial 1 "a.png" ""] 255) "quad.obj" "" = .ok scene) := by
  have hbad := load_throws_iff (sampleEnv true [⟨"quad", quadMesh⟩]
    [sampleMaterial 1 "missing.png" ""] 0) "quad.obj" ""
  have hthrows := hbad.1.2 (Or.inr ⟨"missing.png", by with_unfolding_all decide,
    by with_unfolding_all rfl⟩)
  refine ⟨hthrows, hbad.2.1 hthrows, ?_⟩
  refine (load_throws_iff (sampleEnv true [⟨"quad", quadMesh⟩]
    [sampleMaterial 1 "a.png" ""] 255) "quad.obj" "").2.2 rfl ?_ ?_
  · intro n hn
    have hn' : n = "a.png" := by
      simpa [texRefs, sampleEnv, sampleMaterial] using hn
    subst hn'
    simp [sampleEnv]
  · intro sh hsh
    have hsh' : sh = ⟨"quad", quadMesh⟩ := by simpa [sampleEnv] using hsh
    subst hsh'
    refine ⟨by decide, ?_⟩
    intro id hid
    have hid' : id = 0 := by
      simpa [shapeRawIds, quadMesh] using hid
    subst hid'
    simp [sampleEnv]

/-- The two sample loads evaluated: with the missing texture the load yields
no scene, and the load of the quad with `a.png` returns a scene of one
shape. -/
theorem load_outcome_examples :
    (LoadFromObj (sampleEnv true [⟨"quad", quadMesh⟩]
        [sampleMaterial 1 "missing.png" ""] 0) "quad.obj" "").toOption = none ∧
    ((LoadFromObj (sampleEnv true [⟨"quad", quadMesh⟩]
        [sampleMaterial 1 "a.png" ""] 255) "quad.obj" "").toOption.map
          (fun scene => scene.shapes_.length)) = some 1 := by
  exact ⟨by with_unfolding_all rfl, by with_unfolding_all rfl⟩

/-! ## No emissive node is created (C23) -/

theorem tailNodes_kinds (env : Env) (om : material_t) (d : Material) (n : Nat) (tr : Bool) :
    FiveKinds (tailNodes env om d n tr) := by
  intro m hm
  cases tr <;>
    simp [tailNodes, ggxNode, layeredNode, passthroughNode, mixNode] at hm <;>
    rcases hm with rfl | rfl | rfl | rfl <;> simp

theorem fiveKinds_append {a b : List Material} (ha : FiveKinds a) (hb : FiveKinds b) :
    FiveKinds (a ++ b) := by
  intro m hm
  rcases List.mem_append.1 hm with h | h
  · exact ha m h
  · exact hb m h

/-- The material loop creates nodes of the five kinds only. -/
theorem materialLoop_kinds {env : Env} {bp : String} {mats : List material_t} {n : Nat}
    {st0 st : LoadState} (h0 : FiveKinds st0.scene.materials_)
    (h : forLoop (materialBody env bp mats) n 0 st0 = .ok st) :
    FiveKinds st.scene.materials_ := by
  refine forLoop_invariant (materialBody env bp mats)
    (fun _ s => FiveKinds s.scene.materials_) ?_ n 0 st0 st h0 h
  intro i s s' hP hb
  obtain ⟨om, _, hc⟩ := materialBody_ok hb
  obtain ⟨d, st1, tr, _, _, _, hd, hm, _⟩ := compileMaterial_nodes hc
  rw [hm]
  refine fiveKinds_append hP ?_
  intro m hmem
  rcases List.mem_cons.1 hmem with rfl | hmem
  · exact Or.inl hd
  · exact tailNodes_kinds env om d _ tr m hmem

theorem emissiveOf_kinds {materials : List Material} (hk : FiveKinds materials)
    (s i : Nat) (matidx : Int) : emissiveOf materials s i matidx = [] := by
  unfold emissiveOf
  cases hv : vecAtI materials matidx with
  | error e => rfl
  | ok node =>
    have hmem : node ∈ materials := List.mem_iff_getElem?.2 ⟨_, (vecAtI_eq_ok.1 hv).2⟩
    have hne : node.type ≠ .kEmissive := by
      rcases hk node hmem with h | h | h | h | h <;> rw [h] <;> simp
    simp [hne]

theorem emissiveRecords_kinds {materials : List Material} (hk : FiveKinds materials)
    (tris : List (Nat × Nat × Int)) : emissiveRecords materials tris = [] := by
  unfold emissiveRecords
  induction tris with
  | nil => rfl
  | cons t rest ih => simp [List.flatMap_cons, emissiveOf_kinds hk, ih]

/-- C23.  When `LoadFromObj` returns, `emissives_` is empty: every node of
`materials_` is of kind Lambert, GGX, Fresnel blend, pass-through or mix, none
is of kind `kEmissive`, so the node that any entry of `materialids_` selects
fails the emissive test. -/
theorem emissives_empty (env : Env) (filename basepath : String) (scene : Scene)
    (h : LoadFromObj env filename basepath = .ok scene) :
    scene.emissives_ = [] ∧
    (∀ m ∈ scene.materials_, m.type = .kLambert ∨ m.type = .kMicrofacetGGX ∨
      m.type = .kFresnelBlend ∨ m.type = .kPassthrough ∨ m.type = .kMix) ∧
    (∀ m ∈ scene.materials_, m.type ≠ .kEmissive) ∧
    (∀ (j : Nat) (id : Int) (node : Material), scene.materialids_[j]? = some id →
      vecAtI scene.materials_ id = .ok node → node.type ≠ .kEmissive) := by
  obtain ⟨_, st1, st2, hm, hs, hscene⟩ := LoadFromObj_ok h
  have hk1 : FiveKinds st1.scene.materials_ :=
    materialLoop_kinds (fun m hm => by simp [LoadState.init, Scene.new] at hm) hm
  have hp := shapeLoop_emissives hs
  have hk : FiveKinds scene.materials_ := by
    rw [hscene, finishScene_materials, hp.materials]; exact hk1
  have hne : ∀ m ∈ scene.materials_, m.type ≠ .kEmissive := by
    intro m hmem
    rcases hk m hmem with h | h | h | h | h <;> rw [h] <;> simp
  refine ⟨?_, hk, hne, ?_⟩
  · rw [hscene, finishScene_emissives, hp.emissives, emissiveRecords_kinds hk1,
      (materialLoop_geometry_init hm).2.2.2.2.2.2]
    rfl
  · intro j id node _ hv
    exact hne node (List.mem_iff_getElem?.2 ⟨_, (vecAtI_eq_ok.1 hv).2⟩)

theorem emissives_empty_witness :
    ∃ scene, LoadFromObj (sampleEnv true [⟨"quad", quadMesh⟩]
        [sampleMaterial (3 / 10) "a.png" ""] 0) "quad.obj" "" = .ok scene ∧
      scene.materials_.map (fun m => m.type) =
        [.kLambert, .kMicrofacetGGX, .kFresnelBlend, .kPassthrough, .kMix] ∧
      scene.emissives_ = [] ∧
      (∀ m ∈ scene.materials_, m.type ≠ .kEmissive) := by
  have hs : ∃ scene, LoadFromObj (sampleEnv true [⟨"quad", quadMesh⟩]
      [sampleMaterial (3 / 10) "a.png" ""] 0) "quad.obj" "" = .ok scene ∧
      scene.materials_.map (fun m => m.type) =
        [.kLambert, .kMicrofacetGGX, .kFresnelBlend, .kPassthrough, .kMix] :=
    ⟨_, by with_unfolding_all rfl, by with_unfolding_all rfl⟩
  obtain ⟨scene, h, hty⟩ := hs
  have hthm := emissives_empty _ _ _ scene h
  exact ⟨scene, h, hty, hthm.1, hthm.2.2.1⟩

/-! ## Triangles whose material id is not in the table (C24) -/

theorem LoadFromObj_eq (env : Env) (filename basepath : String) :
    LoadFromObj env filename basepath =
      if (env.LoadObj filename basepath).2.2 ≠ "" then
        .error (.runtime_error (env.LoadObj filename basepath).2.2)
      else
        (materialLoop env basepath (env.LoadObj filename basepath).2.1 LoadState.init).bind
          (fun st1 => (shapeLoop (env.LoadObj filename basepath).1 st1).bind
            (fun st2 => .ok (finishScene st2.scene))) := by
  unfold LoadFromObj
  rfl

/-- The keys of the material table after `n` iterations of the material loop
are among `0, ..., n - 1`. -/
theorem materialLoop_matmap_keys {env : Env} {bp : String} {mats : List material_t} {n : Nat}
    {st : LoadState} (h : forLoop (materialBody env bp mats) n 0 LoadState.init = .ok st) :
    ∀ (r v : Int), mapFind st.matmap r = some v → 0 ≤ r ∧ r < (n : Int) := by
  have key := forLoop_invariant (materialBody env bp mats)
    (fun i s => ∀ (r v : Int), mapFind s.matmap r = some v → 0 ≤ r ∧ r < (i : Int))
    ?_ n 0 LoadState.init st ?_ h
  · simpa using key
  · intro i s s' hP hb r v hr
    obtain ⟨om, _, hc⟩ := materialBody_ok hb
    obtain ⟨d, st1, tr, _, _, _, _, _, hmap⟩ := compileMaterial_nodes hc
    rw [hmap] at hr
    rcases mapFind_mapAssign_cases _ _ _ _ _ hr with ⟨hk, _⟩ | hold
    · subst hk; omega
    · have := hP r v hold
      omega
  · intro r v hr
    simp [LoadState.init, mapFind] at hr

/-- The material table after the material loop has exactly the keys
`0, ..., n - 1`. -/
theorem materialLoop_matmap_none {env : Env} {bp : String} {mats : List material_t}
    {st : LoadState} (h : materialLoop env bp mats LoadState.init = .ok st) (r : Int) :
    mapFind st.matmap r = none ↔ (r < 0 ∨ (mats.length : Int) ≤ r) := by
  have h' : forLoop (materialBody env bp mats) mats.length 0 LoadState.init = .ok st := h
  constructor
  · intro hnone
    by_contra hc
    obtain ⟨v, node, hf, _⟩ := materialLoop_matmapInv h' r.toNat (by omega)
    have hcast : ((r.toNat : Nat) : Int) = r := by omega
    rw [hcast, hnone] at hf
    cases hf
  · intro hr
    cases hf : mapFind st.matmap r with
    | none => rfl
    | some v =>
      have := materialLoop_matmap_keys h' r v hf
      omega

theorem mapIndex_of_none {m : List (Int × Int)} {key : Int} (h : mapFind m key = none) :
    (mapIndex m key).1 = 0 ∧ matmapAt m key = 0 := by
  simp [mapIndex, matmapAt, h]

/-- The first node of `materials_` after the material loop is the Lambert
node of the first raw material. -/
theorem materialLoop_first_node {env : Env} {bp : String} {mats : List material_t}
    {st : LoadState} (h : materialLoop env bp mats LoadState.init = .ok st)
    {om : material_t} (hom : mats[0]? = some om) :
    ∃ kx nx, st.scene.materials_[0]? = some (lambertNode env om kx nx) := by
  obtain ⟨d, st1, tr, more, hl, _, _, hm, _⟩ :=
    materialLoop_nodes_at h hom (forLoop_zero _ _ _)
  obtain ⟨kx, sa, nx, sb, _, _, hd, _⟩ := lambertStep_ok hl
  refine ⟨kx, nx, ?_⟩
  rw [hm, ← hd]
  simp [LoadState.init, Scene.new]

theorem materialLoop_nil {env : Env} {bp : String} :
    materialLoop env bp [] LoadState.init = .ok LoadState.init := rfl

/-- The lookup `materials_[0]` after the material loop is in bounds exactly
when there is a raw material. -/
theorem materialLoop_node_zero {env : Env} {bp : String} {mats : List material_t}
    {st : LoadState} (h : materialLoop env bp mats LoadState.init = .ok st) :
    (∃ node, vecAtI st.scene.materials_ 0 = .ok node) ↔ mats ≠ [] := by
  constructor
  · rintro ⟨node, hn⟩ hnil
    subst hnil
    rw [materialLoop_nil] at h
    cases h
    simp [vecAtI, vecAt, LoadState.init, Scene.new] at hn
  · intro hne
    cases mats with
    | nil => exact absurd rfl hne
    | cons om rest =>
      obtain ⟨kx, nx, hk⟩ := materialLoop_first_node h (show (om :: rest)[0]? = some om by simp)
      exact ⟨_, vecAtI_eq_ok.2 ⟨le_refl _, hk⟩⟩

/-- No raw material is compiled to node `0`. -/
theorem materialLoop_final_not_zero {env : Env} {bp : String} {mats : List material_t}
    {st : LoadState} (h : materialLoop env bp mats LoadState.init = .ok st)
    (k : Nat) (hk : k < mats.length) : matmapAt st.matmap (k : Int) ≠ 0 := by
  obtain ⟨v, node, hf, hv, hn, hty⟩ := materialLoop_matmapInv h k hk
  have hv' : matmapAt st.matmap (k : Int) = v := by simp [matmapAt, hf]
  rw [hv']
  intro hz
  subst hz
  have hlt : 0 < mats.length := by omega
  obtain ⟨kx, nx, h0⟩ := materialLoop_first_node h (List.getElem?_eq_getElem hlt)
  simp only [Int.toNat_zero] at hn
  rw [h0] at hn
  simp only [Option.some.injEq] at hn
  rw [← hn] at hty
  simp [lambertNode] at hty

/-- Inversion of one iteration of the triangle loop as far as the lookup of
the node goes: the compiled index is a valid position of `materials_`. -/
theorem triangleStep_lookup {mesh : mesh_t} {s i : Nat} {st st' : LoadState}
    (h : triangleStep mesh s i st = .ok st') :
    ∃ id node, mesh.material_ids[i]? = some id ∧
      vecAtI st.scene.materials_ (matmapAt st.matmap id) = .ok node ∧
      st'.scene.materialids_ = st.scene.materialids_ ++ [matmapAt st.matmap id] ∧
      st'.scene.materials_ = st.scene.materials_ := by
  obtain ⟨_, _, _, id0, _, _, _, _, hid0, hsc0, _, _⟩ := triangleStep_ok h
  obtain ⟨id1, hid1, _, hmat, _⟩ := triangleStep_emissive h
  have hid : id0 = id1 := by rw [hid0] at hid1; exact Option.some.inj hid1
  unfold triangleStep at h
  simp only [bind, Except.bind, pure, Except.pure] at h
  cases h0 : vecAt mesh.indices (3 * i) with
  | error e => rw [h0] at h; simp at h
  | ok i0 =>
  cases h1 : vecAt mesh.indices (3 * i + 1) with
  | error e => rw [h0, h1] at h; simp at h
  | ok i1 =>
  cases h2 : vecAt mesh.indices (3 * i + 2) with
  | error e => rw [h0, h1, h2] at h; simp at h
  | ok i2 =>
  cases h3 : vecAt mesh.material_ids i with
  | error e => rw [h0, h1, h2, h3] at h; simp at h
  | ok id =>
  rw [h0, h1, h2, h3] at h
  simp only at h
  cases h4 : vecAtI st.scene.materials_ (mapIndex st.matmap id).1 with
  | error e => rw [h4] at h; simp at h
  | ok node =>
    rw [mapIndex_fst] at h4
    have hidd : id = id0 := by
      have := vecAt_eq_ok.1 h3
      rw [hid0] at this
      exact (Option.some.inj this).symm
    subst hidd
    exact ⟨id, node, hid0, h4, by rw [hsc0], hmat⟩

/-- An iteration of the triangle loop for a triangle whose material id is not
a key of the table gives it the compiled index `0`; it returns when
`materials_` has a node, and reads `materials_[0]` out of bounds when it has
none. -/
theorem triangleStep_unmapped {mesh : mesh_t} {s i : Nat} {st : LoadState} {id : Int}
    (h3 : 3 * i + 2 < mesh.indices.length) (hid : mesh.material_ids[i]? = some id)
    (hnone : mapFind st.matmap id = none) :
    (st.scene.materials_ ≠ [] →
      ∃ st', triangleStep mesh s i st = .ok st' ∧
        st'.scene.materialids_ = st.scene.materialids_ ++ [0]) ∧
    (st.scene.materials_ = [] → triangleStep mesh s i st = .error .out_of_range) := by
  have hz := mapIndex_of_none hnone
  have hstep : ∀ r, vecAtI st.scene.materials_ (mapIndex st.matmap id).1 = r →
      (∀ e, r = .error e → triangleStep mesh s i st = .error e) ∧
      (∀ node, r = .ok node → ∃ st', triangleStep mesh s i st = .ok st') := by
    intro r hr
    unfold triangleStep
    simp only [bind, Except.bind, pure, Except.pure]
    rw [vecAt_of_lt (show 3 * i < mesh.indices.length by omega),
      vecAt_of_lt (show 3 * i + 1 < mesh.indices.length by omega),
      vecAt_of_lt h3, vecAt_eq_ok.2 hid]
    simp only
    rw [hr]
    constructor
    · intro e he; rw [he]
    · intro node hn; rw [hn]; exact ⟨_, rfl⟩
  constructor
  · intro hne
    have hlt : 0 < st.scene.materials_.length := List.length_pos.2 hne
    have hv : vecAtI st.scene.materials_ (mapIndex st.matmap id).1 =
        .ok st.scene.materials_[0] := by
      rw [hz.1]; exact vecAtI_eq_ok.2 ⟨le_refl _, List.getElem?_eq_getElem hlt⟩
    obtain ⟨st', hst'⟩ := (hstep _ hv).2 _ rfl
    obtain ⟨id', node, hid', _, hids, _⟩ := triangleStep_lookup hst'
    have : id' = id := by rw [hid] at hid'; exact (Option.some.inj hid').symm
    subst this
    exact ⟨st', hst', by rw [hids, hz.2]⟩
  · intro hnil
    have hv : vecAtI st.scene.materials_ (mapIndex st.matmap id).1 =
        .error .out_of_range := by
      rw [hz.1, hnil]; rfl
    exact (hstep _ hv).1 _ rfl

/-- An iteration of the shape loop that returns is its triangle loop, run to
the end from the state with the vertex streams appended, followed by the
append of the shape record. -/
theorem shapeStep_inv {objshapes : List shape_t} {s : Nat} {st st' : LoadState}
    (h : shapeStep objshapes s st = .ok st') :
    ∃ sh st4, objshapes[s]? = some sh ∧
      forLoop (triangleStep sh.mesh s) (sh.mesh.indices.length / 3) 0
        { st with scene := { st.scene with
            vertices_ := st.scene.vertices_ ++ shapeVertices sh.mesh
            normals_ := st.scene.normals_ ++ shapeNormals sh.mesh
            uvs_ := st.scene.uvs_ ++ shapeUVs sh.mesh } } = .ok st4 ∧
      st' = { st4 with scene := { st4.scene with
        shapes_ := st4.scene.shapes_ ++ [shapeRecord st.scene sh.mesh] } } := by
  unfold shapeStep at h
  simp only [bind, Except.bind, pure, Except.pure] at h
  cases hs : vecAt objshapes s with
  | error e => rw [hs] at h; simp at h
  | ok sh =>
    rw [hs] at h
    simp only [copyVertices_eq, copyNormals_eq, copyUVs_eq] at h
    cases ht : forLoop (triangleStep sh.mesh s) (sh.mesh.indices.length / 3) 0
        { st with scene := { st.scene with
            vertices_ := st.scene.vertices_ ++ shapeVertices sh.mesh
            normals_ := st.scene.normals_ ++ shapeNormals sh.mesh
            uvs_ := st.scene.uvs_ ++ shapeUVs sh.mesh } } with
    | error e => rw [ht] at h; simp at h
    | ok st4 =>
      rw [ht] at h
      simp only [Except.ok.injEq] at h
      exact ⟨sh, st4, vecAt_eq_ok.1 hs, ht, h.symm⟩

/-- Every entry of `materialids_` that the shape loop appends is a valid
position of `materials_`. -/
theorem shapeLoop_ids_valid {objshapes : List shape_t} {n : Nat} {st0 st' : LoadState}
    (h0 : st0.scene.materialids_ = [])
    (h : forLoop (shapeStep objshapes) n 0 st0 = .ok st') :
    ∀ id ∈ st'.scene.materialids_, ∃ node, vecAtI st'.scene.materials_ id = .ok node := by
  refine forLoop_invariant (shapeStep objshapes)
    (fun _ st => ∀ id ∈ st.scene.materialids_, ∃ node, vecAtI st.scene.materials_ id = .ok node)
    ?_ n 0 st0 st' (by intro id hid; rw [h0] at hid; cases hid) h
  intro s st st1 hP hstep
  obtain ⟨sh, st4, _, hloop, hst1⟩ := shapeStep_inv hstep
  have h4 := forLoop_invariant (triangleStep sh.mesh s)
    (fun _ x => ∀ id ∈ x.scene.materialids_, ∃ node, vecAtI x.scene.materials_ id = .ok node)
    (by
      intro i x x' hx hx'
      obtain ⟨id, node, _, hv, hids, hmat⟩ := triangleStep_lookup hx'
      intro id' hid'
      rw [hids] at hid'
      rw [hmat]
      rcases List.mem_append.1 hid' with hm | hm
      · exact hx id' hm
      · simp only [List.mem_singleton] at hm
        subst hm
        exact ⟨node, hv⟩)
    _ 0 _ st4 (by intro id hid; exact hP id hid) hloop
  rw [hst1]
  exact h4

/-- With no node in `materials_`, the shape loop reads a vector out of bounds
at the first triangle it meets. -/
theorem shapeLoop_no_material {objshapes : List shape_t} {st0 : LoadState}
    (h0 : st0.scene.materials_ = [])
    (htri : ∃ sh ∈ objshapes, 3 ≤ sh.mesh.indices.length) :
    shapeLoop objshapes st0 = .error .out_of_range := by
  cases hsl : shapeLoop objshapes st0 with
  | error e => rw [shapeLoop_error hsl]
  | ok st2 =>
    exfalso
    obtain ⟨sh, hmem, h3⟩ := htri
    obtain ⟨s, hs⟩ := List.mem_iff_getElem?.1 hmem
    have hlt : s < objshapes.length := by
      by_contra hc
      rw [List.getElem?_eq_none (by omega)] at hs; cases hs
    obtain ⟨sk, sk1, hpre, hbody, _, _⟩ := forLoop_through hlt hsl
    have hsk := shapeLoop_prefix hpre
    have hmat := hsk.materials
    obtain ⟨sh', st4, hsh', hloop, _⟩ := shapeStep_inv hbody
    have hsame : sh' = sh := by rw [hs] at hsh'; exact (Option.some.inj hsh').symm
    subst hsame
    have hpos : 0 < sh'.mesh.indices.length / 3 := by omega
    obtain ⟨t0, t1, ht0, hstep, _, _⟩ := forLoop_through hpos hloop
    rw [forLoop_zero] at ht0
    obtain ⟨id, node, _, hv, _, _⟩ := triangleStep_lookup hstep
    have ht0' := Except.ok.inj ht0
    rw [← ht0'] at hv
    simp only [hmat, h0] at hv
    have := (vecAtI_eq_ok.1 hv).2
    simp at this

/-- C24.  After the material loop the keys of the material table are the raw
material indices `0, ..., n - 1`, so an id that is negative or at least `n` is
not a key, and reading `matmap[id]` for an id that is not a key yields the
compiled index `0`.  The lookup `materials_[0]` is in bounds exactly when there
is a raw material; node `0` is then the Lambert node of the first raw material,
and no raw material is compiled to node `0`.  In a scene that `LoadFromObj`
returns, a triangle with such an id has the entry `0` in `materialids_`, there
is a raw material, and node `0` is that Lambert node.  With no raw material
and a complete triangle, `LoadFromObj` reads a vector out of bounds. -/
theorem unmapped_material_id (env : Env) (filename basepath : String) :
    (∀ st1 : LoadState,
      materialLoop env basepath (env.LoadObj filename basepath).2.1 LoadState.init = .ok st1 →
      (∀ r : Int, mapFind st1.matmap r = none ↔
        (r < 0 ∨ ((env.LoadObj filename basepath).2.1.length : Int) ≤ r)) ∧
      (∀ r : Int, mapFind st1.matmap r = none → (mapIndex st1.matmap r).1 = 0) ∧
      ((∃ node, vecAtI st1.scene.materials_ 0 = .ok node) ↔
        (env.LoadObj filename basepath).2.1 ≠ []) ∧
      (∀ om, (env.LoadObj filename basepath).2.1[0]? = some om →
        ∃ kx nx, st1.scene.materials_[0]? = some (lambertNode env om kx nx) ∧
          (lambertNode env om kx nx).type = .kLambert) ∧
      (∀ k : Nat, k < (env.LoadObj filename basepath).2.1.length →
        (mapIndex st1.matmap (k : Int)).1 ≠ 0)) ∧
    (∀ scene : Scene, LoadFromObj env filename basepath = .ok scene →
      ∀ (j : Nat) (r : Int),
        ((env.LoadObj filename basepath).1.flatMap (fun sh => shapeRawIds sh.mesh))[j]? =
          some r →
        (r < 0 ∨ ((env.LoadObj filename basepath).2.1.length : Int) ≤ r) →
        scene.materialids_[j]? = some 0 ∧ (env.LoadObj filename basepath).2.1 ≠ [] ∧
        ∃ om kx nx, (env.LoadObj filename basepath).2.1[0]? = some om ∧
          scene.materials_[0]? = some (lambertNode env om kx nx) ∧
          (lambertNode env om kx nx).type = .kLambert) ∧
    ((env.LoadObj filename basepath).2.2 = "" → (env.LoadObj filename basepath).2.1 = [] →
      (∃ sh ∈ (env.LoadObj filename basepath).1, 3 ≤ sh.mesh.indices.length) →
      LoadFromObj env filename basepath = .error .out_of_range) := by
  refine ⟨?_, ?_, ?_⟩
  · intro st1 hm
    refine ⟨materialLoop_matmap_none hm, fun r hr => (mapIndex_of_none hr).1,
      materialLoop_node_zero hm, ?_, ?_⟩
    · intro om hom
      obtain ⟨kx, nx, hk⟩ := materialLoop_first_node hm hom
      exact ⟨kx, nx, hk, rfl⟩
    · intro k hk
      rw [mapIndex_fst]
      exact materialLoop_final_not_zero hm k hk
  · intro scene h j r hj hr
    obtain ⟨st1, st2, hm, hs, hscene, _, _, _, _, hids, hmat⟩ := LoadFromObj_buffers h
    have hnone := (materialLoop_matmap_none hm r).2 hr
    have hentry : st2.scene.materialids_[j]? = some 0 := by
      rw [hids, List.getElem?_map, hj]
      simp [(mapIndex_of_none hnone).2]
    have hvalid := shapeLoop_ids_valid (materialLoop_geometry_init hm).2.2.2.2.1 hs 0
      (List.mem_iff_getElem?.2 ⟨j, hentry⟩)
    rw [hmat] at hvalid
    have hne := (materialLoop_node_zero hm).1 hvalid
    refine ⟨by rw [hscene, (finishScene_fields st2.scene).2.2.2.1]; exact hentry, hne, ?_⟩
    cases hmats : (env.LoadObj filename basepath).2.1 with
    | nil => exact absurd hmats hne
    | cons om rest =>
      have hom : (env.LoadObj filename basepath).2.1[0]? = some om := by rw [hmats]; simp
      obtain ⟨kx, nx, hk⟩ := materialLoop_first_node hm hom
      refine ⟨om, kx, nx, by simp, ?_, rfl⟩
      rw [hscene, finishScene_materials, hmat]
      exact hk
  · intro hres hnil htri
    rw [LoadFromObj_eq, hnil]
    simp only [hres, ne_eq, not_true_eq_false, if_false, materialLoop_nil, Except.bind]
    rw [shapeLoop_no_material (by simp [LoadState.init, Scene.new]) htri]

theorem unmapped_material_id_witness :
    (∃ scene, LoadFromObj (sampleEnv true [⟨"quad", strayMesh⟩] [sampleMaterial 1 "" ""] 0)
        "quad.obj" "" = .ok scene ∧
      scene.materialids_ = [0, 0] ∧
      scene.materials_.map (fun m => m.type) = [.kLambert, .kMicrofacetGGX, .kFresnelBlend] ∧
      scene.materialids_[0]? = some 0 ∧
      ∃ om kx nx, [sampleMaterial 1 "" ""][0]? = some om ∧
        scene.materials_[0]? = some (lambertNode
          (sampleEnv true [⟨"quad", strayMesh⟩] [sampleMaterial 1 "" ""] 0) om kx nx)) ∧
    LoadFromObj (sampleEnv true [⟨"quad", strayMesh⟩] [] 0) "quad.obj" "" =
      .error .out_of_range := by
  have hs : ∃ scene, LoadFromObj (sampleEnv true [⟨"quad", strayMesh⟩]
      [sampleMaterial 1 "" ""] 0) "quad.obj" "" = .ok scene ∧
      scene.materialids_ = [0, 0] ∧
      scene.materials_.map (fun m => m.type) =
        [.kLambert, .kMicrofacetGGX, .kFresnelBlend] :=
    ⟨_, by with_unfolding_all rfl, by with_unfolding_all rfl, by with_unfolding_all rfl⟩
  obtain ⟨scene, h, hids, hty⟩ := hs
  have hB := (unmapped_material_id (sampleEnv true [⟨"quad", strayMesh⟩]
    [sampleMaterial 1 "" ""] 0) "quad.obj" "").2.1 scene h 0 (-1)
    (by with_unfolding_all rfl) (Or.inl (by decide))
  obtain ⟨h0, _, om, kx, nx, hom, hnode, _⟩ := hB
  refine ⟨⟨scene, h, hids, hty, h0, om, kx, nx, hom, hnode⟩, ?_⟩
  exact (unmapped_material_id (sampleEnv true [⟨"quad", strayMesh⟩] [] 0)
    "quad.obj" "").2.2 rfl rfl ⟨⟨"quad", strayMesh⟩, by simp [sampleEnv], by decide⟩

/-! ## The shapes tile the flattened buffers (C25) -/

theorem shapeIndices_length (mesh : mesh_t) :
    (shapeIndices mesh).length = 3 * (mesh.indices.length / 3) := by
  unfold shapeIndices
  rw [List.length_map, List.length_take]
  omega

theorem shapeRawIds_length {mesh : mesh_t}
    (h : mesh.indices.length / 3 ≤ mesh.material_ids.length) :
    (shapeRawIds mesh).length = mesh.indices.length / 3 := by
  unfold shapeRawIds
  rw [List.length_take]
  omega

/-- An iteration of the shape loop keeps the tiling. -/
theorem shapeStep_tiling {objshapes : List shape_t} {s : Nat} {st st' : LoadState}
    (hT : Tiling st.scene) (h : shapeStep objshapes s st = .ok st') :
    Tiling st'.scene ∧
    ∃ sh, objshapes[s]? = some sh ∧
      st'.scene.shapes_ = st.scene.shapes_ ++ [shapeRecord st.scene sh.mesh] := by
  obtain ⟨sh, es, hsh, hsc, _, _, _⟩ := shapeStep_ok h
  obtain ⟨sh', st4, hsh', hloop, _⟩ := shapeStep_inv h
  have hsame : sh' = sh := by rw [hsh] at hsh'; exact (Option.some.inj hsh').symm
  subst hsame
  have hids := (triangleLoop_emissives hloop).ids
  have hshapes : st'.scene.shapes_ = st.scene.shapes_ ++ [shapeRecord st.scene sh'.mesh] := by
    rw [hsc]
  refine ⟨⟨?_, ?_, ?_, ?_⟩, sh', hsh, hshapes⟩
  · intro k shape hk
    rw [hshapes] at hk ⊢
    by_cases hlt : k < st.scene.shapes_.length
    · rw [List.getElem?_append_left hlt] at hk
      rw [List.take_append_of_le_length (le_of_lt hlt)]
      exact hT.starts k shape hk
    · have hk' : k = st.scene.shapes_.length := by
        by_contra hne
        rw [List.getElem?_eq_none (by simp; omega)] at hk
        cases hk
      subst hk'
      rw [List.getElem?_append_right (le_refl _)] at hk
      simp only [Nat.sub_self, List.getElem?_cons_zero, Option.some.injEq] at hk
      rw [List.take_left']
      · rw [← hk]
        exact ⟨hT.indices, hT.vertices⟩
      · rfl
  · rw [hshapes, hsc]
    simp only [List.length_append, shapeIndices_length, List.map_append, List.sum_append,
      List.map_cons, List.map_nil, List.sum_cons, List.sum_nil, shapeRecord]
    have := hT.indices
    push_cast
    omega
  · rw [hshapes, hsc]
    simp only [List.length_append, shapeVertices_length, List.map_append, List.sum_append,
      List.map_cons, List.map_nil, List.sum_cons, List.sum_nil, shapeRecord]
    have := hT.vertices
    push_cast
    omega
  · rw [hsc]
    simp only [List.length_append, shapeIndices_length, List.length_map,
      shapeRawIds_length hids]
    have := hT.ids
    omega

/-- The shape loop keeps the tiling, and appends one record per shape with the
triangle and vertex counts of its mesh. -/
theorem shapeLoop_tiling {objshapes : List shape_t} {n : Nat} {st0 st' : LoadState}
    (hT : Tiling st0.scene) (h0 : st0.scene.shapes_ = [])
    (h : forLoop (shapeStep objshapes) n 0 st0 = .ok st') :
    Tiling st'.scene ∧
    st'.scene.shapes_.map (fun x => (x.numprims, x.numvertices)) =
      (objshapes.take n).map (fun sh =>
        (((sh.mesh.indices.length / 3 : Nat) : Int),
         ((sh.mesh.positions.length / 3 : Nat) : Int))) := by
  have key := forLoop_invariant (shapeStep objshapes)
    (fun i st => Tiling st.scene ∧
      st.scene.shapes_.map (fun x => (x.numprims, x.numvertices)) =
        (objshapes.take i).map (fun sh =>
          (((sh.mesh.indices.length / 3 : Nat) : Int),
           ((sh.mesh.positions.length / 3 : Nat) : Int))))
    ?_ n 0 st0 st' ?_ h
  · simpa using key
  · intro i st st1 hP hstep
    obtain ⟨hT1, sh, hsh, hshapes⟩ := shapeStep_tiling hP.1 hstep
    refine ⟨hT1, ?_⟩
    rw [hshapes, take_succ_of_get objshapes i sh hsh, List.map_append, List.map_append, hP.2]
    rfl
  · exact ⟨hT, by simp [h0]⟩

/-- C25.  After `LoadFromObj` the shapes tile the flattened buffers: shape `s`
starts at index `3 *` (the sum of `numprims` of the shapes before it) and at
vertex (the sum of `numvertices` of the shapes before it); `indices_` has
`3 *` (the sum of all `numprims`) entries, `vertices_` has (the sum of all
`numvertices`) entries, and `materialids_` has one entry per triangle, which is
`indices_.size() / 3`.  There is one record per input shape, whose `numprims`
and `numvertices` are the counts of complete triangles and vertices of its
mesh. -/
theorem shapes_tile_buffers (env : Env) (filename basepath : String) (scene : Scene)
    (h : LoadFromObj env filename basepath = .ok scene) :
    (∀ (s : Nat) (shape : Shape), scene.shapes_[s]? = some shape →
      shape.startidx = 3 * ((scene.shapes_.take s).map (fun x => x.numprims)).sum ∧
      shape.startvtx = ((scene.shapes_.take s).map (fun x => x.numvertices)).sum) ∧
    (scene.indices_.length : Int) = 3 * (scene.shapes_.map (fun x => x.numprims)).sum ∧
    (scene.vertices_.length : Int) = (scene.shapes_.map (fun x => x.numvertices)).sum ∧
    scene.materialids_.length = scene.indices_.length / 3 ∧
    scene.indices_.length = 3 * scene.materialids_.length ∧
    scene.shapes_.map (fun x => (x.numprims, x.numvertices)) =
      (env.LoadObj filename basepath).1.map (fun sh =>
        (((sh.mesh.indices.length / 3 : Nat) : Int),
         ((sh.mesh.positions.length / 3 : Nat) : Int))) := by
  obtain ⟨_, st1, st2, hm, hs, hscene⟩ := LoadFromObj_ok h
  have hg := materialLoop_geometry_init hm
  have hT1 : Tiling st1.scene := by
    refine ⟨?_, ?_, ?_, ?_⟩
    · intro s shape hk
      rw [hg.2.2.2.2.2.1] at hk
      simp at hk
    · rw [hg.2.2.2.1, hg.2.2.2.2.2.1]; simp
    · rw [hg.1, hg.2.2.2.2.2.1]; simp
    · rw [hg.2.2.2.1, hg.2.2.2.2.1]; simp
  obtain ⟨hT, hrec⟩ := shapeLoop_tiling hT1 hg.2.2.2.2.2.1 hs
  rw [List.take_length] at hrec
  have hf := finishScene_fields st2.scene
  rw [hscene, hf.1, hf.2.2.1, hf.2.2.2.1, hf.2.2.2.2.1]
  refine ⟨hT.starts, hT.indices, hT.vertices, ?_, hT.ids, hrec⟩
  have := hT.ids
  omega

theorem shapes_tile_buffers_witness :
    ∃ scene, LoadFromObj (sampleEnv true [⟨"a", triMesh⟩, ⟨"b", quadMesh⟩]
        [sampleMaterial 1 "" ""] 0) "two.obj" "" = .ok scene ∧
      scene.shapes_.map (fun x => (x.startidx, x.numprims, x.startvtx, x.numvertices)) =
        [(0, 1, 0, 3), (3, 2, 3, 4)] ∧
      scene.indices_.length = 9 ∧ scene.vertices_.length = 7 ∧
      scene.materialids_.length = 3 ∧
      (scene.indices_.length : Int) = 3 * (scene.shapes_.map (fun x => x.numprims)).sum ∧
      (scene.vertices_.length : Int) = (scene.shapes_.map (fun x => x.numvertices)).sum ∧
      scene.materialids_.length = scene.indices_.length / 3 := by
  have hs : ∃ scene, LoadFromObj (sampleEnv true [⟨"a", triMesh⟩, ⟨"b", quadMesh⟩]
      [sampleMaterial 1 "" ""] 0) "two.obj" "" = .ok scene ∧
      scene.shapes_.map (fun x => (x.startidx, x.numprims, x.startvtx, x.numvertices)) =
        [(0, 1, 0, 3), (3, 2, 3, 4)] ∧
      scene.indices_.length = 9 ∧ scene.vertices_.length = 7 ∧
      scene.materialids_.length = 3 :=
    ⟨_, by with_unfolding_all rfl, by with_unfolding_all rfl, by with_unfolding_all rfl,
      by with_unfolding_all rfl, by with_unfolding_all rfl⟩
  obtain ⟨scene, h, hsh, hi, hv, hmi⟩ := hs
  have hthm := shapes_tile_buffers _ _ _ scene h
  exact ⟨scene, h, hsh, hi, hv, hmi, hthm.2.1, hthm.2.2.1, hthm.2.2.2.1⟩

/-! ## The number of nodes per raw material (C26) -/

theorem judgedTransparent_eq {env : Env} {bp : String} {mats : List material_t} {k : Nat}
    {stk st1 : LoadState} {om : material_t} {d : Material} {tr : Bool}
    (hpre : forLoop (materialBody env bp mats) k 0 LoadState.init = .ok stk)
    (hom : mats[k]? = some om) (hl : lambertStep env bp om stk = .ok (d, st1))
    (ht : transparencyTest env om d st1.scene = .ok tr) :
    judgedTransparent env bp mats k = tr := by
  unfold judgedTransparent
  rw [hpre, hom]
  simp only [hl, ht]

theorem tailNodes_length (env : Env) (om : material_t) (d : Material) (n : Nat) (tr : Bool) :
    (tailNodes env om d n tr).length = 2 + (if tr then 2 else 0) := by
  cases tr <;> simp [tailNodes]

theorem compileMaterial_names {env : Env} {bp : String} {i : Nat} {om : material_t}
    {st st' : LoadState} (h : compileMaterial env bp i om st = .ok st')
    (hn : st.scene.material_names_.length = st.scene.materials_.length) :
    st'.scene.material_names_.length = st'.scene.materials_.length := by
  obtain ⟨d, st1, tr, hl, _, hst'⟩ := compileMaterial_ok h
  obtain ⟨hm1, hn1, _, _⟩ := lambertStep_materials hl
  have h1 : st1.scene.material_names_.length = st1.scene.materials_.length := by
    rw [hm1, hn1]; simp [hn]
  rw [hst']
  cases tr <;> simp [compiled, afterSpecular, mixStep, pushMaterial, h1]

/-- State of the material loop after `n` iterations: the numbers of nodes and
names, and the table entries of the raw materials compiled so far. -/
theorem materialLoop_count {env : Env} {bp : String} {mats : List material_t} {n : Nat}
    {st : LoadState} (h : forLoop (materialBody env bp mats) n 0 LoadState.init = .ok st) :
    st.scene.materials_.length = 3 * n + 2 * transparentBelow env bp mats n ∧
    st.scene.material_names_.length = st.scene.materials_.length ∧
    ∀ k : Nat, k < n → mapFind st.matmap (k : Int) =
      some (((3 * (k + 1) + 2 * transparentBelow env bp mats (k + 1) : Nat) : Int) - 1) := by
  have key := forLoop_invariant (materialBody env bp mats)
    (fun i s => forLoop (materialBody env bp mats) i 0 LoadState.init = .ok s ∧
      s.scene.materials_.length = 3 * i + 2 * transparentBelow env bp mats i ∧
      s.scene.material_names_.length = s.scene.materials_.length ∧
      ∀ k : Nat, k < i → mapFind s.matmap (k : Int) =
        some (((3 * (k + 1) + 2 * transparentBelow env bp mats (k + 1) : Nat) : Int) - 1))
    ?_ n 0 LoadState.init st ?_ h
  · simp only [Nat.zero_add] at key
    exact key.2
  · intro i s s' hP hb
    obtain ⟨hpre, hlen, hnames, hmap⟩ := hP
    obtain ⟨om, hom, hc⟩ := materialBody_ok hb
    obtain ⟨d, st1, tr, hl, ht, _, _, hm, hmm⟩ := compileMaterial_nodes hc
    have hj := judgedTransparent_eq hpre hom hl ht
    have hT : transparentBelow env bp mats (i + 1) =
        transparentBelow env bp mats i + (if tr then 1 else 0) := by
      simp [transparentBelow, hj]
    have hlen' : s'.scene.materials_.length =
        3 * (i + 1) + 2 * transparentBelow env bp mats (i + 1) := by
      rw [hm, List.length_append, List.length_cons, tailNodes_length, hlen, hT]
      cases tr <;> simp <;> omega
    refine ⟨?_, hlen', compileMaterial_names hc hnames, ?_⟩
    · rw [forLoop_succ_last, hpre]
      simpa [Except.bind] using hb
    · intro k hk
      rw [hmm]
      by_cases hki : k = i
      · subst hki
        rw [mapFind_mapAssign_self, hlen']
      · rw [mapFind_mapAssign_ne _ _ _ _ (by omega)]
        exact hmap k (by omega)
  · refine ⟨rfl, by simp [LoadState.init, Scene.new, transparentBelow],
      by simp [LoadState.init, Scene.new], ?_⟩
    intro k hk
    omega

theorem transparentBelow_mono (env : Env) (bp : String) (mats : List material_t) :
    ∀ {i j : Nat}, i ≤ j → transparentBelow env bp mats i ≤ transparentBelow env bp mats j := by
  intro i j hij
  induction j with
  | zero =>
    have : i = 0 := by omega
    subst this
    exact le_refl _
  | succ j ih =>
    by_cases h : i = j + 1
    · subst h; exact le_refl _
    · have := ih (by omega)
      simp only [transparentBelow]
      omega

theorem finishScene_names (scene : Scene) :
    (finishScene scene).material_names_ = scene.material_names_ := by
  unfold finishScene
  by_cases h : scene.uvs_.isEmpty <;> simp [h]

/-- The nodes of raw material `i` after the material loop: its Lambert node
at the start of its range and its last node, a mix node when the material is
judged transparent and a Fresnel-blend node otherwise, at the end. -/
theorem materialLoop_range {env : Env} {bp : String} {mats : List material_t}
    {st : LoadState} (h : materialLoop env bp mats LoadState.init = .ok st)
    (i : Nat) (hi : i < mats.length) :
    ∃ d last,
      st.scene.materials_[3 * i + 2 * transparentBelow env bp mats i]? = some d ∧
      d.type = .kLambert ∧
      st.scene.materials_[3 * (i + 1) + 2 * transparentBelow env bp mats (i + 1) - 1]? =
        some last ∧
      last.type = (if judgedTransparent env bp mats i then .kMix else .kFresnelBlend) := by
  obtain ⟨sk, _, hsk, _, _, _⟩ := forLoop_through hi h
  have hom := List.getElem?_eq_getElem hi
  have hlen := (materialLoop_count hsk).1
  obtain ⟨d, st1, tr, more, hl, ht, hd, hmat, _⟩ := materialLoop_nodes_at h hom hsk
  have hj := judgedTransparent_eq hsk hom hl ht
  have hz := tailNodes_get_zero env mats[i] d _ tr sk.scene.materials_ more rfl
  rw [← hmat, hlen] at hz
  cases tr with
  | false =>
    have e : 3 * (i + 1) + 2 * transparentBelow env bp mats (i + 1) - 1 =
        3 * i + 2 * transparentBelow env bp mats i + 2 := by
      simp only [transparentBelow, hj]
      simp
      omega
    refine ⟨d, layeredNode (3 * i + 2 * transparentBelow env bp mats i + 2),
      hz.1, hd, ?_, ?_⟩
    · rw [e]; exact hz.2.2
    · simp [hj, layeredNode]
  | true =>
    have hx := tailNodes_get_mix env mats[i] d _ sk.scene.materials_ more rfl
    rw [← hmat, hlen] at hx
    have e : 3 * (i + 1) + 2 * transparentBelow env bp mats (i + 1) - 1 =
        3 * i + 2 * transparentBelow env bp mats i + 4 := by
      simp only [transparentBelow, hj]
      simp
      omega
    refine ⟨d, mixNode (3 * i + 2 * transparentBelow env bp mats i + 4) mats[i].dissolve
      d.kxmapidx, hz.1, hd, ?_, ?_⟩
    · rw [e]; exact hx.2
    · simp [hj, mixNode]

/-- C26.  After `LoadFromObj` on `n` raw materials, with `t_j` the number of
those among `0, ..., j - 1` judged transparent: `materials_` and
`material_names_` have `3 * n + 2 * t_n` entries; the table maps raw material
`i` to `3 * (i + 1) + 2 * t_(i+1) - 1`, and `materialids_` holds the table's
values for the raw ids; the table is strictly increasing; and the nodes of
material `i` are those from `3 * i + 2 * t_i`, where its Lambert node is, to
its table value, where its mix node (if judged transparent) or Fresnel-blend
node is: three or five consecutive nodes, the next range starting right after
the table value. -/
theorem material_node_count (env : Env) (filename basepath : String) (scene : Scene)
    (h : LoadFromObj env filename basepath = .ok scene) :
    scene.materials_.length = 3 * (env.LoadObj filename basepath).2.1.length +
      2 * transparentBelow env basepath (env.LoadObj filename basepath).2.1
        (env.LoadObj filename basepath).2.1.length ∧
    scene.material_names_.length = scene.materials_.length ∧
    ∃ st1, materialLoop env basepath (env.LoadObj filename basepath).2.1
        LoadState.init = .ok st1 ∧
      scene.materialids_ =
        ((env.LoadObj filename basepath).1.flatMap (fun sh => shapeRawIds sh.mesh)).map
          (matmapAt st1.matmap) ∧
      (∀ i : Nat, i < (env.LoadObj filename basepath).2.1.length →
        mapFind st1.matmap (i : Int) = some (((3 * (i + 1) + 2 * transparentBelow env basepath
          (env.LoadObj filename basepath).2.1 (i + 1) : Nat) : Int) - 1) ∧
        (mapIndex st1.matmap (i : Int)).1 = ((3 * (i + 1) + 2 * transparentBelow env basepath
          (env.LoadObj filename basepath).2.1 (i + 1) : Nat) : Int) - 1) ∧
      (∀ i j : Nat, i < j → j < (env.LoadObj filename basepath).2.1.length →
        (mapIndex st1.matmap (i : Int)).1 < (mapIndex st1.matmap (j : Int)).1) ∧
      (∀ i : Nat, i < (env.LoadObj filename basepath).2.1.length →
        ∃ d last,
          scene.materials_[3 * i + 2 * transparentBelow env basepath
            (env.LoadObj filename basepath).2.1 i]? = some d ∧
          d.type = .kLambert ∧
          scene.materials_[3 * (i + 1) + 2 * transparentBelow env basepath
            (env.LoadObj filename basepath).2.1 (i + 1) - 1]? = some last ∧
          last.type = (if judgedTransparent env basepath (env.LoadObj filename basepath).2.1 i
            then .kMix else .kFresnelBlend) ∧
          3 * (i + 1) + 2 * transparentBelow env basepath
              (env.LoadObj filename basepath).2.1 (i + 1) =
            3 * i + 2 * transparentBelow env basepath (env.LoadObj filename basepath).2.1 i +
              (if judgedTransparent env basepath (env.LoadObj filename basepath).2.1 i
                then 5 else 3)) := by
  obtain ⟨st1, st2, hm, hs, hscene, _, _, _, _, hids, hmat⟩ := LoadFromObj_buffers h
  have hcount := materialLoop_count hm
  have hmats : scene.materials_ = st1.scene.materials_ := by
    rw [hscene, finishScene_materials, hmat]
  have hnames : scene.material_names_ = st1.scene.material_names_ := by
    rw [hscene, finishScene_names, (shapeLoop_ok hs).material_names]
  have hval : ∀ i : Nat, i < (env.LoadObj filename basepath).2.1.length →
      (mapIndex st1.matmap (i : Int)).1 = ((3 * (i + 1) + 2 * transparentBelow env basepath
          (env.LoadObj filename basepath).2.1 (i + 1) : Nat) : Int) - 1 := by
    intro i hi
    rw [mapIndex_fst]
    simp [matmapAt, hcount.2.2 i hi]
  refine ⟨by rw [hmats]; exact hcount.1, by rw [hmats, hnames]; exact hcount.2.1,
    st1, hm, ?_, ?_, ?_, ?_⟩
  · rw [hscene, (finishScene_fields st2.scene).2.2.2.1]; exact hids
  · intro i hi
    exact ⟨hcount.2.2 i hi, hval i hi⟩
  · intro i j hij hj
    rw [hval i (by omega), hval j hj]
    have := transparentBelow_mono env basepath (env.LoadObj filename basepath).2.1
      (show i + 1 ≤ j + 1 by omega)
    push_cast
    omega
  · intro i hi
    obtain ⟨d, last, h1, h2, h3, h4⟩ := materialLoop_range hm i hi
    refine ⟨d, last, by rw [hmats]; exact h1, h2, by rw [hmats]; exact h3, h4, ?_⟩
    simp only [transparentBelow]
    cases judgedTransparent env basepath (env.LoadObj filename basepath).2.1 i <;> simp <;> omega

theorem material_node_count_witness :
    ∃ scene, LoadFromObj (sampleEnv true [⟨"quad", strayMesh⟩]
        [sampleMaterial (3 / 10) "" "", sampleMaterial 1 "" ""] 0) "quad.obj" "" = .ok scene ∧
      scene.materials_.map (fun m => m.type) =
        [.kLambert, .kMicrofacetGGX, .kFresnelBlend, .kPassthrough, .kMix,
         .kLambert, .kMicrofacetGGX, .kFresnelBlend] ∧
      scene.materialids_ = [0, 7] ∧
      transparentBelow (sampleEnv true [⟨"quad", strayMesh⟩]
        [sampleMaterial (3 / 10) "" "", sampleMaterial 1 "" ""] 0) ""
        [sampleMaterial (3 / 10) "" "", sampleMaterial 1 "" ""] 2 = 1 ∧
      scene.materials_.length = 3 * 2 + 2 * transparentBelow (sampleEnv true
        [⟨"quad", strayMesh⟩] [sampleMaterial (3 / 10) "" "", sampleMaterial 1 "" ""] 0) ""
        [sampleMaterial (3 / 10) "" "", sampleMaterial 1 "" ""] 2 ∧
      scene.material_names_.length = scene.materials_.length := by
  have hs : ∃ scene, LoadFromObj (sampleEnv true [⟨"quad", strayMesh⟩]
      [sampleMaterial (3 / 10) "" "", sampleMaterial 1 "" ""] 0) "quad.obj" "" = .ok scene ∧
      scene.materials_.map (fun m => m.type) =
        [.kLambert, .kMicrofacetGGX, .kFresnelBlend, .kPassthrough, .kMix,
         .kLambert, .kMicrofacetGGX, .kFresnelBlend] ∧
      scene.materialids_ = [0, 7] :=
    ⟨_, by with_unfolding_all rfl, by with_unfolding_all rfl, by with_unfolding_all rfl⟩
  obtain ⟨scene, h, hty, hids⟩ := hs
  have hthm := material_node_count _ _ _ scene h
  exact ⟨scene, h, hty, hids, by with_unfolding_all rfl, hthm.1, hthm.2.1⟩

/-! ## The element count of the accumulate kernel (C27) -/

/-- C27.  Every upload of the merge loop copies `g_window_width *
g_window_height` elements, the size of the host buffer `fdata` of each device
and of the staging buffer, and every launch of the accumulate kernel has the
global size of that count rounded up to a multiple of `64`; but the element
count passed as the kernel's second argument is `g_window_width *
g_window_width`, which is the number of elements only when the width is `0`
or equals the height.  A device that is not of the primary class and has
published gets one upload and one such launch. -/
theorem accumulate_count_width_squared (w h : Int) (devices : List Device) :
    (∀ c ∈ (mergeLoop w h 0 devices).2,
      c = .Accumulate (w * w) (Int.tdiv (w * h + 63) 64 * 64) ∨
      ∃ i : Nat, c = .WriteBuffer (i : Int) (w * h)) ∧
    (∀ (i : Nat) (dev : Device), devices[i]? = some dev → dev.type ≠ .kPrimary →
      dev.ctrl.newdata = 1 →
      DeviceCall.WriteBuffer (i : Int) (w * h) ∈ (mergeLoop w h 0 devices).2 ∧
      DeviceCall.Accumulate (w * w) (Int.tdiv (w * h + 63) 64 * 64) ∈
        (mergeLoop w h 0 devices).2) ∧
    (∀ t : DeviceType, (InitData_buffers w h t).fdata = w * h) ∧
    (InitData_buffers w h .kPrimary).copybuffer = some (w * h) ∧
    (w * w = w * h ↔ (w = 0 ∨ w = h)) := by
  have hcalls := mergeLoop_calls w h devices 0
  refine ⟨?_, ?_, fun _ => rfl, rfl, ?_⟩
  · intro c hc
    rw [hcalls, List.mem_flatMap] at hc
    obtain ⟨p, _, hp⟩ := hc
    unfold mergeCalls at hp
    by_cases hcond : p.2.type ≠ .kPrimary ∧ p.2.ctrl.newdata = 1
    · rw [if_pos hcond] at hp
      simp only [List.mem_cons, List.mem_singleton, List.not_mem_nil, or_false] at hp
      rcases hp with rfl | rfl
      · exact Or.inr ⟨p.1, rfl⟩
      · exact Or.inl rfl
    · rw [if_neg hcond] at hp
      cases hp
  · intro i dev hdev hsec hnew
    have hmem : (i, dev) ∈ devices.enumFrom 0 := by
      rw [List.mem_iff_getElem?]
      exact ⟨i, by rw [List.getElem?_enumFrom, hdev]; simp⟩
    have hmc : mergeCalls w h i dev =
        [.WriteBuffer (i : Int) (w * h),
         .Accumulate (w * w) (Int.tdiv (w * h + 63) 64 * 64)] := by
      unfold mergeCalls
      rw [if_pos ⟨hsec, hnew⟩]
    constructor
    · rw [hcalls, List.mem_flatMap]
      exact ⟨(i, dev), hmem, by simp only [hmc]; simp⟩
    · rw [hcalls, List.mem_flatMap]
      exact ⟨(i, dev), hmem, by simp only [hmc]; simp⟩
  · constructor
    · intro hEq
      by_cases hw : w = 0
      · exact Or.inl hw
      · exact Or.inr (mul_left_cancel₀ hw hEq)
    · rintro (rfl | rfl) <;> simp

theorem accumulate_count_width_squared_witness :
    mergeLoop 640 480 0 (twoDevices 0 1) =
      (twoDevices 0 0, [.WriteBuffer 1 307200, .Accumulate 409600 307200]) ∧
    (InitData_buffers 640 480 .kSecondary).fdata = 307200 ∧
    (InitData_buffers 640 480 .kPrimary).copybuffer = some 307200 ∧
    DeviceCall.Accumulate (640 * 640) (Int.tdiv (640 * 480 + 63) 64 * 64) ∈
      (mergeLoop 640 480 0 (twoDevices 0 1)).2 ∧
    ¬ ((640 : Int) * 640 = 640 * 480) := by
  refine ⟨by decide, by decide, by decide, ?_, by decide⟩
  exact ((accumulate_count_width_squared 640 480 (twoDevices 0 1)).2.1 1
    ⟨.kSecondary, ⟨0, 0, 1, 1⟩⟩ rfl (by decide) rfl).2

/-! ## The material keys (C21, C28) -/

theorem modeSwitch_eq {κ μ : Type} (R : Rays κ μ) (isPositive : Bool) (a : MaterialState κ μ) :
    modeSwitch R isPositive a =
      match a.g_material_update_mode with
      | .specularRoughness =>
        some (stepOf R.PI .specularRoughness isPositive, { a with g_material_changed := true })
      | .normalMapIntensity =>
        some (stepOf R.PI .normalMapIntensity isPositive, { a with g_material_changed := true })
      | .lightAngle =>
        some (stepOf R.PI .lightAngle isPositive, { a with g_light_changed := true })
      | .other _ => none := by
  unfold modeSwitch
  cases a.g_material_update_mode <;> rfl

theorem lightRotate_eq {κ μ : Type} (R : Rays κ μ) (delta : float) (a : MaterialState κ μ) :
    lightRotate R delta a =
      if a.g_light_changed then
        ({ a with camera_ := R.Rotate delta a.camera_
                  shapes_m := rotatedShapes R delta a.camera_ a.shapes_m }, [delta])
      else (a, []) := by
  unfold lightRotate rotatedShapes
  rfl

/-- The call in specular-roughness mode, in closed form. -/
theorem UpdateMaterialValue_specular {κ μ : Type} (R : Rays κ μ) (isPositive : Bool)
    (a : MaterialState κ μ) (hmode : a.g_material_update_mode = .specularRoughness) :
    UpdateMaterialValue R isPositive a =
      lightRotate R (stepOf R.PI .specularRoughness isPositive)
        { a with
          g_material_changed := true
          specularRoughness_ :=
            a.specularRoughness_ + stepOf R.PI .specularRoughness isPositive
          materials_ := a.materials_.map (fun material =>
            if material.type = .kMicrofacetGGX then
              { material with
                ns := a.specularRoughness_ + stepOf R.PI .specularRoughness isPositive }
            else material) } := by
  unfold UpdateMaterialValue
  rw [modeSwitch_eq, hmode]
  simp only [materialUpdate, hmode, if_true]

/-- The call in normal-map-intensity mode, in closed form. -/
theorem UpdateMaterialValue_normal {κ μ : Type} (R : Rays κ μ) (isPositive : Bool)
    (a : MaterialState κ μ) (hmode : a.g_material_update_mode = .normalMapIntensity) :
    UpdateMaterialValue R isPositive a =
      lightRotate R (stepOf R.PI .normalMapIntensity isPositive)
        { a with
          g_material_changed := true
          normalMapIntensity_ :=
            a.normalMapIntensity_ + stepOf R.PI .normalMapIntensity isPositive
          materials_ := a.materials_.map (fun material =>
            if material.type = .kLambert then
              { material with
                ni := a.normalMapIntensity_ + stepOf R.PI .normalMapIntensity isPositive }
            else material) } := by
  unfold UpdateMaterialValue
  rw [modeSwitch_eq, hmode]
  simp only [materialUpdate, hmode, if_true]
  rfl

/-- The call in light-angle mode, in closed form: no node is touched. -/
theorem UpdateMaterialValue_light {κ μ : Type} (R : Rays κ μ) (isPositive : Bool)
    (a : MaterialState κ μ) (hmode : a.g_material_update_mode = .lightAngle) :
    UpdateMaterialValue R isPositive a =
      lightRotate R (stepOf R.PI .lightAngle isPositive) { a with g_light_changed := true } := by
  unfold UpdateMaterialValue
  rw [modeSwitch_eq, hmode]
  simp only [materialUpdate, hmode]
  by_cases hc : a.g_material_changed = true <;> simp [hc]

theorem lightRotate_frame {κ μ : Type} (R : Rays κ μ) (delta : float) (a : MaterialState κ μ) :
    (lightRotate R delta a).1.materials_ = a.materials_ ∧
    (lightRotate R delta a).1.specularRoughness_ = a.specularRoughness_ ∧
    (lightRotate R delta a).1.normalMapIntensity_ = a.normalMapIntensity_ ∧
    (lightRotate R delta a).1.g_light_changed = a.g_light_changed ∧
    (lightRotate R delta a).1.g_material_changed = a.g_material_changed ∧
    (lightRotate R delta a).1.g_material_update_mode = a.g_material_update_mode := by
  rw [lightRotate_eq]
  by_cases h : a.g_light_changed = true <;> simp [h]

/-- C21.  After `UpdateMaterialValue` in specular-roughness mode the static
`specularRoughness_` is its old value plus the step (`0.1` or `-0.1`);
`materials_` has the same length; at every position a node of kind GGX is the
old node with `ns` set to the new `specularRoughness_`, and a node of any other
kind, a mix node in particular, is the old node; so the kinds are in the same
order and every GGX node of the result has the new value as its `ns`.
`normalMapIntensity_` is not changed. -/
theorem roughness_update {κ μ : Type} (R : Rays κ μ) (isPositive : Bool)
    (a : MaterialState κ μ) (hmode : a.g_material_update_mode = .specularRoughness) :
    (UpdateMaterialValue R isPositive a).1.specularRoughness_ =
      a.specularRoughness_ + (if isPositive then 1 / 10 else -(1 / 10)) ∧
    (UpdateMaterialValue R isPositive a).1.materials_.length = a.materials_.length ∧
    (∀ (k : Nat) (m : Material), a.materials_[k]? = some m →
      (m.type = .kMicrofacetGGX →
        (UpdateMaterialValue R isPositive a).1.materials_[k]? =
          some { m with ns := (UpdateMaterialValue R isPositive a).1.specularRoughness_ }) ∧
      (m.type ≠ .kMicrofacetGGX →
        (UpdateMaterialValue R isPositive a).1.materials_[k]? = some m)) ∧
    (UpdateMaterialValue R isPositive a).1.materials_.map (fun m => m.type) =
      a.materials_.map (fun m => m.type) ∧
    (∀ m ∈ (UpdateMaterialValue R isPositive a).1.materials_, m.type = .kMicrofacetGGX →
      m.ns = (UpdateMaterialValue R isPositive a).1.specularRoughness_) ∧
    (UpdateMaterialValue R isPositive a).1.normalMapIntensity_ = a.normalMapIntensity_ := by
  rw [UpdateMaterialValue_specular R isPositive a hmode]
  obtain ⟨hm, hs, hn, _⟩ := lightRotate_frame R (stepOf R.PI .specularRoughness isPositive)
    { a with
      g_material_changed := true
      specularRoughness_ := a.specularRoughness_ + stepOf R.PI .specularRoughness isPositive
      materials_ := a.materials_.map (fun material =>
        if material.type = .kMicrofacetGGX then
          { material with
            ns := a.specularRoughness_ + stepOf R.PI .specularRoughness isPositive }
        else material) }
  rw [hm, hs, hn]
  refine ⟨rfl, by simp, ?_, ?_, ?_, rfl⟩
  · intro k m hk
    simp only [List.getElem?_map, hk, Option.map_some']
    constructor
    · intro ht; simp [ht]
    · intro ht; simp [ht]
  · rw [List.map_map]
    apply List.map_congr_left
    intro m _
    by_cases ht : m.type = .kMicrofacetGGX <;> simp [ht]
  · intro m hmem ht
    simp only [List.mem_map] at hmem
    obtain ⟨m0, _, hm0⟩ := hmem
    by_cases ht0 : m0.type = .kMicrofacetGGX
    · rw [if_pos ht0] at hm0
      rw [← hm0]
    · rw [if_neg ht0] at hm0
      rw [hm0] at ht0
      exact absurd ht ht0

theorem roughness_update_witness :
    (UpdateMaterialValue angleRays true
        (sampleMaterialState .specularRoughness false false)).1.specularRoughness_ = 3 / 10 ∧
    (UpdateMaterialValue angleRays true
        (sampleMaterialState .specularRoughness false false)).1.materials_.map
          (fun m => (m.type, m.ns)) =
      [(.kLambert, 0), (.kMicrofacetGGX, 3 / 10), (.kFresnelBlend, 0), (.kPassthrough, 0),
       (.kMix, 3 / 10)] ∧
    (UpdateMaterialValue angleRays true
        (sampleMaterialState .specularRoughness false false)).1.materials_.length =
      (sampleMaterialState .specularRoughness false false).materials_.length := by
  refine ⟨by with_unfolding_all rfl, by with_unfolding_all rfl, ?_⟩
  exact (roughness_update angleRays true (sampleMaterialState .specularRoughness false false)
    rfl).2.1

/-- C28.  `UpdateMaterialValue` runs its rotation block, which rotates the
camera and multiplies the transform of every shape, exactly when
`g_light_changed` holds after the mode switch.  In light-angle mode that is
always, with the light step as the angle.  In specular-roughness and
normal-map-intensity mode it is exactly when `g_light_changed` was set on
entry, and the angle is then the material step; when the flag was not set on
entry the camera and every transform are left as they are.  With a mode that
is none of the three nothing happens.  The call sets the flag or leaves it as
it is, so in the three modes the block runs exactly when the flag holds at the
end of the call. -/
theorem light_rotation_block {κ μ : Type} (R : Rays κ μ) (isPositive : Bool)
    (a : MaterialState κ μ) :
    ((UpdateMaterialValue R isPositive a).2 ≠ [] ↔
      (a.g_material_update_mode = .lightAngle ∨
        ((a.g_material_update_mode = .specularRoughness ∨
          a.g_material_update_mode = .normalMapIntensity) ∧ a.g_light_changed = true))) ∧
    (a.g_material_update_mode = .lightAngle →
      (UpdateMaterialValue R isPositive a).2 =
        [if isPositive then 15 * (R.PI / 180) else -15 * (R.PI / 180)] ∧
      (UpdateMaterialValue R isPositive a).1.g_light_changed = true) ∧
    ((a.g_material_update_mode = .specularRoughness ∨
        a.g_material_update_mode = .normalMapIntensity) →
      (UpdateMaterialValue R isPositive a).1.g_light_changed = a.g_light_changed ∧
      (a.g_light_changed = true →
        (UpdateMaterialValue R isPositive a).2 =
          [stepOf R.PI a.g_material_update_mode isPositive] ∧
        (a.g_material_update_mode = .specularRoughness →
          stepOf R.PI a.g_material_update_mode isPositive =
            if isPositive then 1 / 10 else -(1 / 10)) ∧
        (a.g_material_update_mode = .normalMapIntensity →
          stepOf R.PI a.g_material_update_mode isPositive =
            if isPositive then 1 / 5 else -(1 / 5))) ∧
      (a.g_light_changed = false →
        (UpdateMaterialValue R isPositive a).2 = [] ∧
        (UpdateMaterialValue R isPositive a).1.camera_ = a.camera_ ∧
        (UpdateMaterialValue R isPositive a).1.shapes_m = a.shapes_m)) ∧
    (∀ delta, (UpdateMaterialValue R isPositive a).2 = [delta] →
      (UpdateMaterialValue R isPositive a).1.camera_ = R.Rotate delta a.camera_ ∧
      (UpdateMaterialValue R isPositive a).1.shapes_m =
        rotatedShapes R delta a.camera_ a.shapes_m) ∧
    ((UpdateMaterialValue R isPositive a).2 = [] →
      (UpdateMaterialValue R isPositive a).1.camera_ = a.camera_ ∧
      (UpdateMaterialValue R isPositive a).1.shapes_m = a.shapes_m) ∧
    (∀ v, a.g_material_update_mode = .other v → UpdateMaterialValue R isPositive a = (a, [])) ∧
    ((∀ v, a.g_material_update_mode ≠ .other v) →
      ((UpdateMaterialValue R isPositive a).2 ≠ [] ↔
        (UpdateMaterialValue R isPositive a).1.g_light_changed = true)) := by
  cases hmode : a.g_material_update_mode with
  | specularRoughness =>
    rw [UpdateMaterialValue_specular R isPositive a hmode, lightRotate_eq]
    by_cases hl : a.g_light_changed = true
    · simp [hl, stepOf]
    · simp [hl, stepOf]
  | normalMapIntensity =>
    rw [UpdateMaterialValue_normal R isPositive a hmode, lightRotate_eq]
    by_cases hl : a.g_light_changed = true
    · simp [hl, stepOf]
    · simp [hl, stepOf]
  | lightAngle =>
    rw [UpdateMaterialValue_light R isPositive a hmode, lightRotate_eq]
    simp [stepOf]
  | other v =>
    have hU : UpdateMaterialValue R isPositive a = (a, []) := by
      unfold UpdateMaterialValue
      rw [modeSwitch_eq, hmode]
    rw [hU]
    simp

theorem light_rotation_block_witness :
    (UpdateMaterialValue angleRays true (sampleMaterialState .specularRoughness false true)).2 =
      [1 / 10] ∧
    (UpdateMaterialValue angleRays true
      (sampleMaterialState .specularRoughness false true)).1.camera_ = 1 / 10 ∧
    (UpdateMaterialValue angleRays true
      (sampleMaterialState .specularRoughness false true)).1.shapes_m = [1 / 10, 11 / 10] ∧
    (UpdateMaterialValue angleRays true (sampleMaterialState .lightAngle false false)).2 =
      [11 / 42] ∧
    ((UpdateMaterialValue angleRays true
        (sampleMaterialState .specularRoughness false false)).2 = [] ∧
      (UpdateMaterialValue angleRays true
        (sampleMaterialState .specularRoughness false false)).1.camera_ =
          (sampleMaterialState .specularRoughness false false).camera_ ∧
      (UpdateMaterialValue angleRays true
        (sampleMaterialState .specularRoughness false false)).1.shapes_m =
          (sampleMaterialState .specularRoughness false false).shapes_m) := by
  refine ⟨by with_unfolding_all rfl, by with_unfolding_all rfl, by with_unfolding_all rfl,
    by with_unfolding_all rfl, ?_⟩
  exact ((light_rotation_block angleRays true
    (sampleMaterialState .specularRoughness false false)).2.2.1 (Or.inl rfl)).2.2 rfl

/-- `Update` ends by resetting the two change flags, so a flag set by
`UpdateMaterialValue` stays set until the next call of `Update` ends. -/
theorem Update_resets_flags (rv rh : Bool) (g : Globals) :
    (Update rv rh g).1.g_material_changed = false ∧
    (Update rv rh g).1.g_light_changed = false :=
  ⟨rfl, rfl⟩

/-! ## The texture pool stays aligned (C22) -/

theorem finishScene_textures (scene : Scene) :
    (finishScene scene).textures_ = scene.textures_ ∧
    (finishScene scene).texturedata_ = scene.texturedata_ := by
  unfold finishScene
  by_cases h : scene.uvs_.isEmpty <;> simp [h]

theorem LoadFromObj_poolInv {env : Env} {filename basepath : String} {scene : Scene}
    (h : LoadFromObj env filename basepath = .ok scene) : PoolInv scene := by
  obtain ⟨_, st1, st2, hm, hs, hscene⟩ := LoadFromObj_ok h
  have hinv := materialLoop_texInv texInv_init hm
  have hp := shapeLoop_ok hs
  have hf := finishScene_textures st2.scene
  have ht : scene.textures_ = st1.scene.textures_ := by rw [hscene, hf.1, hp.textures_]
  have hd : scene.texturedata_ = st1.scene.texturedata_ := by
    rw [hscene, hf.2, hp.texturedata_]
  refine ⟨?_, ?_, ?_⟩
  · rw [ht, hd]; exact hinv.pool
  · rw [ht, hd]; exact hinv.sizes
  · rw [ht]; exact hinv.offsets

/-- Appending the descriptor and the buffer of a loaded texture keeps the pool
aligned. -/
theorem poolInv_push {sc sc' : Scene} {env : Env} {filename : String} {t : Texture}
    {data : List (List Nat)} (hinv : PoolInv sc)
    (hl : LoadTexture env filename sc.texturedata_ = .ok (t, data))
    (ht : sc'.textures_ = sc.textures_ ++ [t]) (hd : sc'.texturedata_ = data) :
    PoolInv sc' ∧ sc.textures_ <+: sc'.textures_ ∧ sc.texturedata_ <+: sc'.texturedata_ := by
  obtain ⟨buf, hdata, hbuf, hoff, _⟩ := LoadTexture_ok hl
  refine ⟨⟨?_, ?_, ?_⟩, ⟨[t], ht.symm⟩, ⟨[buf], by rw [hd, hdata]⟩⟩
  · rw [ht, hd, hdata]; simp [hinv.pool]
  · intro k t' data' hk hk'
    rw [ht] at hk
    rw [hd, hdata] at hk'
    by_cases hlt : k < sc.textures_.length
    · rw [List.getElem?_append_left hlt] at hk
      rw [List.getElem?_append_left (by rw [hinv.pool]; exact hlt)] at hk'
      exact hinv.sizes k t' data' hk hk'
    · have hge : sc.textures_.length ≤ k := by omega
      rw [List.getElem?_append_right hge] at hk
      rw [List.getElem?_append_right (by rw [hinv.pool]; exact hge), hinv.pool] at hk'
      cases hz : k - sc.textures_.length with
      | zero =>
        rw [hz] at hk hk'
        simp only [List.getElem?_cons_zero, Option.some.injEq] at hk hk'
        rw [← hk, ← hk']; exact hbuf
      | succ j => rw [hz] at hk; simp at hk
  · intro k t' hk
    rw [ht] at hk
    by_cases hlt : k < sc.textures_.length
    · rw [List.getElem?_append_left hlt] at hk
      exact hinv.offsets k t' hk
    · have hge : sc.textures_.length ≤ k := by omega
      rw [List.getElem?_append_right hge] at hk
      cases hz : k - sc.textures_.length with
      | zero =>
        rw [hz] at hk
        simp only [List.getElem?_cons_zero, Option.some.injEq] at hk
        rw [← hk, hoff, hinv.pool]; omega
      | succ j => rw [hz] at hk; simp at hk

/-- Inversion of a successful `SetEnvironment`. -/
theorem SetEnvironment_ok {env : Env} {filename basepath : String} {envmapmul : float}
    {obj obj' : SceneObject} (h : SetEnvironment env filename basepath envmapmul obj = .ok obj') :
    ∃ name t data, LoadTexture env name obj.scene.texturedata_ = .ok (t, data) ∧
      obj'.scene.textures_ = obj.scene.textures_ ++ [t] ∧ obj'.scene.texturedata_ = data ∧
      obj'.scene.envidx_ = (obj.scene.textures_.length : Int) ∧
      obj'.envmapmul_ = envmapmul := by
  unfold SetEnvironment at h
  simp only [bind, Except.bind, pure, Except.pure] at h
  by_cases hb : basepath = ""
  · simp only [hb, ne_eq, not_true_eq_false, if_false] at h
    cases hl : LoadTexture env filename obj.scene.texturedata_ with
    | error e => rw [hl] at h; simp at h
    | ok r =>
      rw [hl] at h
      simp only [Except.ok.injEq] at h
      exact ⟨filename, r.1, r.2, hl, by rw [← h], by rw [← h], by rw [← h], by rw [← h]⟩
  · simp only [hb, ne_eq, not_false_eq_true, if_true] at h
    cases hl : LoadTexture env (basepath ++ filename) obj.scene.texturedata_ with
    | error e => rw [hl] at h; simp at h
    | ok r =>
      rw [hl] at h
      simp only [Except.ok.injEq] at h
      exact ⟨basepath ++ filename, r.1, r.2, hl, by rw [← h], by rw [← h], by rw [← h],
        by rw [← h]⟩

/-- Inversion of a successful `SetBackground`. -/
theorem SetBackground_ok {env : Env} {filename basepath : String}
    {obj obj' : SceneObject} (h : SetBackground env filename basepath obj = .ok obj') :
    ∃ name t data, LoadTexture env name obj.scene.texturedata_ = .ok (t, data) ∧
      obj'.scene.textures_ = obj.scene.textures_ ++ [t] ∧ obj'.scene.texturedata_ = data ∧
      obj'.bgimgidx_ = (obj.scene.textures_.length : Int) := by
  unfold SetBackground at h
  simp only [bind, Except.bind, pure, Except.pure] at h
  by_cases hb : basepath = ""
  · simp only [hb, ne_eq, not_true_eq_false, if_false] at h
    cases hl : LoadTexture env filename obj.scene.texturedata_ with
    | error e => rw [hl] at h; simp at h
    | ok r =>
      rw [hl] at h
      simp only [Except.ok.injEq] at h
      exact ⟨filename, r.1, r.2, hl, by rw [← h], by rw [← h], by rw [← h]⟩
  · simp only [hb, ne_eq, not_false_eq_true, if_true] at h
    cases hl : LoadTexture env (basepath ++ filename) obj.scene.texturedata_ with
    | error e => rw [hl] at h; simp at h
    | ok r =>
      rw [hl] at h
      simp only [Except.ok.injEq] at h
      exact ⟨basepath ++ filename, r.1, r.2, hl, by rw [← h], by rw [← h], by rw [← h]⟩

/-- A successful setter call keeps the pool aligned and keeps the descriptors
and buffers that were there. -/
theorem applySetter_poolInv {env : Env} {c : SetterCall} {obj obj' : SceneObject}
    (hinv : PoolInv obj.scene) (h : applySetter env c obj = .ok obj') :
    PoolInv obj'.scene ∧ obj.scene.textures_ <+: obj'.scene.textures_ ∧
      obj.scene.texturedata_ <+: obj'.scene.texturedata_ := by
  cases c with
  | SetEnvironment filename basepath envmapmul =>
    obtain ⟨name, t, data, hl, ht, hd, _⟩ := SetEnvironment_ok h
    exact poolInv_push hinv hl ht hd
  | SetBackground filename basepath =>
    obtain ⟨name, t, data, hl, ht, hd, _⟩ := SetBackground_ok h
    exact poolInv_push hinv hl ht hd

theorem applySetters_poolInv :
    ∀ (calls : List (Env × SetterCall)) (obj obj' : SceneObject), PoolInv obj.scene →
      applySetters calls obj = .ok obj' →
      PoolInv obj'.scene ∧ obj.scene.textures_ <+: obj'.scene.textures_ ∧
        obj.scene.texturedata_ <+: obj'.scene.texturedata_ ∧
        obj'.scene.textures_.length = obj.scene.textures_.length + calls.length := by
  intro calls
  induction calls with
  | nil =>
    intro obj obj' hinv h
    simp only [applySetters, Except.ok.injEq] at h
    subst h
    exact ⟨hinv, List.prefix_refl _, List.prefix_refl _, by simp⟩
  | cons p rest ih =>
    intro obj obj' hinv h
    obtain ⟨env, c⟩ := p
    simp only [applySetters] at h
    cases h1 : applySetter env c obj with
    | error e => rw [h1] at h; cases h
    | ok obj1 =>
      rw [h1] at h
      obtain ⟨hinv1, hp1, hd1⟩ := applySetter_poolInv hinv h1
      obtain ⟨hinv', hp', hd', hlen'⟩ := ih obj1 obj' hinv1 h
      have hlen1 : obj1.scene.textures_.length = obj.scene.textures_.length + 1 := by
        cases c with
        | SetEnvironment filename basepath envmapmul =>
          obtain ⟨_, t, _, _, ht, _⟩ := SetEnvironment_ok h1
          rw [ht]; simp
        | SetBackground filename basepath =>
          obtain ⟨_, t, _, _, ht, _⟩ := SetBackground_ok h1
          rw [ht]; simp
      refine ⟨hinv', hp1.trans hp', hd1.trans hd', ?_⟩
      rw [hlen', hlen1, List.length_cons]
      omega

/-- C22.  After `LoadFromObj`, and after any sequence of `SetEnvironment` and
`SetBackground` calls on the result that all return, `textures_` and
`texturedata_` have the same size and every descriptor `textures_[k]` has
`dataoffset == k`; so the buffer at position `k` of the pool is the one the
descriptor `k` names, and it has the recorded size.  Each call appends one
descriptor and one buffer and leaves the earlier ones as they are. -/
theorem texture_pool_aligned (env : Env) (filename basepath : String) (scene : Scene)
    (h : LoadFromObj env filename basepath = .ok scene)
    (obj obj' : SceneObject) (hobj : obj.scene = scene)
    (calls : List (Env × SetterCall)) (hcalls : applySetters calls obj = .ok obj') :
    obj'.scene.textures_.length = obj'.scene.texturedata_.length ∧
    (∀ (k : Nat) (t : Texture), obj'.scene.textures_[k]? = some t →
      t.dataoffset = k ∧
      ∃ data, obj'.scene.texturedata_[k]? = some data ∧
        obj'.scene.texturedata_[t.dataoffset]? = some data ∧ data.length = t.size) ∧
    scene.textures_ <+: obj'.scene.textures_ ∧
    scene.texturedata_ <+: obj'.scene.texturedata_ ∧
    obj'.scene.textures_.length = scene.textures_.length + calls.length := by
  have hinv0 : PoolInv obj.scene := by rw [hobj]; exact LoadFromObj_poolInv h
  obtain ⟨hinv, hp, hd, hlen⟩ := applySetters_poolInv calls obj obj' hinv0 hcalls
  rw [hobj] at hp hd hlen
  refine ⟨hinv.pool.symm, ?_, hp, hd, hlen⟩
  intro k t hk
  have hoff := hinv.offsets k t hk
  have hlt : k < obj'.scene.texturedata_.length := by
    rw [hinv.pool]
    by_contra hc
    rw [List.getElem?_eq_none (by omega)] at hk; cases hk
  have hdata := List.getElem?_eq_getElem hlt
  exact ⟨hoff, _, hdata, by rw [hoff]; exact hdata, hinv.sizes k t _ hk hdata⟩

theorem texture_pool_aligned_witness :
    ∃ scene obj', LoadFromObj (sampleEnv true [⟨"quad", quadMesh⟩]
        [sampleMaterial 1 "a.png" ""] 255) "quad.obj" "" = .ok scene ∧
      applySetters
        [(sampleEnv true [] [] 255, .SetEnvironment "f.exr" "" 1),
         (sampleEnv true [] [] 0, .SetBackground "a.png" "")]
        { scene := scene, envmapmul_ := 0, bgimgidx_ := -1 } = .ok obj' ∧
      obj'.scene.textures_.map (fun t => t.dataoffset) = [0, 1, 2] ∧
      obj'.scene.texturedata_.map (fun data => data.length) = [4, 16, 4] ∧
      obj'.scene.envidx_ = 1 ∧ obj'.bgimgidx_ = 2 ∧
      obj'.scene.textures_.length = obj'.scene.texturedata_.length ∧
      (∀ (k : Nat) (t : Texture), obj'.scene.textures_[k]? = some t → t.dataoffset = k ∧
        ∃ data, obj'.scene.texturedata_[k]? = some data ∧
          obj'.scene.texturedata_[t.dataoffset]? = some data ∧ data.length = t.size) := by
  have hs : ∃ scene obj', LoadFromObj (sampleEnv true [⟨"quad", quadMesh⟩]
      [sampleMaterial 1 "a.png" ""] 255) "quad.obj" "" = .ok scene ∧
      applySetters
        [(sampleEnv true [] [] 255, .SetEnvironment "f.exr" "" 1),
         (sampleEnv true [] [] 0, .SetBackground "a.png" "")]
        { scene := scene, envmapmul_ := 0, bgimgidx_ := -1 } = .ok obj' ∧
      obj'.scene.textures_.map (fun t => t.dataoffset) = [0, 1, 2] ∧
      obj'.scene.texturedata_.map (fun data => data.length) = [4, 16, 4] ∧
      obj'.scene.envidx_ = 1 ∧ obj'.bgimgidx_ = 2 :=
    ⟨_, _, by with_unfolding_all rfl, by with_unfolding_all rfl, by with_unfolding_all rfl,
      by with_unfolding_all rfl, by with_unfolding_all rfl, by with_unfolding_all rfl⟩
  obtain ⟨scene, obj', h, hc, ho, hl, he, hb⟩ := hs
  have hthm := texture_pool_aligned _ _ _ scene h _ obj' rfl _ hc
  exact ⟨scene, obj', h, hc, ho, hl, he, hb, hthm.1, hthm.2.1⟩

end Baikal
